import Mathlib

/-!
# go-eth2-client: multi-provider wrappers and the deneb JSON codec

A shallow embedding of

* `multi/proposerduties.go`, `multi/validatorbalances.go`,
  `multi/synccommitteecontribution.go` (the operation wrappers around `doCall`);
* `spec/deneb/executionpayload_json.go` (`ExecutionPayload.MarshalJSON`, `unpack`);
* `spec/deneb/beaconblockbody_json.go` (`BeaconBlockBody.MarshalJSON`, `unpack`);

together with the Go library routines these call (`strings.TrimPrefix`,
`hex.DecodeString`, `strconv.ParseUint`, `fmt.Sprintf` with `%#x` and `%d`,
`uint256.FromHex`, `uint256.FromDecimal`, `uint256.Int.Dec`).

Conventions.  A Go `string` is a sequence of bytes and is modelled as a
`List Char` holding one `Char` per byte.  A byte is a `Fin 256`, a fixed
array `[n]byte` is a list of bytes of length `n`.  A slice, map or pointer
that may be `nil` is an `Option`.  Unsigned machine integers are natural
numbers reduced explicitly modulo `2^64`.  A Go function that may panic
returns `Except Panic _`.
-/

namespace Eth2Client

/-! ## Errors -/

/-- Go `error` values.  `new` and `wrap` are `errors.New` and `errors.Wrap`
of `github.com/pkg/errors`; the remaining constructors are the error values of
the library routines used by the codec, `external` stands for an error
produced outside the embedded code (a provider or the dispatcher), and `http`
is a value of the type `http.Error` with its four fields. -/
inductive GoError where
  | new (msg : String)
  | wrap (cause : GoError) (msg : String)
  | hexInvalidByte (c : Char)
  | hexErrLength
  | numSyntax (fn : String) (num : List Char)
  | numRange (fn : String) (num : List Char)
  | uint256Err (msg : String)
  | ioEOF
  | external (id : Nat)
  | http (statusCode : Nat) (data : List (Fin 256)) (method endpoint : List Char)
  deriving DecidableEq, Repr

/-- A Go `error` variable: `none` is the `nil` error. -/
abbrev Err := Option GoError

/-- The message `err.Error()`.  `errors.New` gives its message, `errors.Wrap`
the wrapping message, `": "` and the message of the cause; the messages of the
other error values are those of `lib`. -/
def GoError.Error (lib : GoError → String) : GoError → String
  | .new msg => msg
  | .wrap cause msg => msg ++ ": " ++ cause.Error lib
  | e => lib e

/-- The chain that `errors.Unwrap` walks: the error, its cause, the cause of
its cause, and so on. -/
def GoError.chain : GoError → List GoError
  | .wrap cause msg => .wrap cause msg :: cause.chain
  | e => [e]

/-- Modelled from the spec: the type `http.Error`, declared in `http/error.go`,
which is not among the embedded files; its fields are those that
`http_test.go` reads. -/
structure HTTPError where
  StatusCode : Nat
  Data : List (Fin 256)
  Method : List Char
  Endpoint : List Char
  deriving DecidableEq, Repr

/-- `errors.As(err, &httpError)` for a target of type `http.Error`: the first
error of the chain that is an `http.Error`, `none` when `As` returns false. -/
def errorsAsHTTP : GoError → Option HTTPError
  | .http statusCode data method endpoint => some ⟨statusCode, data, method, endpoint⟩
  | .wrap cause _ => errorsAsHTTP cause
  | _ => none

deriving instance DecidableEq for Except

/-- A run-time panic. -/
inductive Panic where
  | typeAssertion (wanted : String)
  | nilDereference
  deriving DecidableEq, Repr

/-! ## The multi operation wrappers -/

namespace Multi

/-- The dynamic content of a non-nil `interface{}` value.  The first three
constructors are the result types of the three wrappers (each of which has
its own typed `nil`); `other` is a value of any other dynamic type. -/
inductive Dyn (Duty Contribution : Type) where
  | proposerDuties (v : Option (List (Option Duty)))
  | validatorBalances (v : Option (List (Nat × Nat)))
  | syncCommitteeContribution (v : Option Contribution)
  | other (typeName : String)

/-- A Go `interface{}`: `none` is the `nil` interface. -/
abbrev Iface (Duty Contribution : Type) := Option (Dyn Duty Contribution)

/-- A `consensusclient.Service`.  Each field is the method set of one provider
interface, `none` when the client does not implement that interface. -/
structure Client (Ctx Duty Contribution : Type) where
  proposerDutiesProvider :
    Option (Ctx → Nat → Option (List Nat) → Option (List (Option Duty)) × Err)
  validatorBalancesProvider :
    Option (Ctx → List Char → Option (List Nat) → Option (List (Nat × Nat)) × Err)
  syncCommitteeContributionProvider :
    Option (Ctx → Nat → Nat → List (Fin 256) → Option Contribution × Err)

/-- The closure type handed to `doCall`:
`func(ctx context.Context, client consensusclient.Service) (interface{}, error)`. -/
abbrev CallFunc (Ctx Duty Contribution : Type) :=
  Ctx → Client Ctx Duty Contribution → Except Panic (Iface Duty Contribution × Err)

/-- The type of `(*Service).doCall`, which lives in `multi/service.go`.  Its
third argument is the error handler, always `nil` in the wrappers. -/
abbrev DoCall (Ctx Duty Contribution : Type) :=
  Ctx → CallFunc Ctx Duty Contribution → Option Unit →
    Except Panic (Iface Duty Contribution × Err)

variable {Ctx Duty Contribution : Type}

/-- The closure of `ProposerDuties` (proposerduties.go lines 33-39). -/
def proposerDutiesCall (epoch : Nat) (validatorIndices : Option (List Nat)) :
    CallFunc Ctx Duty Contribution :=
  fun ctx client =>
    match client.proposerDutiesProvider with
    | none => .error (.typeAssertion "consensusclient.ProposerDutiesProvider")
    | some provider =>
      match provider ctx epoch validatorIndices with
      | (_, some err) => .ok (none, some err)
      | (block, none) => .ok (some (.proposerDuties block), none)

/-- `(*Service).ProposerDuties` (proposerduties.go lines 26-47), with `doCall`
as a parameter. -/
def ProposerDuties (doCall : DoCall Ctx Duty Contribution) (ctx : Ctx) (epoch : Nat)
    (validatorIndices : Option (List Nat)) :
    Except Panic (Option (List (Option Duty)) × Err) :=
  match doCall ctx (proposerDutiesCall epoch validatorIndices) none with
  | .error p => .error p
  | .ok (_, some err) => .ok (none, some err)
  | .ok (none, none) => .ok (none, none)
  | .ok (some (.proposerDuties v), none) => .ok (v, none)
  | .ok (some _, none) => .error (.typeAssertion "[]*api.ProposerDuty")

/-- The closure of `ValidatorBalances` (validatorbalances.go lines 28-34). -/
def validatorBalancesCall (stateID : List Char) (validatorIndices : Option (List Nat)) :
    CallFunc Ctx Duty Contribution :=
  fun ctx client =>
    match client.validatorBalancesProvider with
    | none => .error (.typeAssertion "consensusclient.ValidatorBalancesProvider")
    | some provider =>
      match provider ctx stateID validatorIndices with
      | (_, some err) => .ok (none, some err)
      | (block, none) => .ok (some (.validatorBalances block), none)

/-- `(*Service).ValidatorBalances` (validatorbalances.go lines 27-42). -/
def ValidatorBalances (doCall : DoCall Ctx Duty Contribution) (ctx : Ctx)
    (stateID : List Char) (validatorIndices : Option (List Nat)) :
    Except Panic (Option (List (Nat × Nat)) × Err) :=
  match doCall ctx (validatorBalancesCall stateID validatorIndices) none with
  | .error p => .error p
  | .ok (_, some err) => .ok (none, some err)
  | .ok (none, none) => .ok (none, none)
  | .ok (some (.validatorBalances v), none) => .ok (v, none)
  | .ok (some _, none) => .error (.typeAssertion "map[phase0.ValidatorIndex]phase0.Gwei")

/-- The closure of `SyncCommitteeContribution`
(synccommitteecontribution.go lines 33-39). -/
def syncCommitteeContributionCall (slot subcommitteeIndex : Nat)
    (beaconBlockRoot : List (Fin 256)) : CallFunc Ctx Duty Contribution :=
  fun ctx client =>
    match client.syncCommitteeContributionProvider with
    | none => .error (.typeAssertion "consensusclient.SyncCommitteeContributionProvider")
    | some provider =>
      match provider ctx slot subcommitteeIndex beaconBlockRoot with
      | (_, some err) => .ok (none, some err)
      | (block, none) => .ok (some (.syncCommitteeContribution block), none)

/-- `(*Service).SyncCommitteeContribution`
(synccommitteecontribution.go lines 25-47). -/
def SyncCommitteeContribution (doCall : DoCall Ctx Duty Contribution) (ctx : Ctx)
    (slot subcommitteeIndex : Nat) (beaconBlockRoot : List (Fin 256)) :
    Except Panic (Option Contribution × Err) :=
  match doCall ctx (syncCommitteeContributionCall slot subcommitteeIndex beaconBlockRoot)
      none with
  | .error p => .error p
  | .ok (_, some err) => .ok (none, some err)
  | .ok (none, none) => .ok (none, none)
  | .ok (some (.syncCommitteeContribution v), none) => .ok (v, none)
  | .ok (some _, none) => .error (.typeAssertion "*altair.SyncCommitteeContribution")

/-- A dispatcher with one provider: it runs the closure on `client` and returns
the closure's outcome. -/
def singleClientDoCall (client : Client Ctx Duty Contribution) : DoCall Ctx Duty Contribution :=
  fun ctx call _ => call ctx client

/-- A client all of whose providers fail with the error `external 1`. -/
def failingClient : Client Unit Unit Unit where
  proposerDutiesProvider := some (fun _ _ _ => (none, some (.external 1)))
  validatorBalancesProvider := some (fun _ _ _ => (none, some (.external 1)))
  syncCommitteeContributionProvider := some (fun _ _ _ _ => (none, some (.external 1)))

/-- A client all of whose providers answer with data. -/
def answeringClient : Client Unit Unit Unit where
  proposerDutiesProvider := some (fun _ _ _ => (some [some ()], none))
  validatorBalancesProvider := some (fun _ _ _ => (some [(1, 32000000000)], none))
  syncCommitteeContributionProvider := some (fun _ _ _ _ => (some (), none))

/-- A dispatcher that has no data: it returns a `nil` result and a `nil` error. -/
def noDataDoCall : DoCall Unit Unit Unit :=
  fun _ _ _ => .ok (none, none)

/-- A client all of whose providers answer with a `nil` value of their result
type and a `nil` error. -/
def typedNilClient : Client Unit Unit Unit where
  proposerDutiesProvider := some (fun _ _ _ => (none, none))
  validatorBalancesProvider := some (fun _ _ _ => (none, none))
  syncCommitteeContributionProvider := some (fun _ _ _ _ => (none, none))

end Multi

/-! ## Go library routines used by the codec -/

/-- A byte. -/
abbrev Byte := Fin 256

/-- A Go array `[n]byte`. -/
abbrev FixedBytes (n : Nat) := { l : List Byte // l.length = n }

/-- The all-zero array, the zero value of `[n]byte`. -/
def FixedBytes.zero (n : Nat) : FixedBytes n :=
  ⟨List.replicate n 0, List.length_replicate n 0⟩

/-- Go's builtin `copy(dst[:], src)` with an array as destination: the first
`min (len dst) (len src)` bytes of `dst` are overwritten. -/
def copyBytes {n : Nat} (dst : FixedBytes n) (src : List Byte) : FixedBytes n :=
  ⟨src.take n ++ dst.val.drop (min n src.length), by
    have h := dst.property
    simp only [List.length_append, List.length_take, List.length_drop, h]
    omega⟩

/-- `strings.TrimPrefix`. -/
def TrimPrefix (s pre : List Char) : List Char :=
  if pre.isPrefixOf s then s.drop pre.length else s

/-- `strings.HasPrefix`. -/
def HasPrefix (s pre : List Char) : Bool :=
  pre.isPrefixOf s

/-- The `reverseHexTable` of `encoding/hex`: the value of a hexadecimal digit
of either case, `none` for every other byte. -/
def fromHexChar (c : Char) : Option (Fin 16) :=
  if h : 48 ≤ c.toNat ∧ c.toNat ≤ 57 then some ⟨c.toNat - 48, by omega⟩
  else if h : 97 ≤ c.toNat ∧ c.toNat ≤ 102 then some ⟨c.toNat - 87, by omega⟩
  else if h : 65 ≤ c.toNat ∧ c.toNat ≤ 70 then some ⟨c.toNat - 55, by omega⟩
  else none

/-- The byte `(a << 4) | b` built from two nibbles. -/
def mkByte (a b : Fin 16) : Byte :=
  ⟨a.val * 16 + b.val, by omega⟩

/-- `hex.DecodeString`: pairs of hexadecimal digits, the first offending byte
reported as `InvalidByteError`, an odd length as `ErrLength`.  The bytes
decoded before an error are not returned (every caller discards them). -/
def DecodeString : List Char → Except GoError (List Byte)
  | [] => .ok []
  | [p] =>
    match fromHexChar p with
    | none => .error (.hexInvalidByte p)
    | some _ => .error .hexErrLength
  | p :: q :: rest =>
    match fromHexChar p with
    | none => .error (.hexInvalidByte p)
    | some a =>
      match fromHexChar q with
      | none => .error (.hexInvalidByte q)
      | some b =>
        match DecodeString rest with
        | .error err => .error err
        | .ok bs => .ok (mkByte a b :: bs)

/-- The lower-case hexadecimal digit of a nibble (`ldigits` of package `fmt`). -/
def hexDigit (n : Fin 16) : Char :=
  match n.val with
  | 0 => '0' | 1 => '1' | 2 => '2' | 3 => '3' | 4 => '4' | 5 => '5' | 6 => '6' | 7 => '7'
  | 8 => '8' | 9 => '9' | 10 => 'a' | 11 => 'b' | 12 => 'c' | 13 => 'd' | 14 => 'e'
  | _ => 'f'

/-- The two lower-case hexadecimal digits of every byte, in order. -/
def hexDigits : List Byte → List Char
  | [] => []
  | b :: bs =>
    hexDigit ⟨b.val / 16, by omega⟩ :: hexDigit ⟨b.val % 16, by omega⟩ :: hexDigits bs

/-- `fmt.Sprintf("%#x", b)` for a byte slice or byte array `b`: nothing at all
for an empty `b`, otherwise `0x` followed by the lower-case digits. -/
def SprintfHex (b : List Byte) : List Char :=
  if b.length = 0 then [] else '0' :: 'x' :: hexDigits b

/-- The decimal digit of a value below ten. -/
def decDigit (d : Nat) : Char :=
  match d with
  | 0 => '0' | 1 => '1' | 2 => '2' | 3 => '3' | 4 => '4' | 5 => '5' | 6 => '6' | 7 => '7'
  | 8 => '8' | _ => '9'

/-- The digit loop of `fmt` and `strconv` for an unsigned value: digits are
produced from the least significant one while the value is at least ten. -/
def fmtDigits : Nat → Nat → List Char → List Char
  | 0, u, acc => decDigit (u % 10) :: acc
  | fuel + 1, u, acc =>
    if u < 10 then decDigit u :: acc
    else fmtDigits fuel (u / 10) (decDigit (u % 10) :: acc)

/-- `fmt.Sprintf("%d", u)` for an unsigned `u`, also `(*uint256.Int).Dec`. -/
def SprintfDec (u : Nat) : List Char :=
  fmtDigits u u []

/-- The largest `uint64`. -/
def maxUint64 : Nat := 2 ^ 64 - 1

/-- The loop of `strconv.ParseUint(s, 10, 64)` over the bytes of `s`, `n` the
value accumulated so far (a `uint64`, so sums are reduced modulo `2^64`).
`s0` is the whole input, quoted by the error. -/
def parseUintLoop (s0 : List Char) : List Char → Nat → Nat × Err
  | [], n => (n, none)
  | c :: cs, n =>
    if 48 ≤ c.toNat ∧ c.toNat ≤ 57 then
      let d := c.toNat - 48
      if n ≥ maxUint64 / 10 + 1 then (maxUint64, some (.numRange "ParseUint" s0))
      else
        let n := n * 10 % 2 ^ 64
        let n1 := (n + d) % 2 ^ 64
        if n1 < n ∨ n1 > maxUint64 then (maxUint64, some (.numRange "ParseUint" s0))
        else parseUintLoop s0 cs n1
    else (0, some (.numSyntax "ParseUint" s0))

/-- `strconv.ParseUint(s, 10, 64)`: the value and the error.  With an error the
value is `0` (syntax) or the largest `uint64` (range). -/
def ParseUint (s : List Char) : Nat × Err :=
  if s = [] then (0, some (.numSyntax "ParseUint" s))
  else parseUintLoop s s 0

/-- The value of a string of decimal digits read most significant digit first. -/
def decValue (s : List Char) : Nat :=
  s.foldl (fun n c => n * 10 + (c.toNat - 48)) 0

/-- Whether every byte of the string is an ASCII decimal digit. -/
def allDigits (s : List Char) : Bool :=
  s.all (fun c => decide (48 ≤ c.toNat ∧ c.toNat ≤ 57))

/-- Whether every byte of the string is a hexadecimal digit of either case. -/
def allHexDigits (s : List Char) : Bool :=
  s.all (fun c => (fromHexChar c).isSome)

/-- The value of a string of hexadecimal digits read most significant digit
first. -/
def hexNumber (s : List Char) : Nat :=
  s.foldl (fun n c => n * 16 + ((fromHexChar c).map Fin.val).getD 0) 0

/-! ### `github.com/holiman/uint256` -/

/-- The value of a string of hexadecimal digits of either case, `none` when a
byte is not a hexadecimal digit (`badNibble`). -/
def hexValue : List Char → Nat → Option Nat
  | [], n => some n
  | c :: cs, n =>
    match fromHexChar c with
    | none => none
    | some d => hexValue cs (n * 16 + d.val)

/-- `checkNumberS` of package `uint256`. -/
def checkNumberS (input : List Char) : Err :=
  match input with
  | [] => some (.uint256Err "empty hex string")
  | [_] => some (.uint256Err "hex string without 0x prefix")
  | c0 :: c1 :: rest =>
    if c0 ≠ '0' ∨ (c1 ≠ 'x' ∧ c1 ≠ 'X') then some (.uint256Err "hex string without 0x prefix")
    else
      match rest with
      | [] => some (.uint256Err "hex string \"0x\"")
      | [_] => none
      | d :: _ :: _ => if d = '0' then some (.uint256Err "hex number with leading zero digits")
        else none

/-- `uint256.FromHex`: the string must carry the `0x` prefix, have no leading
zero digit and at most 64 digits.  The pointer is `nil` with an error. -/
def FromHex (hex : List Char) : Option Nat × Err :=
  match checkNumberS hex with
  | some err => (none, some err)
  | none =>
    if hex.length > 66 then (none, some (.uint256Err "hex number > 256 bits"))
    else
      match hexValue (hex.drop 2) 0 with
      | none => (none, some (.uint256Err "invalid hex string"))
      | some v => (some (v % 2 ^ 256), none)

/-- The decimal rendering of `2^256 - 1` (`twoPow256Sub1`), 78 digits. -/
def twoPow256Sub1 : List Char :=
  "115792089237316195423570985008687907853269984665640564039457584007913129639935".toList

/-- Go's `>` on strings: bytewise lexicographic order. -/
def strGt : List Char → List Char → Bool
  | [], _ => false
  | _ :: _, [] => true
  | a :: as, b :: bs =>
    if a.toNat > b.toNat then true
    else if a.toNat < b.toNat then false
    else strGt as bs

/-- Removal of leading zeroes in `SetFromDecimal`: every `0` that is followed
by another byte is dropped, so a string of zeroes becomes `"0"`. -/
def dropLeadingZeros : List Char → List Char
  | c :: d :: rest => if c = '0' then dropLeadingZeros (d :: rest) else c :: d :: rest
  | s => s

/-- The group of bytes on which the loop of `fromDecimal` stops.  The loop
takes the string in groups of 19 bytes from its end, the last group being what
is left, for at most `rounds` groups, and hands each group to
`strconv.ParseUint`; the first group that holds a byte other than a digit is
the one the error quotes. -/
def failingGroup : Nat → List Char → List Char
  | 0, bs => bs
  | rounds + 1, bs =>
    if bs.length > 19 then
      if allDigits (bs.drop (bs.length - 19)) then
        failingGroup rounds (bs.take (bs.length - 19))
      else bs.drop (bs.length - 19)
    else bs

/-- `(*uint256.Int).fromDecimal` on the strings of at most 78 bytes that
`SetFromDecimal` hands to it: the digits are read in groups of 19 with
`strconv.ParseUint`, over the five multipliers, and summed, so the whole
string is the value when every byte is a digit; otherwise the error is the
syntax error of `ParseUint` for the first group, from the end, that holds
another byte. -/
def fromDecimal (bs : List Char) : Option Nat × Err :=
  if bs = [] then (none, some .ioEOF)
  else if allDigits bs then (some (decValue bs % 2 ^ 256), none)
  else (none, some (.numSyntax "ParseUint" (failingGroup 5 bs)))

/-- `uint256.FromDecimal` (through `SetFromDecimal`): one leading `+` and any
leading zeroes are removed, then the length and, at 78 digits, the string
order against `twoPow256Sub1` bound the value.  The pointer is `nil` with an
error. -/
def FromDecimal (decimal : List Char) : Option Nat × Err :=
  let s := match decimal with
    | '+' :: rest => rest
    | s => s
  let s := dropLeadingZeros s
  if s.length < twoPow256Sub1.length then fromDecimal s
  else if s.length = twoPow256Sub1.length then
    if strGt s twoPow256Sub1 then (none, some (.uint256Err "hex number > 256 bits"))
    else fromDecimal s
  else (none, some (.uint256Err "hex number > 256 bits"))

/-! ## `spec/deneb/executionpayload_json.go` -/

namespace Deneb

/-- Modelled from the spec: `phase0.Hash32Length`, declared in
`spec/phase0/types.go`, which is not among the embedded files; the number of
bytes of a `Hash32`. -/
abbrev Hash32Length : Nat := 32

/-- Modelled from the spec: `bellatrix.FeeRecipientLength`, declared in
`spec/bellatrix/types.go`, which is not among the embedded files; the number
of bytes of an execution address. -/
abbrev FeeRecipientLength : Nat := 20

/-- The `String()` methods of the fixed-size byte types (`phase0.Hash32`,
`bellatrix.ExecutionAddress`, `phase0.Root`, `deneb.KzgCommitment`).  They are
declared in the `types.go` files of their packages, which are not among the
embedded files, and are therefore parameters of the encoders. -/
structure Stringers where
  hash32 : FixedBytes Hash32Length → List Char
  executionAddress : FixedBytes FeeRecipientLength → List Char
  root : FixedBytes 32 → List Char
  kzgCommitment : FixedBytes 48 → List Char

/-- The `String()` methods that print the bytes as `fmt.Sprintf("%#x", ...)`
does. -/
def Stringers.sprintf : Stringers where
  hash32 := fun b => SprintfHex b.val
  executionAddress := fun b => SprintfHex b.val
  root := fun b => SprintfHex b.val
  kzgCommitment := fun b => SprintfHex b.val

/-- A rendering `out` of the bytes `b` is a hexadecimal rendering when it is
`0x` followed by digits (of either case) that decode to `b`. -/
def IsHexRendering (out : List Char) (b : List Byte) : Prop :=
  ∃ digits, out = '0' :: 'x' :: digits ∧ DecodeString digits = .ok b

/-- Every `String()` method prints `0x` and the hexadecimal digits of its
bytes. -/
def Stringers.Hex (S : Stringers) : Prop :=
  (∀ b, IsHexRendering (S.hash32 b) b.val) ∧
  (∀ b, IsHexRendering (S.executionAddress b) b.val) ∧
  (∀ b, IsHexRendering (S.root b) b.val) ∧
  (∀ b, IsHexRendering (S.kzgCommitment b) b.val)

/-- The deneb `ExecutionPayload` (declared in `executionpayload.go`; the field
types are those the encoder and decoder use).  `W` is `*capella.Withdrawal`.
A transaction is a byte slice; a `nil` and an empty transaction behave alike
in every embedded function and are both the empty list. -/
structure ExecutionPayload (W : Type) where
  ParentHash : FixedBytes Hash32Length
  FeeRecipient : FixedBytes FeeRecipientLength
  StateRoot : FixedBytes 32
  ReceiptsRoot : FixedBytes 32
  LogsBloom : FixedBytes 256
  PrevRandao : FixedBytes 32
  BlockNumber : Nat
  GasLimit : Nat
  GasUsed : Nat
  Timestamp : Nat
  ExtraData : Option (List Byte)
  BaseFeePerGas : Option Nat
  BlockHash : FixedBytes Hash32Length
  Transactions : Option (List (List Byte))
  Withdrawals : Option (List W)
  ExcessDataGas : Option Nat

/-- `executionPayloadJSON` (lines 31-48). -/
structure executionPayloadJSON (W : Type) where
  ParentHash : List Char
  FeeRecipient : List Char
  StateRoot : List Char
  ReceiptsRoot : List Char
  LogsBloom : List Char
  PrevRandao : List Char
  BlockNumber : List Char
  GasLimit : List Char
  GasUsed : List Char
  Timestamp : List Char
  ExtraData : List Char
  BaseFeePerGas : List Char
  BlockHash : List Char
  Transactions : Option (List (List Char))
  Withdrawals : Option (List W)
  ExcessDataGas : List Char

/-- `len` of a slice that may be `nil`. -/
def sliceLen {α : Type} (s : Option (List α)) : Nat :=
  match s with
  | none => 0
  | some l => l.length

/-- The elements of a slice that may be `nil`. -/
def sliceElems {α : Type} (s : Option (List α)) : List α :=
  match s with
  | none => []
  | some l => l

/-- The record that `ExecutionPayload.MarshalJSON` hands to `json.Marshal`
(lines 51-79).  `Dec` on a `nil` `*uint256.Int` dereferences it. -/
def ExecutionPayload.MarshalJSON {W : Type} (S : Stringers) (e : ExecutionPayload W) :
    Except Panic (executionPayloadJSON W) :=
  let transactions := (sliceElems e.Transactions).map SprintfHex
  let extraData := if sliceLen e.ExtraData > 0 then SprintfHex (sliceElems e.ExtraData)
    else ['0', 'x']
  match e.BaseFeePerGas with
  | none => .error .nilDereference
  | some baseFeePerGas =>
    match e.ExcessDataGas with
    | none => .error .nilDereference
    | some excessDataGas =>
      .ok {
        ParentHash := S.hash32 e.ParentHash
        FeeRecipient := S.executionAddress e.FeeRecipient
        StateRoot := S.root e.StateRoot
        ReceiptsRoot := S.root e.ReceiptsRoot
        LogsBloom := SprintfHex e.LogsBloom.val
        PrevRandao := SprintfHex e.PrevRandao.val
        BlockNumber := SprintfDec e.BlockNumber
        GasLimit := SprintfDec e.GasLimit
        GasUsed := SprintfDec e.GasUsed
        Timestamp := SprintfDec e.Timestamp
        ExtraData := extraData
        BaseFeePerGas := SprintfDec baseFeePerGas
        BlockHash := S.hash32 e.BlockHash
        Transactions := some transactions
        Withdrawals := e.Withdrawals
        ExcessDataGas := SprintfDec excessDataGas }

/-- One field block of an `unpack` method: the receiver as the block leaves it
and the error it returns (`none` to carry on with the next block). -/
abbrev Step (σ : Type) := σ → σ × Err

/-- The blocks of an `unpack` method in sequence, stopping at the first error. -/
def runSteps {σ : Type} : List (Step σ) → σ → σ × Err
  | [], st => (st, none)
  | f :: fs, st =>
    match f st with
    | (st1, none) => runSteps fs st1
    | (st1, some err) => (st1, some err)

/-- The checks shared by the fixed-size fields (for instance lines 93-102):
presence, hexadecimal decoding after `TrimPrefix`, exact length. -/
def decodeFixed (missing invalid incorrect : String) (n : Nat) (s : List Char) :
    Except GoError (List Byte) :=
  if s = [] then .error (.new missing)
  else
    match DecodeString (TrimPrefix s ['0', 'x']) with
    | .error err => .error (.wrap err invalid)
    | .ok b => if b.length ≠ n then .error (.new incorrect) else .ok b

variable {W : Type}

/-- Lines 93-103. -/
def unpackParentHash (data : executionPayloadJSON W) : Step (ExecutionPayload W) := fun e =>
  match decodeFixed "parent hash missing" "invalid value for parent hash"
      "incorrect length for parent hash" Hash32Length data.ParentHash with
  | .error err => (e, some err)
  | .ok parentHash => ({ e with ParentHash := copyBytes e.ParentHash parentHash }, none)

/-- Lines 105-115. -/
def unpackFeeRecipient (data : executionPayloadJSON W) : Step (ExecutionPayload W) := fun e =>
  match decodeFixed "fee recipient missing" "invalid value for fee recipient"
      "incorrect length for fee recipient" FeeRecipientLength data.FeeRecipient with
  | .error err => (e, some err)
  | .ok feeRecipient => ({ e with FeeRecipient := copyBytes e.FeeRecipient feeRecipient }, none)

/-- Lines 117-127. -/
def unpackStateRoot (data : executionPayloadJSON W) : Step (ExecutionPayload W) := fun e =>
  match decodeFixed "state root missing" "invalid value for state root"
      "incorrect length for state root" 32 data.StateRoot with
  | .error err => (e, some err)
  | .ok stateRoot => ({ e with StateRoot := copyBytes e.StateRoot stateRoot }, none)

/-- Lines 129-139. -/
def unpackReceiptsRoot (data : executionPayloadJSON W) : Step (ExecutionPayload W) := fun e =>
  match decodeFixed "receipts root missing" "invalid value for receipts root"
      "incorrect length for receipts root" 32 data.ReceiptsRoot with
  | .error err => (e, some err)
  | .ok receiptsRoot => ({ e with ReceiptsRoot := copyBytes e.ReceiptsRoot receiptsRoot }, none)

/-- Lines 141-151. -/
def unpackLogsBloom (data : executionPayloadJSON W) : Step (ExecutionPayload W) := fun e =>
  match decodeFixed "logs bloom missing" "invalid value for logs bloom"
      "incorrect length for logs bloom" 256 data.LogsBloom with
  | .error err => (e, some err)
  | .ok logsBloom => ({ e with LogsBloom := copyBytes e.LogsBloom logsBloom }, none)

/-- Lines 153-163. -/
def unpackPrevRandao (data : executionPayloadJSON W) : Step (ExecutionPayload W) := fun e =>
  match decodeFixed "prev randao missing" "invalid value for prev randao"
      "incorrect length for prev randao" 32 data.PrevRandao with
  | .error err => (e, some err)
  | .ok prevRandao => ({ e with PrevRandao := copyBytes e.PrevRandao prevRandao }, none)

/-- Lines 165-172. -/
def unpackBlockNumber (data : executionPayloadJSON W) : Step (ExecutionPayload W) := fun e =>
  if data.BlockNumber = [] then (e, some (.new "block number missing"))
  else
    match ParseUint data.BlockNumber with
    | (_, some err) => (e, some (.wrap err "invalid value for block number"))
    | (blockNumber, none) => ({ e with BlockNumber := blockNumber }, none)

/-- Lines 174-181. -/
def unpackGasLimit (data : executionPayloadJSON W) : Step (ExecutionPayload W) := fun e =>
  if data.GasLimit = [] then (e, some (.new "gas limit missing"))
  else
    match ParseUint data.GasLimit with
    | (_, some err) => (e, some (.wrap err "invalid value for gas limit"))
    | (gasLimit, none) => ({ e with GasLimit := gasLimit }, none)

/-- Lines 183-190. -/
def unpackGasUsed (data : executionPayloadJSON W) : Step (ExecutionPayload W) := fun e =>
  if data.GasUsed = [] then (e, some (.new "gas used missing"))
  else
    match ParseUint data.GasUsed with
    | (_, some err) => (e, some (.wrap err "invalid value for gas used"))
    | (gasUsed, none) => ({ e with GasUsed := gasUsed }, none)

/-- Lines 192-198.  The field is assigned before the error is looked at. -/
def unpackTimestamp (data : executionPayloadJSON W) : Step (ExecutionPayload W) := fun e =>
  if data.Timestamp = [] then (e, some (.new "timestamp missing"))
  else
    let r := ParseUint data.Timestamp
    let e1 : ExecutionPayload W := { e with Timestamp := r.1 }
    match r.2 with
    | some err => (e1, some (.wrap err "invalid value for timestamp"))
    | none => (e1, none)

/-- The string that the default case of lines 206-210 leaves in
`data.ExtraData` and decodes: the `0x` prefix removed, an odd number of digits
padded with one `0` on the left.  (`data` is a record local to the callers of
`unpack`, which drop it after the call; the assignment to its field is this
local value.) -/
def extraDataDigits (extraData : List Char) : List Char :=
  let s := TrimPrefix extraData ['0', 'x']
  if s.length % 2 = 1 then '0' :: s else s

/-- Lines 200-219. -/
def unpackExtraData (data : executionPayloadJSON W) : Step (ExecutionPayload W) := fun e =>
  if data.ExtraData = [] then (e, some (.new "extra data missing"))
  else if data.ExtraData = ['0', 'x'] ∨ data.ExtraData = ['0'] then
    ({ e with ExtraData := some [] }, none)
  else
    match DecodeString (extraDataDigits data.ExtraData) with
    | .error err => (e, some (.wrap err "invalid value for extra data"))
    | .ok extraData =>
      if extraData.length > 32 then (e, some (.new "incorrect length for extra data"))
      else ({ e with ExtraData := some extraData }, none)

/-- Lines 221-231.  The field is assigned before the error is looked at. -/
def unpackBaseFeePerGas (data : executionPayloadJSON W) : Step (ExecutionPayload W) := fun e =>
  if data.BaseFeePerGas = [] then (e, some (.new "base fee per gas missing"))
  else
    let r := if HasPrefix data.BaseFeePerGas ['0', 'x'] then FromHex data.BaseFeePerGas
      else FromDecimal data.BaseFeePerGas
    let e1 : ExecutionPayload W := { e with BaseFeePerGas := r.1 }
    match r.2 with
    | some err => (e1, some (.wrap err "invalid value for base fee per gas"))
    | none => (e1, none)

/-- Lines 233-243. -/
def unpackBlockHash (data : executionPayloadJSON W) : Step (ExecutionPayload W) := fun e =>
  match decodeFixed "block hash missing" "invalid value for block hash"
      "incorrect length for block hash" Hash32Length data.BlockHash with
  | .error err => (e, some err)
  | .ok blockHash => ({ e with BlockHash := copyBytes e.BlockHash blockHash }, none)

/-- The loop of lines 249-263 from index `i` on: the decoded transactions, or
the error of the first transaction that fails. -/
def decodeTransactions : Nat → List (List Char) → Except GoError (List (List Byte))
  | _, [] => .ok []
  | i, t :: ts =>
    if t = [] then .error (.new "transaction missing")
    else if t = ['0'] then
      match decodeTransactions (i + 1) ts with
      | .error err => .error err
      | .ok rest => .ok ([] :: rest)
    else
      match DecodeString (TrimPrefix t ['0', 'x']) with
      | .error err =>
        .error (.wrap err ("invalid value for transaction " ++ String.mk (SprintfDec i)))
      | .ok tmp =>
        match decodeTransactions (i + 1) ts with
        | .error err => .error err
        | .ok rest => .ok (tmp :: rest)

/-- Lines 245-264. -/
def unpackTransactions (data : executionPayloadJSON W) : Step (ExecutionPayload W) := fun e =>
  match data.Transactions with
  | none => (e, some (.new "transactions missing"))
  | some txs =>
    match decodeTransactions 0 txs with
    | .error err => (e, some err)
    | .ok transactions => ({ e with Transactions := some transactions }, none)

/-- Lines 266-269. -/
def unpackWithdrawals (data : executionPayloadJSON W) : Step (ExecutionPayload W) := fun e =>
  match data.Withdrawals with
  | none => (e, some (.new "withdrawals missing"))
  | some ws => ({ e with Withdrawals := some ws }, none)

/-- Lines 271-277.  The field is assigned before the error is looked at. -/
def unpackExcessDataGas (data : executionPayloadJSON W) : Step (ExecutionPayload W) := fun e =>
  if data.ExcessDataGas = [] then (e, some (.new "excess data gas missing"))
  else
    let r := FromDecimal data.ExcessDataGas
    let e1 : ExecutionPayload W := { e with ExcessDataGas := r.1 }
    match r.2 with
    | some err => (e1, some (.wrap err "invalid value for excess data gas"))
    | none => (e1, none)

/-- The fields of `executionPayloadJSON`, named in the order in which `unpack`
handles them. -/
inductive Field where
  | parentHash | feeRecipient | stateRoot | receiptsRoot | logsBloom | prevRandao
  | blockNumber | gasLimit | gasUsed | timestamp | extraData | baseFeePerGas | blockHash
  | transactions | withdrawals | excessDataGas
  deriving DecidableEq, Repr

/-- The fields in source order. -/
def Field.all : List Field :=
  [.parentHash, .feeRecipient, .stateRoot, .receiptsRoot, .logsBloom, .prevRandao,
   .blockNumber, .gasLimit, .gasUsed, .timestamp, .extraData, .baseFeePerGas, .blockHash,
   .transactions, .withdrawals, .excessDataGas]

/-- The position of a field in the source order. -/
def Field.index : Field → Nat
  | .parentHash => 0 | .feeRecipient => 1 | .stateRoot => 2 | .receiptsRoot => 3
  | .logsBloom => 4 | .prevRandao => 5 | .blockNumber => 6 | .gasLimit => 7 | .gasUsed => 8
  | .timestamp => 9 | .extraData => 10 | .baseFeePerGas => 11 | .blockHash => 12
  | .transactions => 13 | .withdrawals => 14 | .excessDataGas => 15

/-- The block of `unpack` that handles the field. -/
def Field.step (data : executionPayloadJSON W) : Field → Step (ExecutionPayload W)
  | .parentHash => unpackParentHash data
  | .feeRecipient => unpackFeeRecipient data
  | .stateRoot => unpackStateRoot data
  | .receiptsRoot => unpackReceiptsRoot data
  | .logsBloom => unpackLogsBloom data
  | .prevRandao => unpackPrevRandao data
  | .blockNumber => unpackBlockNumber data
  | .gasLimit => unpackGasLimit data
  | .gasUsed => unpackGasUsed data
  | .timestamp => unpackTimestamp data
  | .extraData => unpackExtraData data
  | .baseFeePerGas => unpackBaseFeePerGas data
  | .blockHash => unpackBlockHash data
  | .transactions => unpackTransactions data
  | .withdrawals => unpackWithdrawals data
  | .excessDataGas => unpackExcessDataGas data

/-- The field is absent from the record: an empty string, or a `nil` list. -/
def Field.absent (data : executionPayloadJSON W) : Field → Prop
  | .parentHash => data.ParentHash = []
  | .feeRecipient => data.FeeRecipient = []
  | .stateRoot => data.StateRoot = []
  | .receiptsRoot => data.ReceiptsRoot = []
  | .logsBloom => data.LogsBloom = []
  | .prevRandao => data.PrevRandao = []
  | .blockNumber => data.BlockNumber = []
  | .gasLimit => data.GasLimit = []
  | .gasUsed => data.GasUsed = []
  | .timestamp => data.Timestamp = []
  | .extraData => data.ExtraData = []
  | .baseFeePerGas => data.BaseFeePerGas = []
  | .blockHash => data.BlockHash = []
  | .transactions => data.Transactions = none
  | .withdrawals => data.Withdrawals = none
  | .excessDataGas => data.ExcessDataGas = []

/-- The error that reports the field as missing. -/
def Field.missingError : Field → GoError
  | .parentHash => .new "parent hash missing"
  | .feeRecipient => .new "fee recipient missing"
  | .stateRoot => .new "state root missing"
  | .receiptsRoot => .new "receipts root missing"
  | .logsBloom => .new "logs bloom missing"
  | .prevRandao => .new "prev randao missing"
  | .blockNumber => .new "block number missing"
  | .gasLimit => .new "gas limit missing"
  | .gasUsed => .new "gas used missing"
  | .timestamp => .new "timestamp missing"
  | .extraData => .new "extra data missing"
  | .baseFeePerGas => .new "base fee per gas missing"
  | .blockHash => .new "block hash missing"
  | .transactions => .new "transactions missing"
  | .withdrawals => .new "withdrawals missing"
  | .excessDataGas => .new "excess data gas missing"

/-- The field blocks of `ExecutionPayload.unpack` in source order. -/
def unpackSteps (data : executionPayloadJSON W) : List (Step (ExecutionPayload W)) :=
  Field.all.map (Field.step data)

/-- The blocks that `unpack` runs before it reaches the block of the field. -/
def Field.blocksBefore (data : executionPayloadJSON W) (f : Field) :
    List (Step (ExecutionPayload W)) :=
  (unpackSteps data).take f.index

/-- The fields held in fixed-size byte arrays. -/
inductive FixedField where
  | parentHash | feeRecipient | stateRoot | receiptsRoot | logsBloom | prevRandao | blockHash
  deriving DecidableEq, Repr

/-- The fixed-size field as a field of the record. -/
def FixedField.field : FixedField → Field
  | .parentHash => .parentHash
  | .feeRecipient => .feeRecipient
  | .stateRoot => .stateRoot
  | .receiptsRoot => .receiptsRoot
  | .logsBloom => .logsBloom
  | .prevRandao => .prevRandao
  | .blockHash => .blockHash

/-- The number of bytes `unpack` asks of the field. -/
def FixedField.size : FixedField → Nat
  | .parentHash => Hash32Length
  | .feeRecipient => FeeRecipientLength
  | .stateRoot => 32
  | .receiptsRoot => 32
  | .logsBloom => 256
  | .prevRandao => 32
  | .blockHash => Hash32Length

/-- The string of the field in the record. -/
def FixedField.text (data : executionPayloadJSON W) : FixedField → List Char
  | .parentHash => data.ParentHash
  | .feeRecipient => data.FeeRecipient
  | .stateRoot => data.StateRoot
  | .receiptsRoot => data.ReceiptsRoot
  | .logsBloom => data.LogsBloom
  | .prevRandao => data.PrevRandao
  | .blockHash => data.BlockHash

/-- The bytes of the field in the payload. -/
def FixedField.bytes (e : ExecutionPayload W) : FixedField → List Byte
  | .parentHash => e.ParentHash.val
  | .feeRecipient => e.FeeRecipient.val
  | .stateRoot => e.StateRoot.val
  | .receiptsRoot => e.ReceiptsRoot.val
  | .logsBloom => e.LogsBloom.val
  | .prevRandao => e.PrevRandao.val
  | .blockHash => e.BlockHash.val

/-- The error that reports a wrong number of bytes for the field. -/
def FixedField.incorrectError : FixedField → GoError
  | .parentHash => .new "incorrect length for parent hash"
  | .feeRecipient => .new "incorrect length for fee recipient"
  | .stateRoot => .new "incorrect length for state root"
  | .receiptsRoot => .new "incorrect length for receipts root"
  | .logsBloom => .new "incorrect length for logs bloom"
  | .prevRandao => .new "incorrect length for prev randao"
  | .blockHash => .new "incorrect length for block hash"

/-- The fields held in `uint64`. -/
inductive NumField where
  | blockNumber | gasLimit | gasUsed | timestamp
  deriving DecidableEq, Repr

/-- The numeric field as a field of the record. -/
def NumField.field : NumField → Field
  | .blockNumber => .blockNumber
  | .gasLimit => .gasLimit
  | .gasUsed => .gasUsed
  | .timestamp => .timestamp

/-- The string of the field in the record. -/
def NumField.text (data : executionPayloadJSON W) : NumField → List Char
  | .blockNumber => data.BlockNumber
  | .gasLimit => data.GasLimit
  | .gasUsed => data.GasUsed
  | .timestamp => data.Timestamp

/-- The value of the field in the payload. -/
def NumField.value (e : ExecutionPayload W) : NumField → Nat
  | .blockNumber => e.BlockNumber
  | .gasLimit => e.GasLimit
  | .gasUsed => e.GasUsed
  | .timestamp => e.Timestamp

/-- The message under which a parse error of the field is wrapped. -/
def NumField.invalidMessage : NumField → String
  | .blockNumber => "invalid value for block number"
  | .gasLimit => "invalid value for gas limit"
  | .gasUsed => "invalid value for gas used"
  | .timestamp => "invalid value for timestamp"

/-- `(*ExecutionPayload).unpack` (lines 92-280) on the receiver `e`: the
receiver on return, and the returned error. -/
def ExecutionPayload.unpack (e : ExecutionPayload W) (data : executionPayloadJSON W) :
    ExecutionPayload W × Err :=
  runSteps (unpackSteps data) e

/-- The numeric fields hold values of their Go types: `uint64` for the block
number, gas limit, gas used and timestamp, 256 bits for the two `uint256.Int`. -/
def ExecutionPayload.InRange (e : ExecutionPayload W) : Prop :=
  e.BlockNumber < 2 ^ 64 ∧ e.GasLimit < 2 ^ 64 ∧ e.GasUsed < 2 ^ 64 ∧ e.Timestamp < 2 ^ 64 ∧
  (∀ v, e.BaseFeePerGas = some v → v < 2 ^ 256) ∧
  (∀ v, e.ExcessDataGas = some v → v < 2 ^ 256)

/-- The two library decoders that fill a value of type `executionPayloadJSON`
from the input bytes: `json.Unmarshal` of `encoding/json` and `yaml.Unmarshal`
of `github.com/goccy/go-yaml`.  The result is the record on success and the
error otherwise. -/
structure Unmarshalers (Input W : Type) where
  json : Input → Except GoError (executionPayloadJSON W)
  yaml : Input → Except GoError (executionPayloadJSON W)

/-- `(*ExecutionPayload).UnmarshalJSON` (executionpayload_json.go lines 83-89)
on the receiver `e`: the receiver on return, and the returned error. -/
def ExecutionPayload.UnmarshalJSON {Input : Type} (lib : Unmarshalers Input W)
    (e : ExecutionPayload W) (input : Input) : ExecutionPayload W × Err :=
  match lib.json input with
  | .error err => (e, some (.wrap err "invalid JSON"))
  | .ok data => e.unpack data

/-- `(*ExecutionPayload).UnmarshalYAML` (executionpayload_yaml.go lines 81-88)
on the receiver `e`: the receiver on return, and the returned error.  The
input is decoded into the JSON record. -/
def ExecutionPayload.UnmarshalYAML {Input : Type} (lib : Unmarshalers Input W)
    (e : ExecutionPayload W) (input : Input) : ExecutionPayload W × Err :=
  match lib.yaml input with
  | .error err => (e, some err)
  | .ok data => e.unpack data

/-- The two payloads hold the same value in the field. -/
def Field.same (a b : ExecutionPayload W) : Field → Prop
  | .parentHash => a.ParentHash = b.ParentHash
  | .feeRecipient => a.FeeRecipient = b.FeeRecipient
  | .stateRoot => a.StateRoot = b.StateRoot
  | .receiptsRoot => a.ReceiptsRoot = b.ReceiptsRoot
  | .logsBloom => a.LogsBloom = b.LogsBloom
  | .prevRandao => a.PrevRandao = b.PrevRandao
  | .blockNumber => a.BlockNumber = b.BlockNumber
  | .gasLimit => a.GasLimit = b.GasLimit
  | .gasUsed => a.GasUsed = b.GasUsed
  | .timestamp => a.Timestamp = b.Timestamp
  | .extraData => a.ExtraData = b.ExtraData
  | .baseFeePerGas => a.BaseFeePerGas = b.BaseFeePerGas
  | .blockHash => a.BlockHash = b.BlockHash
  | .transactions => a.Transactions = b.Transactions
  | .withdrawals => a.Withdrawals = b.Withdrawals
  | .excessDataGas => a.ExcessDataGas = b.ExcessDataGas

/-- The field of the payload `e` holds the value that the record's field
decodes to: the bytes of the hexadecimal string, the number of the decimal
string, the list of decoded transactions, the list of withdrawals of the
record. -/
def Field.decoded (data : executionPayloadJSON W) (e : ExecutionPayload W) : Field → Prop
  | .parentHash => DecodeString (TrimPrefix data.ParentHash ['0', 'x']) = .ok e.ParentHash.val
  | .feeRecipient =>
    DecodeString (TrimPrefix data.FeeRecipient ['0', 'x']) = .ok e.FeeRecipient.val
  | .stateRoot => DecodeString (TrimPrefix data.StateRoot ['0', 'x']) = .ok e.StateRoot.val
  | .receiptsRoot =>
    DecodeString (TrimPrefix data.ReceiptsRoot ['0', 'x']) = .ok e.ReceiptsRoot.val
  | .logsBloom => DecodeString (TrimPrefix data.LogsBloom ['0', 'x']) = .ok e.LogsBloom.val
  | .prevRandao => DecodeString (TrimPrefix data.PrevRandao ['0', 'x']) = .ok e.PrevRandao.val
  | .blockNumber => ParseUint data.BlockNumber = (e.BlockNumber, none)
  | .gasLimit => ParseUint data.GasLimit = (e.GasLimit, none)
  | .gasUsed => ParseUint data.GasUsed = (e.GasUsed, none)
  | .timestamp => ParseUint data.Timestamp = (e.Timestamp, none)
  | .extraData =>
    ∃ b, e.ExtraData = some b ∧
      (((data.ExtraData = ['0', 'x'] ∨ data.ExtraData = ['0']) ∧ b = []) ∨
       (¬ (data.ExtraData = ['0', 'x'] ∨ data.ExtraData = ['0']) ∧
        DecodeString (extraDataDigits data.ExtraData) = .ok b))
  | .baseFeePerGas =>
    (if HasPrefix data.BaseFeePerGas ['0', 'x'] then FromHex data.BaseFeePerGas
      else FromDecimal data.BaseFeePerGas) = (e.BaseFeePerGas, none)
  | .blockHash => DecodeString (TrimPrefix data.BlockHash ['0', 'x']) = .ok e.BlockHash.val
  | .transactions =>
    ∃ txs l, data.Transactions = some txs ∧ decodeTransactions 0 txs = .ok l ∧
      e.Transactions = some l
  | .withdrawals => data.Withdrawals ≠ none ∧ e.Withdrawals = data.Withdrawals
  | .excessDataGas => FromDecimal data.ExcessDataGas = (e.ExcessDataGas, none)

/-- The zero value of `ExecutionPayload`. -/
def ExecutionPayload.zero : ExecutionPayload W where
  ParentHash := FixedBytes.zero _
  FeeRecipient := FixedBytes.zero _
  StateRoot := FixedBytes.zero _
  ReceiptsRoot := FixedBytes.zero _
  LogsBloom := FixedBytes.zero _
  PrevRandao := FixedBytes.zero _
  BlockNumber := 0
  GasLimit := 0
  GasUsed := 0
  Timestamp := 0
  ExtraData := none
  BaseFeePerGas := none
  BlockHash := FixedBytes.zero _
  Transactions := none
  Withdrawals := none
  ExcessDataGas := none

/-! ## `spec/deneb/beaconblockbody_json.go` -/

/-- Modelled from the spec: `phase0.SignatureLength`, declared in
`spec/phase0/types.go`, which is not among the embedded files; the number of
bytes of a BLS signature. -/
abbrev SignatureLength : Nat := 96

/-- Modelled from the spec: `phase0.GraffitiLength`, declared in
`spec/phase0/types.go`, which is not among the embedded files; the number of
bytes of the graffiti. -/
abbrev GraffitiLength : Nat := 32

/-- Modelled from the spec: `KzgCommitmentLength`, declared in
`spec/deneb/types.go`, which is not among the embedded files; the number of
bytes of a KZG commitment. -/
abbrev KzgCommitmentLength : Nat := 48

/-- The types of the objects nested in a block body, which the codec of the
body never looks into.  `ETH1Data` and `SyncAggregate` are the pointed-to
structures; the others are the element types of the lists (pointers). -/
structure BodyTypes where
  ETH1Data : Type
  ProposerSlashing : Type
  AttesterSlashing : Type
  Attestation : Type
  Deposit : Type
  SignedVoluntaryExit : Type
  SyncAggregate : Type
  Withdrawal : Type
  SignedBLSToExecutionChange : Type

/-- The deneb `BeaconBlockBody` (declared in `beaconblockbody.go`; the field
types are those the encoder and decoder use). -/
structure BeaconBlockBody (T : BodyTypes) where
  RANDAOReveal : FixedBytes SignatureLength
  ETH1Data : Option T.ETH1Data
  Graffiti : FixedBytes GraffitiLength
  ProposerSlashings : Option (List T.ProposerSlashing)
  AttesterSlashings : Option (List T.AttesterSlashing)
  Attestations : Option (List T.Attestation)
  Deposits : Option (List T.Deposit)
  VoluntaryExits : Option (List T.SignedVoluntaryExit)
  SyncAggregate : Option T.SyncAggregate
  ExecutionPayload : Option (ExecutionPayload T.Withdrawal)
  BLSToExecutionChanges : Option (List T.SignedBLSToExecutionChange)
  BlobKzgCommitments : Option (List (FixedBytes KzgCommitmentLength))

/-- `beaconBlockBodyJSON` (lines 29-42). -/
structure beaconBlockBodyJSON (T : BodyTypes) where
  RANDAOReveal : List Char
  ETH1Data : Option T.ETH1Data
  Graffiti : List Char
  ProposerSlashings : Option (List T.ProposerSlashing)
  AttesterSlashings : Option (List T.AttesterSlashing)
  Attestations : Option (List T.Attestation)
  Deposits : Option (List T.Deposit)
  VoluntaryExits : Option (List T.SignedVoluntaryExit)
  SyncAggregate : Option T.SyncAggregate
  ExecutionPayload : Option (ExecutionPayload T.Withdrawal)
  BLSToExecutionChanges : Option (List T.SignedBLSToExecutionChange)
  BlobKzgCommitments : Option (List (List Char))

/-- The record that `BeaconBlockBody.MarshalJSON` hands to `json.Marshal`
(lines 45-65). -/
def BeaconBlockBody.MarshalJSON {T : BodyTypes} (S : Stringers) (b : BeaconBlockBody T) :
    beaconBlockBodyJSON T where
  RANDAOReveal := SprintfHex b.RANDAOReveal.val
  ETH1Data := b.ETH1Data
  Graffiti := SprintfHex b.Graffiti.val
  ProposerSlashings := b.ProposerSlashings
  AttesterSlashings := b.AttesterSlashings
  Attestations := b.Attestations
  Deposits := b.Deposits
  VoluntaryExits := b.VoluntaryExits
  SyncAggregate := b.SyncAggregate
  ExecutionPayload := b.ExecutionPayload
  BLSToExecutionChanges := b.BLSToExecutionChanges
  BlobKzgCommitments := some ((sliceElems b.BlobKzgCommitments).map S.kzgCommitment)

variable {T : BodyTypes}

/-- Lines 77-87. -/
def unpackRANDAOReveal (data : beaconBlockBodyJSON T) : Step (BeaconBlockBody T) := fun b =>
  match decodeFixed "RANDAO reveal missing" "invalid value for RANDAO reveal"
      "incorrect length for RANDAO reveal" SignatureLength data.RANDAOReveal with
  | .error err => (b, some err)
  | .ok randaoReveal => ({ b with RANDAOReveal := copyBytes b.RANDAOReveal randaoReveal }, none)

/-- Lines 88-91. -/
def unpackETH1Data (data : beaconBlockBodyJSON T) : Step (BeaconBlockBody T) := fun b =>
  match data.ETH1Data with
  | none => (b, some (.new "ETH1 data missing"))
  | some eth1Data => ({ b with ETH1Data := some eth1Data }, none)

/-- Lines 92-102. -/
def unpackGraffiti (data : beaconBlockBodyJSON T) : Step (BeaconBlockBody T) := fun b =>
  match decodeFixed "graffiti missing" "invalid value for graffiti"
      "incorrect length for graffiti" GraffitiLength data.Graffiti with
  | .error err => (b, some err)
  | .ok graffiti => ({ b with Graffiti := copyBytes b.Graffiti graffiti }, none)

/-- Lines 103-106. -/
def unpackProposerSlashings (data : beaconBlockBodyJSON T) : Step (BeaconBlockBody T) := fun b =>
  match data.ProposerSlashings with
  | none => (b, some (.new "proposer slashings missing"))
  | some l => ({ b with ProposerSlashings := some l }, none)

/-- Lines 107-110. -/
def unpackAttesterSlashings (data : beaconBlockBodyJSON T) : Step (BeaconBlockBody T) := fun b =>
  match data.AttesterSlashings with
  | none => (b, some (.new "attester slashings missing"))
  | some l => ({ b with AttesterSlashings := some l }, none)

/-- Lines 111-114. -/
def unpackAttestations (data : beaconBlockBodyJSON T) : Step (BeaconBlockBody T) := fun b =>
  match data.Attestations with
  | none => (b, some (.new "attestations missing"))
  | some l => ({ b with Attestations := some l }, none)

/-- Lines 115-118. -/
def unpackDeposits (data : beaconBlockBodyJSON T) : Step (BeaconBlockBody T) := fun b =>
  match data.Deposits with
  | none => (b, some (.new "deposits missing"))
  | some l => ({ b with Deposits := some l }, none)

/-- Lines 119-122. -/
def unpackVoluntaryExits (data : beaconBlockBodyJSON T) : Step (BeaconBlockBody T) := fun b =>
  match data.VoluntaryExits with
  | none => (b, some (.new "voluntary exits missing"))
  | some l => ({ b with VoluntaryExits := some l }, none)

/-- Lines 123-126. -/
def unpackSyncAggregate (data : beaconBlockBodyJSON T) : Step (BeaconBlockBody T) := fun b =>
  match data.SyncAggregate with
  | none => (b, some (.new "sync aggregate missing"))
  | some a => ({ b with SyncAggregate := some a }, none)

/-- Lines 127-130. -/
def unpackExecutionPayload (data : beaconBlockBodyJSON T) : Step (BeaconBlockBody T) := fun b =>
  match data.ExecutionPayload with
  | none => (b, some (.new "execution payload missing"))
  | some p => ({ b with ExecutionPayload := some p }, none)

/-- Line 131: the list is taken over as it is, `nil` included. -/
def unpackBLSToExecutionChanges (data : beaconBlockBodyJSON T) : Step (BeaconBlockBody T) := fun b =>
  ({ b with BLSToExecutionChanges := data.BLSToExecutionChanges }, none)

/-- The loop of lines 136-145 over the entries that are left, writing into the
list of zeroed commitments made at line 135: the list as the loop leaves it and
the error. -/
def decodeCommitments : List (List Char) → List (FixedBytes KzgCommitmentLength) × Err
  | [] => ([], none)
  | s :: ss =>
    match DecodeString (TrimPrefix s ['0', 'x']) with
    | .error err =>
      (List.replicate (ss.length + 1) (FixedBytes.zero _),
        some (.wrap err "failed to parse blob KZG commitment"))
    | .ok d =>
      if d.length ≠ KzgCommitmentLength then
        (List.replicate (ss.length + 1) (FixedBytes.zero _),
          some (.new "incorrect length for blob KZG commitment"))
      else
        let r := decodeCommitments ss
        (copyBytes (FixedBytes.zero _) d :: r.1, r.2)

/-- Lines 132-145. -/
def unpackBlobKzgCommitments (data : beaconBlockBodyJSON T) : Step (BeaconBlockBody T) := fun b =>
  match data.BlobKzgCommitments with
  | none => (b, some (.new "blob kzg commitments missing"))
  | some cs =>
    let r := decodeCommitments cs
    ({ b with BlobKzgCommitments := some r.1 }, r.2)

/-- The field blocks of `BeaconBlockBody.unpack` in source order. -/
def bodyUnpackSteps (data : beaconBlockBodyJSON T) : List (Step (BeaconBlockBody T)) :=
  [unpackRANDAOReveal data, unpackETH1Data data, unpackGraffiti data,
   unpackProposerSlashings data, unpackAttesterSlashings data, unpackAttestations data,
   unpackDeposits data, unpackVoluntaryExits data, unpackSyncAggregate data,
   unpackExecutionPayload data, unpackBLSToExecutionChanges data,
   unpackBlobKzgCommitments data]

/-- `(*BeaconBlockBody).unpack` (lines 76-148) on the receiver `b`: the state
of the receiver on return, and the returned error. -/
def BeaconBlockBody.unpack (b : BeaconBlockBody T) (data : beaconBlockBodyJSON T) :
    BeaconBlockBody T × Err :=
  runSteps (bodyUnpackSteps data) b

/-- The zero value of `BeaconBlockBody`. -/
def BeaconBlockBody.zero : BeaconBlockBody T where
  RANDAOReveal := FixedBytes.zero _
  ETH1Data := none
  Graffiti := FixedBytes.zero _
  ProposerSlashings := none
  AttesterSlashings := none
  Attestations := none
  Deposits := none
  VoluntaryExits := none
  SyncAggregate := none
  ExecutionPayload := none
  BLSToExecutionChanges := none
  BlobKzgCommitments := none

/-- The fields of `beaconBlockBodyJSON`, named in the order in which `unpack`
handles them. -/
inductive BodyField where
  | randaoReveal | eth1Data | graffiti | proposerSlashings | attesterSlashings | attestations
  | deposits | voluntaryExits | syncAggregate | executionPayload | blsToExecutionChanges
  | blobKzgCommitments
  deriving DecidableEq, Repr

/-- The position of a field of the body in the source order. -/
def BodyField.index : BodyField → Nat
  | .randaoReveal => 0 | .eth1Data => 1 | .graffiti => 2 | .proposerSlashings => 3
  | .attesterSlashings => 4 | .attestations => 5 | .deposits => 6 | .voluntaryExits => 7
  | .syncAggregate => 8 | .executionPayload => 9 | .blsToExecutionChanges => 10
  | .blobKzgCommitments => 11

/-- The block of `BeaconBlockBody.unpack` that handles the field. -/
def BodyField.step (data : beaconBlockBodyJSON T) : BodyField → Step (BeaconBlockBody T)
  | .randaoReveal => unpackRANDAOReveal data
  | .eth1Data => unpackETH1Data data
  | .graffiti => unpackGraffiti data
  | .proposerSlashings => unpackProposerSlashings data
  | .attesterSlashings => unpackAttesterSlashings data
  | .attestations => unpackAttestations data
  | .deposits => unpackDeposits data
  | .voluntaryExits => unpackVoluntaryExits data
  | .syncAggregate => unpackSyncAggregate data
  | .executionPayload => unpackExecutionPayload data
  | .blsToExecutionChanges => unpackBLSToExecutionChanges data
  | .blobKzgCommitments => unpackBlobKzgCommitments data

/-- The field is absent from the record: an empty string, a `nil` pointer or a
`nil` list. -/
def BodyField.absent (data : beaconBlockBodyJSON T) : BodyField → Prop
  | .randaoReveal => data.RANDAOReveal = []
  | .eth1Data => data.ETH1Data = none
  | .graffiti => data.Graffiti = []
  | .proposerSlashings => data.ProposerSlashings = none
  | .attesterSlashings => data.AttesterSlashings = none
  | .attestations => data.Attestations = none
  | .deposits => data.Deposits = none
  | .voluntaryExits => data.VoluntaryExits = none
  | .syncAggregate => data.SyncAggregate = none
  | .executionPayload => data.ExecutionPayload = none
  | .blsToExecutionChanges => data.BLSToExecutionChanges = none
  | .blobKzgCommitments => data.BlobKzgCommitments = none

/-- The blocks that `BeaconBlockBody.unpack` runs before it reaches the block
of the field. -/
def BodyField.blocksBefore (data : beaconBlockBodyJSON T) (f : BodyField) :
    List (Step (BeaconBlockBody T)) :=
  (bodyUnpackSteps data).take f.index

/-! ### Sample values -/

/-- The string `0x` followed by `2 * n` copies of the digit `c`. -/
def hexOf (n : Nat) (c : Char) : List Char :=
  '0' :: 'x' :: List.replicate (2 * n) c

/-- A record that `ExecutionPayload.unpack` accepts. -/
def sampleRecord : executionPayloadJSON Nat where
  ParentHash := hexOf 32 'a'
  FeeRecipient := hexOf 20 'B'
  StateRoot := hexOf 32 '1'
  ReceiptsRoot := hexOf 32 '2'
  LogsBloom := hexOf 256 '3'
  PrevRandao := hexOf 32 '4'
  BlockNumber := "12".toList
  GasLimit := "30000000".toList
  GasUsed := "21000".toList
  Timestamp := "1700000000".toList
  ExtraData := "0x123".toList
  BaseFeePerGas := "0x10".toList
  BlockHash := hexOf 32 '5'
  Transactions := some ["0".toList, "0x1234".toList]
  Withdrawals := some [1, 2]
  ExcessDataGas := "17".toList

/-- A payload with one transaction, one byte of extra data and an empty list
of withdrawals. -/
def samplePayload : ExecutionPayload Nat :=
  { (ExecutionPayload.zero : ExecutionPayload Nat) with
    BlockNumber := 12
    GasLimit := 30000000
    GasUsed := 21000
    Timestamp := 1700000000
    ExtraData := some [0xab]
    BaseFeePerGas := some 7
    Transactions := some [[0x01, 0x02]]
    Withdrawals := some []
    ExcessDataGas := some 0 }

/-- Nested objects that are natural numbers. -/
def sampleTypes : BodyTypes where
  ETH1Data := Nat
  ProposerSlashing := Nat
  AttesterSlashing := Nat
  Attestation := Nat
  Deposit := Nat
  SignedVoluntaryExit := Nat
  SyncAggregate := Nat
  Withdrawal := Nat
  SignedBLSToExecutionChange := Nat

/-- A record that `BeaconBlockBody.unpack` accepts. -/
def sampleBodyRecord : beaconBlockBodyJSON sampleTypes where
  RANDAOReveal := hexOf 96 'a'
  ETH1Data := some (1 : Nat)
  Graffiti := hexOf 32 '0'
  ProposerSlashings := some []
  AttesterSlashings := some []
  Attestations := some [(3 : Nat)]
  Deposits := some []
  VoluntaryExits := some []
  SyncAggregate := some (2 : Nat)
  ExecutionPayload := some samplePayload
  BLSToExecutionChanges := some []
  BlobKzgCommitments := some [hexOf 48 'c', hexOf 48 'D']

/-- A body with every nested object and list set, a `nil` list of BLS changes
and a `nil` list of commitments. -/
def sampleBody : BeaconBlockBody sampleTypes :=
  { (BeaconBlockBody.zero : BeaconBlockBody sampleTypes) with
    ETH1Data := some (1 : Nat)
    ProposerSlashings := some []
    AttesterSlashings := some []
    Attestations := some [(3 : Nat)]
    Deposits := some []
    VoluntaryExits := some []
    SyncAggregate := some (2 : Nat)
    ExecutionPayload := some samplePayload }

/-- Decoders whose input is the decoded record itself, `none` standing for
malformed input. -/
def sampleUnmarshalers : Unmarshalers (Option (executionPayloadJSON Nat)) Nat where
  json := fun input =>
    match input with
    | none => .error (.external 2)
    | some data => .ok data
  yaml := fun input =>
    match input with
    | none => .error (.external 3)
    | some data => .ok data

end Deneb

/-! ## `http/beaconblockroot.go`, `http/beaconstateroot.go`, `http/submitaggregateattestations.go` -/

namespace Http

/-- A request sent to the node: the method and the endpoint. -/
structure Request where
  method : String
  endpoint : List Char
  deriving DecidableEq, Repr

/-- The methods `get` and `post` of `*Service`, which live in `http/http.go`.
They return the reader of the response body (`nil` when there is none) and an
error. -/
structure Service (Ctx Body : Type) where
  get : Ctx → List Char → Option Body × Err
  post : Ctx → List Char → List Byte → Option Body × Err

/-- `beaconBlockRootDataJSON` (beaconblockroot.go lines 31-33). -/
structure beaconBlockRootDataJSON where
  Root : List Char
  deriving DecidableEq, Repr

/-- `beaconBlockRootJSON` (beaconblockroot.go lines 27-29). -/
structure beaconBlockRootJSON where
  Data : Option beaconBlockRootDataJSON
  deriving DecidableEq, Repr

/-- `stateRootDataJSON` (beaconstateroot.go lines 31-33). -/
structure stateRootDataJSON where
  Root : List Char
  deriving DecidableEq, Repr

/-- `stateRootJSON` (beaconstateroot.go lines 27-29). -/
structure stateRootJSON where
  Data : Option stateRootDataJSON
  deriving DecidableEq, Repr

/-- The routines of `encoding/json` that the three operations call:
`json.NewDecoder(body).Decode` into each of the two response structures, and
`json.Marshal` of the aggregates (the bytes and the error). -/
structure JSONLib (Body A : Type) where
  decodeBlockRoot : Body → Except GoError beaconBlockRootJSON
  decodeStateRoot : Body → Except GoError stateRootJSON
  marshalAggregates : Option (List A) → List Byte × Err

/-- What a call of an operation has done and returned: the requests it sent to
the node, in order, and its results (or the panic that ended it). -/
structure Call (α : Type) where
  requests : List Request
  result : Except Panic α

variable {Ctx Body A : Type}

/-- `fmt.Sprintf("/eth/v1/beacon/blocks/%s/root", blockID)`. -/
def blockRootEndpoint (blockID : List Char) : List Char :=
  "/eth/v1/beacon/blocks/".toList ++ blockID ++ "/root".toList

/-- `fmt.Sprintf("/eth/v1/beacon/states/%s/root", stateID)`. -/
def stateRootEndpoint (stateID : List Char) : List Char :=
  "/eth/v1/beacon/states/".toList ++ stateID ++ "/root".toList

/-- `(*Service).BeaconBlockRoot` (beaconblockroot.go lines 37-67). -/
def BeaconBlockRoot (s : Service Ctx Body) (json : JSONLib Body A) (ctx : Ctx)
    (blockID : List Char) : Call (Option (FixedBytes 32) × Err) :=
  let requests : List Request := [⟨"GET", blockRootEndpoint blockID⟩]
  match s.get ctx (blockRootEndpoint blockID) with
  | (_, some err) =>
    ⟨requests, .ok (none, some (.wrap err "failed to request beacon block root"))⟩
  | (none, none) => ⟨requests, .ok (none, none)⟩
  | (some respBodyReader, none) =>
    match json.decodeBlockRoot respBodyReader with
    | .error err => ⟨requests, .ok (none, some (.wrap err "failed to parse beacon block root"))⟩
    | .ok beaconBlockRootJSON =>
      match beaconBlockRootJSON.Data with
      | none => ⟨requests, .ok (none, some (.new "no data returned"))⟩
      | some data =>
        if data.Root = [] then ⟨requests, .ok (none, some (.new "no root returned"))⟩
        else
          match DecodeString (TrimPrefix data.Root ['0', 'x']) with
          | .error err => ⟨requests, .ok (none, some (.wrap err "invalid root returned"))⟩
          | .ok bytes => ⟨requests, .ok (some (copyBytes (FixedBytes.zero 32) bytes), none)⟩

/-- `(*Service).BeaconStateRoot` (beaconstateroot.go lines 36-62).  Line 54
reads `stateRootJSON.Data.Root` through the pointer `Data`. -/
def BeaconStateRoot (s : Service Ctx Body) (json : JSONLib Body A) (ctx : Ctx)
    (stateID : List Char) : Call (Option (FixedBytes 32) × Err) :=
  if stateID = [] then ⟨[], .ok (none, some (.new "no state ID specified"))⟩
  else
    let requests : List Request := [⟨"GET", stateRootEndpoint stateID⟩]
    match s.get ctx (stateRootEndpoint stateID) with
    | (_, some err) => ⟨requests, .ok (none, some (.wrap err "failed to request state root"))⟩
    | (none, none) => ⟨requests, .ok (none, none)⟩
    | (some respBodyReader, none) =>
      match json.decodeStateRoot respBodyReader with
      | .error err => ⟨requests, .ok (none, some (.wrap err "failed to parse state root"))⟩
      | .ok stateRootJSON =>
        match stateRootJSON.Data with
        | none => ⟨requests, .error .nilDereference⟩
        | some data =>
          match DecodeString (TrimPrefix data.Root ['0', 'x']) with
          | .error err =>
            ⟨requests, .ok (none, some (.wrap err "failed to parse state root value"))⟩
          | .ok bytes => ⟨requests, .ok (some (copyBytes (FixedBytes.zero 32) bytes), none)⟩

/-- The method `get` of `*Service` (`http/http.go`) as a function that passes
the state of the world `σ` along: a call takes the state before the request
and returns, with the reader of the response body and the error, the state
after it. -/
structure StatefulService (Ctx Body σ : Type) where
  get : Ctx → List Char → σ → (Option Body × Err) × σ

/-- `(*Service).BeaconStateRoot` (beaconstateroot.go lines 36-62) with the state
of the world passed along: the results (or the panic of line 54) and the state
on return.  The state changes only through the calls of `s.get`. -/
def BeaconStateRootIn {σ : Type} (s : StatefulService Ctx Body σ) (json : JSONLib Body A)
    (ctx : Ctx) (stateID : List Char) (w : σ) :
    Except Panic (Option (FixedBytes 32) × Err) × σ :=
  if stateID = [] then (.ok (none, some (.new "no state ID specified")), w)
  else
    match s.get ctx (stateRootEndpoint stateID) w with
    | ((_, some err), w1) => (.ok (none, some (.wrap err "failed to request state root")), w1)
    | ((none, none), w1) => (.ok (none, none), w1)
    | ((some respBodyReader, none), w1) =>
      match json.decodeStateRoot respBodyReader with
      | .error err => (.ok (none, some (.wrap err "failed to parse state root")), w1)
      | .ok stateRootJSON =>
        match stateRootJSON.Data with
        | none => (.error .nilDereference, w1)
        | some data =>
          match DecodeString (TrimPrefix data.Root ['0', 'x']) with
          | .error err =>
            (.ok (none, some (.wrap err "failed to parse state root value")), w1)
          | .ok bytes => (.ok (some (copyBytes (FixedBytes.zero 32) bytes), none), w1)

/-- The node `s` seen with the list of the requests received so far as the
state of the world: every `get` answers as `s` does and adds its request to
the end of the list. -/
def recording (s : Service Ctx Body) : StatefulService Ctx Body (List Request) where
  get := fun ctx endpoint log => (s.get ctx endpoint, log ++ [⟨"GET", endpoint⟩])

/-- The endpoint of `SubmitAggregateAttestations`. -/
def aggregateAndProofsEndpoint : List Char :=
  "/eth/v1/validator/aggregate_and_proofs".toList

/-- `(*Service).SubmitAggregateAttestations`
(submitaggregateattestations.go lines 26-38). -/
def SubmitAggregateAttestations (s : Service Ctx Body) (json : JSONLib Body A) (ctx : Ctx)
    (aggregateAndProofs : Option (List A)) : Call Err :=
  match json.marshalAggregates aggregateAndProofs with
  | (_, some err) => ⟨[], .ok (some (.wrap err "failed to marshal JSON"))⟩
  | (specJSON, none) =>
    let requests : List Request := [⟨"POST", aggregateAndProofsEndpoint⟩]
    match s.post ctx aggregateAndProofsEndpoint specJSON with
    | (_, some err) => ⟨requests, .ok (some (.wrap err "failed to submit aggregate and proofs"))⟩
    | (_, none) => ⟨requests, .ok none⟩

/-! ### Sample values -/

/-- A decoder for bodies that are the decoded structures themselves. -/
def sampleJSON : JSONLib (beaconBlockRootJSON × stateRootJSON) Nat where
  decodeBlockRoot := fun body => .ok body.1
  decodeStateRoot := fun body => .ok body.2
  marshalAggregates := fun _ => ([], none)

/-- A node that answers every request with the body `body`. -/
def answeringService (body : beaconBlockRootJSON × stateRootJSON) :
    Service Unit (beaconBlockRootJSON × stateRootJSON) where
  get := fun _ _ => (some body, none)
  post := fun _ _ _ => (some body, none)

/-- A node that answers every request without a body and without an error. -/
def silentService : Service Unit (beaconBlockRootJSON × stateRootJSON) where
  get := fun _ _ => (none, none)
  post := fun _ _ _ => (none, none)

/-- A node that fails every request with the `http.Error` of status 418. -/
def teapotService : Service Unit (beaconBlockRootJSON × stateRootJSON) where
  get := fun _ endpoint => (none, some (.http 418 [100, 97, 116, 97] "GET".toList endpoint))
  post := fun _ endpoint _ =>
    (none, some (.http 418 [100, 97, 116, 97] "POST".toList endpoint))

/-- The response `{"data":{"root":"0x01"}}`, decoded. -/
def shortRootBody : beaconBlockRootJSON × stateRootJSON :=
  (⟨some ⟨"0x01".toList⟩⟩, ⟨some ⟨"0x01".toList⟩⟩)

/-- The response `{}`, decoded. -/
def noDataBody : beaconBlockRootJSON × stateRootJSON :=
  (⟨none⟩, ⟨none⟩)

end Http

/-! ## The dispatcher and the provider registry

`(*Service).doCall` and the bookkeeping of providers live in `multi/service.go`,
which is not among the embedded files.  The definitions of this section follow
the specification (sections 3, 4.1 and 4.2). -/

namespace Dispatcher

/-- Modelled from the spec: a capability, "a marker identifying one logical
operation a provider can serve" (section 3); `multi/service.go` is missing.
The three markers are those of the embedded wrappers. -/
inductive Capability where
  | proposerDuties | validatorBalances | syncCommitteeContribution
  deriving DecidableEq, Repr

/-- Modelled from the spec: the health state of a provider, `Active` or
`Inactive` (section 3); `multi/service.go` is missing. -/
inductive Health where
  | active | inactive
  deriving DecidableEq, Repr

/-- Modelled from the spec: a provider, with its "stable identifier, the set of
capabilities it advertises, health state, consecutive-failure counter,
last-failure timestamp" (section 3); `multi/service.go` is missing.  `client`
is the backend connection. -/
structure Provider (C : Type) where
  id : Nat
  capabilities : List Capability
  health : Health
  failures : Nat
  lastFailure : Nat
  client : C

/-- Modelled from the spec: the provider registry (section 4.1), the providers
in registration order with the failure threshold `K` and the cooldown window
`T`; `multi/service.go` is missing. -/
structure Registry (C : Type) where
  providers : List (Provider C)
  threshold : Nat
  cooldown : Nat

variable {C V : Type}

/-- Modelled from the spec: whether the registry hands the provider out for a
capability at time `now` (section 4.1); `multi/service.go` is missing.  The
provider advertises the capability, and it is `Active` or its cooldown window,
counted from its last failure, has elapsed. -/
def Provider.eligible (cap : Capability) (cooldown now : Nat) (p : Provider C) : Bool :=
  decide (cap ∈ p.capabilities) &&
    (decide (p.health = .active) || decide (p.lastFailure + cooldown ≤ now))

/-- Modelled from the spec: `EligibleProviders(capability)` "returns providers
advertising that capability, in registration order" (section 4.1), an
`Inactive` provider being left out until its cooldown window has elapsed;
`multi/service.go` is missing. -/
def Registry.EligibleProviders (reg : Registry C) (cap : Capability) (now : Nat) :
    List (Provider C) :=
  reg.providers.filter (Provider.eligible cap reg.cooldown now)

/-- Modelled from the spec: the effect of `ReportSuccess` on the provider, which
"resets that provider's consecutive-failure counter to zero and marks it
`Active`" (section 4.1); `multi/service.go` is missing. -/
def Provider.reportSuccess (p : Provider C) : Provider C :=
  { p with failures := 0, health := .active }

/-- Modelled from the spec: the effect of `ReportFailure` at time `now` on the
provider, which "increments the counter; upon reaching a configured threshold
K the provider transitions to `Inactive`" (section 4.1); `multi/service.go` is
missing.  The time of the failure is recorded. -/
def Provider.reportFailure (threshold now : Nat) (p : Provider C) : Provider C :=
  { p with
    failures := p.failures + 1
    lastFailure := now
    health := if threshold ≤ p.failures + 1 then .inactive else p.health }

/-- Modelled from the spec: `ReportSuccess(providerID)` (section 4.1);
`multi/service.go` is missing. -/
def Registry.ReportSuccess (reg : Registry C) (providerID : Nat) : Registry C :=
  { reg with
    providers := reg.providers.map (fun p => if p.id = providerID then p.reportSuccess else p) }

/-- Modelled from the spec: `ReportFailure(providerID, error)` at time `now`
(section 4.1); `multi/service.go` is missing. -/
def Registry.ReportFailure (reg : Registry C) (providerID now : Nat) : Registry C :=
  { reg with
    providers := reg.providers.map
      (fun p => if p.id = providerID then p.reportFailure reg.threshold now else p) }

/-- Modelled from the spec: the outcome of one provider in one dispatch,
`Succeeded(value)`, `Failed(error)` or `Cancelled` (section 3);
`multi/service.go` is missing. -/
inductive ProviderOutcome (V : Type) where
  | succeeded (value : V)
  | failed (err : GoError)
  | cancelled

/-- Modelled from the spec: the failures of a dispatch (sections 3 and 7):
`CapabilityUnavailable`, `AllProvidersFailed` with the error of every provider,
`ConsensusMismatch`, `DeadlineExceeded` and `Cancelled`; `multi/service.go` is
missing. -/
inductive DispatchError (V : Type) where
  | capabilityUnavailable
  | allProvidersFailed (errs : List (Nat × GoError))
  | consensusMismatch (values : List (Nat × V))
  | deadlineExceeded
  | cancelled

/-- Modelled from the spec: what a dispatch leaves behind: its aggregate result
(`Resolved(value)` or a failure), the identifiers of the providers on which the
call closure was launched, and the registry with the health of the providers
brought up to date; `multi/service.go` is missing. -/
structure DispatchResult (C V : Type) where
  result : Except (DispatchError V) V
  called : List Nat
  registry : Registry C

/-- Modelled from the spec: the first-success race of section 4.2 (steps 4 and
6) over the provider tasks in the order in which they complete;
`multi/service.go` is missing.  A failed task is reported to the registry and
its error kept; the first task that succeeds resolves the dispatch and is
reported as a success; when every task has failed the dispatch fails with
`AllProvidersFailed` and all the errors; a cancelled task leaves no health
mutation and makes a dispatch without a success end as `Cancelled`. -/
def race (callFn : C → ProviderOutcome V) (now : Nat) :
    List (Provider C) → List (Nat × GoError) → Bool → Registry C →
      Except (DispatchError V) V × Registry C
  | [], errs, sawCancel, reg =>
    (.error (if sawCancel then .cancelled else .allProvidersFailed errs), reg)
  | p :: ps, errs, sawCancel, reg =>
    match callFn p.client with
    | .succeeded value => (.ok value, reg.ReportSuccess p.id)
    | .failed err => race callFn now ps (errs ++ [(p.id, err)]) sawCancel
        (reg.ReportFailure p.id now)
    | .cancelled => race callFn now ps errs true reg

/-- Modelled from the spec: `Dispatch` with the default strategy (section 4.2),
which is what the wrappers ask for by passing no reconciliation strategy;
`multi/service.go` is missing.  With no eligible provider the dispatch fails
at once with `CapabilityUnavailable` and launches nothing; otherwise one task
is launched per eligible provider and the race is run over the tasks in their
order of completion, which is `order` applied to the eligible providers. -/
def Dispatch (reg : Registry C) (cap : Capability) (callFn : C → ProviderOutcome V) (now : Nat)
    (order : List (Provider C) → List (Provider C)) : DispatchResult C V :=
  match reg.EligibleProviders cap now with
  | [] => ⟨.error .capabilityUnavailable, [], reg⟩
  | p :: ps =>
    let r := race callFn now (order (p :: ps)) [] false reg
    ⟨r.1, (p :: ps).map (fun q => q.id), r.2⟩

/-- Modelled from the spec: the outcome of the call closure of a wrapper on one
provider (section 4.2 step 3); `multi/service.go` is missing.  An error and a
panic within the call are both a `Failed` outcome, `panicError` being the
error that a captured panic is converted into. -/
def closureOutcome {Ctx Duty Contribution : Type} (panicError : Panic → GoError) (ctx : Ctx)
    (call : Multi.CallFunc Ctx Duty Contribution)
    (client : Multi.Client Ctx Duty Contribution) :
    ProviderOutcome (Multi.Iface Duty Contribution) :=
  match call ctx client with
  | .error p => .failed (panicError p)
  | .ok (_, some err) => .failed err
  | .ok (res, none) => .succeeded res

/-- Modelled from the spec: `doCall` as the wrappers use it (section 4.5): a
dispatch of the closure for the capability of the wrapper, the aggregate
result returned as a value or as an error; `multi/service.go` is missing.
`asError` is the Go error value that stands for a failure of the dispatch. -/
def dispatchDoCall {Ctx Duty Contribution : Type}
    (reg : Registry (Multi.Client Ctx Duty Contribution)) (cap : Capability) (now : Nat)
    (order : List (Provider (Multi.Client Ctx Duty Contribution)) →
      List (Provider (Multi.Client Ctx Duty Contribution)))
    (panicError : Panic → GoError)
    (asError : DispatchError (Multi.Iface Duty Contribution) → GoError) :
    Multi.DoCall Ctx Duty Contribution :=
  fun ctx call _ =>
    match (Dispatch reg cap (closureOutcome panicError ctx call) now order).result with
    | .ok res => .ok (res, none)
    | .error failure => .ok (none, some (asError failure))

/-! ### Sample values -/

/-- A provider of validator balances only, `Active`, without failures. -/
def balancesProvider (id : Nat) : Provider (Multi.Client Unit Unit Unit) where
  id := id
  capabilities := [.validatorBalances]
  health := .active
  failures := 0
  lastFailure := 0
  client := Multi.failingClient

/-- A registry of two providers of validator balances, with `K = 3` and a
cooldown of 30. -/
def balancesRegistry : Registry (Multi.Client Unit Unit Unit) where
  providers := [balancesProvider 1, balancesProvider 2]
  threshold := 3
  cooldown := 30

/-- The Go error value of a failure of the dispatch, numbered by its kind. -/
def sampleAsError : DispatchError (Multi.Iface Unit Unit) → GoError
  | .capabilityUnavailable => .external 100
  | .allProvidersFailed _ => .external 101
  | .consensusMismatch _ => .external 102
  | .deadlineExceeded => .external 103
  | .cancelled => .external 104

end Dispatcher

/-! ## `spec/phase0`: the JSON form of `Checkpoint`

Only the test `checkpoint_test.go` is among the embedded files. -/

namespace Phase0

/-- Modelled from the spec: `phase0.Checkpoint`, declared in
`spec/phase0/checkpoint.go`, which is not among the embedded files: an epoch
and a root of 32 bytes. -/
structure Checkpoint where
  Epoch : Nat
  Root : FixedBytes 32
  deriving DecidableEq

/-- Modelled from the spec: `checkpointJSON`, declared in
`spec/phase0/checkpoint_json.go`, which is not among the embedded files; the
test names it and its two string fields `epoch` and `root`. -/
structure checkpointJSON where
  Epoch : List Char
  Root : List Char
  deriving DecidableEq, Repr

/-- Modelled from the spec: the record that `Checkpoint.MarshalJSON` hands to
`json.Marshal` (`checkpoint_json.go` is missing): the epoch as a decimal
string and the root as `0x` and its hexadecimal digits, as the accepted input
of the test shows. -/
def Checkpoint.MarshalJSON (c : Checkpoint) : checkpointJSON where
  Epoch := SprintfDec c.Epoch
  Root := SprintfHex c.Root.val

/-- Modelled from the spec: the epoch block of `Checkpoint.unpack`
(`checkpoint_json.go` is missing), with the errors `epoch missing` and
`invalid value for epoch` of `strconv.ParseUint` that the test expects. -/
def unpackEpoch (data : checkpointJSON) : Deneb.Step Checkpoint := fun c =>
  if data.Epoch = [] then (c, some (.new "epoch missing"))
  else
    match ParseUint data.Epoch with
    | (_, some err) => (c, some (.wrap err "invalid value for epoch"))
    | (epoch, none) => ({ c with Epoch := epoch }, none)

/-- Modelled from the spec: the root block of `Checkpoint.unpack`
(`checkpoint_json.go` is missing), with the errors `root missing`,
`invalid value for root` and `incorrect length for root` that the test
expects. -/
def unpackRoot (data : checkpointJSON) : Deneb.Step Checkpoint := fun c =>
  match Deneb.decodeFixed "root missing" "invalid value for root" "incorrect length for root"
      32 data.Root with
  | .error err => (c, some err)
  | .ok root => ({ c with Root := copyBytes c.Root root }, none)

/-- Modelled from the spec: `Checkpoint.unpack` (`checkpoint_json.go` is
missing): the epoch, then the root, as the order of the errors of the test
shows. -/
def Checkpoint.unpack (c : Checkpoint) (data : checkpointJSON) : Checkpoint × Err :=
  Deneb.runSteps [unpackEpoch data, unpackRoot data] c

/-- The JSON text of a record whose strings need no escaping:
`{"epoch":"<epoch>","root":"<root>"}`, as `json.Marshal` prints it and as the
inputs of the test are written. -/
def checkpointJSON.text (j : checkpointJSON) : List Char :=
  "\x7b\"epoch\":\"".toList ++ j.Epoch ++ "\",\"root\":\"".toList ++ j.Root ++ "\"\x7d".toList

/-- A decimal string in canonical form: digits only, at least one, and no
leading zero unless the string is `0`. -/
def canonicalDecimal (s : List Char) : Prop :=
  s ≠ [] ∧ allDigits s = true ∧ (s = ['0'] ∨ s.head? ≠ some '0')

/-- A lower-case hexadecimal digit. -/
def isLowerHexDigit (c : Char) : Bool :=
  decide ((48 ≤ c.toNat ∧ c.toNat ≤ 57) ∨ (97 ≤ c.toNat ∧ c.toNat ≤ 102))

/-- A root in canonical form: `0x` and 64 lower-case hexadecimal digits. -/
def canonicalRoot (s : List Char) : Prop :=
  ∃ digits, s = '0' :: 'x' :: digits ∧ digits.length = 64 ∧
    digits.all isLowerHexDigit = true

/-- The record of the accepted input of the test. -/
def sampleCheckpointJSON : checkpointJSON where
  Epoch := "1".toList
  Root := "0x000102030405060708090a0b0c0d0e0f101112131415161718191a1b1c1d1e1f".toList

/-- The zero value of `Checkpoint`. -/
def Checkpoint.zero : Checkpoint where
  Epoch := 0
  Root := FixedBytes.zero 32

end Phase0

/-! # Theorems -/

/-! ## Lemmas on the library routines -/

theorem TrimPrefix_0x (ds : List Char) : TrimPrefix ('0' :: 'x' :: ds) ['0', 'x'] = ds := by
  simp [TrimPrefix, List.isPrefixOf]

theorem fromHexChar_hexDigit (n : Fin 16) : fromHexChar (hexDigit n) = some n := by
  revert n
  decide

theorem mkByte_div_mod (b : Byte) (h1 : b.val / 16 < 16) (h2 : b.val % 16 < 16) :
    mkByte ⟨b.val / 16, h1⟩ ⟨b.val % 16, h2⟩ = b := by
  apply Fin.ext
  simp only [mkByte]
  omega

theorem DecodeString_hexDigits (bs : List Byte) : DecodeString (hexDigits bs) = .ok bs := by
  induction bs with
  | nil => rfl
  | cons b bs ih =>
    simp only [hexDigits, DecodeString, fromHexChar_hexDigit, ih, mkByte_div_mod]

theorem DecodeString_length (s : List Char) (bs : List Byte) (h : DecodeString s = .ok bs) :
    s.length = 2 * bs.length := by
  induction s using DecodeString.induct generalizing bs with
  | case1 => simp [DecodeString] at h; simp [← h]
  | case2 p hp => simp [DecodeString, hp] at h
  | case3 p x hp => simp [DecodeString, hp] at h
  | case4 p q rest hp => simp [DecodeString, hp] at h
  | case5 p q rest a ha hq => simp [DecodeString, ha, hq] at h
  | case6 p q rest a ha b hb err herr ih => simp [DecodeString, ha, hb, herr] at h
  | case7 p q rest a ha b hb bs1 hbs ih =>
    simp [DecodeString, ha, hb, hbs] at h
    subst h
    have := ih bs1 hbs
    simp [this]
    omega

theorem decValue_nil : decValue [] = 0 := rfl

theorem foldl_dec (s : List Char) (n : Nat) :
    s.foldl (fun n c => n * 10 + (c.toNat - 48)) n = n * 10 ^ s.length + decValue s := by
  induction s generalizing n with
  | nil => simp [decValue]
  | cons c cs ih =>
    have h1 := ih (n * 10 + (c.toNat - 48))
    have h2 := ih (0 * 10 + (c.toNat - 48))
    simp only [List.foldl_cons, decValue, List.length_cons] at h1 h2 ⊢
    rw [h1, h2]
    ring

theorem decValue_cons (c : Char) (cs : List Char) :
    decValue (c :: cs) = (c.toNat - 48) * 10 ^ cs.length + decValue cs := by
  have h := foldl_dec cs (0 * 10 + (c.toNat - 48))
  simp only [decValue, List.foldl_cons] at h ⊢
  rw [h]
  simp

theorem allDigits_cons (c : Char) (cs : List Char) :
    allDigits (c :: cs) = true ↔ (48 ≤ c.toNat ∧ c.toNat ≤ 57) ∧ allDigits cs = true := by
  simp [allDigits]

theorem parseUintLoop_spec (s0 s : List Char) (n : Nat) (hn : n < 2 ^ 64) :
    (allDigits s = true ∧ n * 10 ^ s.length + decValue s < 2 ^ 64 →
      parseUintLoop s0 s n = (n * 10 ^ s.length + decValue s, none)) ∧
    (¬ (allDigits s = true ∧ n * 10 ^ s.length + decValue s < 2 ^ 64) →
      (parseUintLoop s0 s n).2 ≠ none) := by
  have e64 : (2 : Nat) ^ 64 = 18446744073709551616 := by norm_num
  induction s generalizing n with
  | nil =>
    constructor
    · intro _
      simp [parseUintLoop, decValue_nil]
    · intro h
      exact absurd ⟨by simp [allDigits], by simpa [decValue_nil] using hn⟩ h
  | cons c cs ih =>
    have hpow : 1 ≤ 10 ^ cs.length := Nat.one_le_pow _ _ (by norm_num)
    have hV : n * 10 ^ (cs.length + 1) + decValue (c :: cs)
        = (n * 10 + (c.toNat - 48)) * 10 ^ cs.length + decValue cs := by
      rw [decValue_cons]; ring
    have hge : n * 10 + (c.toNat - 48) ≤ (n * 10 + (c.toNat - 48)) * 10 ^ cs.length :=
      Nat.le_mul_of_pos_right _ hpow
    have hcut : maxUint64 / 10 + 1 = 1844674407370955162 := by norm_num [maxUint64]
    have hmax : maxUint64 = 18446744073709551615 := by norm_num [maxUint64]
    rw [List.length_cons, hV, allDigits_cons]
    rw [e64] at hn ih ⊢
    unfold parseUintLoop
    simp only [e64]
    by_cases hd : 48 ≤ c.toNat ∧ c.toNat ≤ 57
    · rw [if_pos hd]
      by_cases hc : n ≥ maxUint64 / 10 + 1
      · rw [if_pos hc]
        constructor
        · intro h
          have := h.2
          omega
        · intro _
          simp
      · rw [if_neg hc]
        have hn10 : n * 10 % 18446744073709551616 = n * 10 := by
          apply Nat.mod_eq_of_lt; omega
        simp only [hn10]
        by_cases hov : n * 10 + (c.toNat - 48) < 18446744073709551616
        · have hn1 : (n * 10 + (c.toNat - 48)) % 18446744073709551616
              = n * 10 + (c.toNat - 48) := Nat.mod_eq_of_lt hov
          have hcond : ¬ ((n * 10 + (c.toNat - 48)) < n * 10 ∨
              (n * 10 + (c.toNat - 48)) > maxUint64) := by
            rw [hmax]; omega
          rw [hn1, if_neg hcond]
          have h3 := ih (n * 10 + (c.toNat - 48)) hov
          constructor
          · intro h
            exact h3.1 ⟨h.1.2, h.2⟩
          · intro h
            apply h3.2
            intro h4
            exact h ⟨⟨hd, h4.1⟩, h4.2⟩
        · have hn1 : (n * 10 + (c.toNat - 48)) % 18446744073709551616 < n * 10 := by
            omega
          rw [if_pos (Or.inl hn1)]
          constructor
          · intro h
            have := h.2
            omega
          · intro _
            simp
    · rw [if_neg hd]
      constructor
      · intro h
        exact absurd h.1.1 hd
      · intro _
        simp

theorem ParseUint_ok_iff (s : List Char) :
    (ParseUint s).2 = none ↔ s ≠ [] ∧ allDigits s = true ∧ decValue s < 2 ^ 64 := by
  unfold ParseUint
  by_cases hs : s = []
  · simp [hs]
  · rw [if_neg hs]
    have h := parseUintLoop_spec s s 0 (by norm_num)
    simp only [zero_mul, zero_add] at h
    by_cases hc : allDigits s = true ∧ decValue s < 2 ^ 64
    · rw [h.1 hc]
      exact ⟨fun _ => ⟨hs, hc⟩, fun _ => rfl⟩
    · constructor
      · intro h2; exact absurd h2 (h.2 hc)
      · intro h2; exact absurd h2.2 hc

theorem ParseUint_value (s : List Char) (h : (ParseUint s).2 = none) :
    (ParseUint s).1 = decValue s := by
  have h1 := (ParseUint_ok_iff s).1 h
  unfold ParseUint
  simp only [h1.1, if_false]
  have h := parseUintLoop_spec s s 0 (by norm_num)
  simp only [zero_mul, zero_add] at h
  rw [h.1 h1.2]

theorem decDigit_toNat (d : Nat) (h : d < 10) : (decDigit d).toNat = 48 + d := by
  interval_cases d <;> rfl

theorem decValue_append (a b : List Char) :
    decValue (a ++ b) = decValue a * 10 ^ b.length + decValue b := by
  have h := foldl_dec b (decValue a)
  simp only [decValue, List.foldl_append] at h ⊢
  exact h

theorem allDigits_append (a b : List Char) :
    allDigits (a ++ b) = true ↔ allDigits a = true ∧ allDigits b = true := by
  simp [allDigits]

theorem fmtDigits_spec (fuel u : Nat) (acc : List Char) (h : u ≤ fuel) :
    ∃ c rest, fmtDigits fuel u acc = (c :: rest) ++ acc ∧ allDigits (c :: rest) = true ∧
      decValue (c :: rest) = u ∧ (u = 0 → c = '0' ∧ rest = []) ∧ (0 < u → 49 ≤ c.toNat) := by
  induction fuel generalizing u acc with
  | zero =>
    have hu : u = 0 := by omega
    subst hu
    exact ⟨'0', [], rfl, by decide, by decide, fun _ => ⟨rfl, rfl⟩, fun h => absurd h (by omega)⟩
  | succ fuel ih =>
    unfold fmtDigits
    by_cases hlt : u < 10
    · rw [if_pos hlt]
      have hd := decDigit_toNat u hlt
      refine ⟨decDigit u, [], rfl, ?_, ?_, ?_, ?_⟩
      · rw [allDigits_cons]
        exact ⟨by omega, rfl⟩
      · rw [decValue_cons, hd]
        simp [decValue_nil]
      · intro h0
        subst h0
        exact ⟨rfl, rfl⟩
      · intro _
        omega
    · rw [if_neg hlt]
      have hmod : u % 10 < 10 := Nat.mod_lt _ (by norm_num)
      have hd := decDigit_toNat (u % 10) hmod
      obtain ⟨c, rest, heq, hall, hval, _, hpos⟩ :=
        ih (u / 10) (decDigit (u % 10) :: acc) (by omega)
      refine ⟨c, rest ++ [decDigit (u % 10)], ?_, ?_, ?_, ?_, ?_⟩
      · rw [heq]
        simp
      · have : c :: (rest ++ [decDigit (u % 10)]) = (c :: rest) ++ [decDigit (u % 10)] := rfl
        rw [this, allDigits_append]
        refine ⟨hall, ?_⟩
        rw [allDigits_cons]
        exact ⟨by omega, rfl⟩
      · have : c :: (rest ++ [decDigit (u % 10)]) = (c :: rest) ++ [decDigit (u % 10)] := rfl
        rw [this, decValue_append, hval, decValue_cons, hd]
        simp [decValue_nil]
        omega
      · intro h0
        omega
      · intro _
        exact hpos (by omega)

theorem SprintfDec_spec (u : Nat) :
    ∃ c rest, SprintfDec u = c :: rest ∧ allDigits (c :: rest) = true ∧
      decValue (c :: rest) = u ∧ (u = 0 → c = '0' ∧ rest = []) ∧ (0 < u → 49 ≤ c.toNat) := by
  obtain ⟨c, rest, heq, h⟩ := fmtDigits_spec u u [] (Nat.le_refl u)
  exact ⟨c, rest, by simpa [SprintfDec] using heq, h⟩

theorem ParseUint_SprintfDec (n : Nat) (h : n < 2 ^ 64) : ParseUint (SprintfDec n) = (n, none) := by
  obtain ⟨c, rest, heq, hall, hval, _, _⟩ := SprintfDec_spec n
  have hok : (ParseUint (SprintfDec n)).2 = none := by
    rw [ParseUint_ok_iff, heq]
    exact ⟨by simp, hall, by rw [hval]; exact h⟩
  have hv := ParseUint_value _ hok
  rw [heq, hval] at hv
  rw [heq] at hok
  rw [heq]
  exact Prod.ext hv hok

theorem decValue_lt_pow (s : List Char) (h : allDigits s = true) :
    decValue s < 10 ^ s.length := by
  induction s with
  | nil => simp [decValue_nil]
  | cons c cs ih =>
    rw [allDigits_cons] at h
    have h1 := ih h.2
    rw [decValue_cons, List.length_cons, pow_succ]
    have : (c.toNat - 48) * 10 ^ cs.length ≤ 9 * 10 ^ cs.length :=
      Nat.mul_le_mul_right _ (by omega)
    omega

theorem strGt_decValue (a b : List Char) (hlen : a.length = b.length)
    (ha : allDigits a = true) (hb : allDigits b = true) (h : strGt a b = true) :
    decValue b < decValue a := by
  induction a generalizing b with
  | nil => simp [strGt] at h
  | cons x xs ih =>
    cases b with
    | nil => simp at hlen
    | cons y ys =>
      rw [allDigits_cons] at ha hb
      have hl : xs.length = ys.length := by simpa using hlen
      rw [decValue_cons, decValue_cons, hl]
      have hys := decValue_lt_pow ys hb.2
      unfold strGt at h
      by_cases h1 : x.toNat > y.toNat
      · have : (y.toNat - 48 + 1) * 10 ^ ys.length ≤ (x.toNat - 48) * 10 ^ ys.length :=
          Nat.mul_le_mul_right _ (by omega)
        rw [Nat.add_mul] at this
        omega
      · rw [if_neg h1] at h
        by_cases h2 : x.toNat < y.toNat
        · rw [if_pos h2] at h
          exact absurd h (by simp)
        · rw [if_neg h2] at h
          have h3 := ih ys hl ha.2 hb.2 h
          have : x.toNat = y.toNat := by omega
          rw [this]
          omega

theorem twoPow256Sub1_length : twoPow256Sub1.length = 78 := by decide

theorem twoPow256Sub1_allDigits : allDigits twoPow256Sub1 = true := by decide

set_option maxRecDepth 100000 in
theorem twoPow256Sub1_value : decValue twoPow256Sub1 = 2 ^ 256 - 1 := by decide

theorem dropLeadingZeros_of_ne (c : Char) (rest : List Char) (h : c ≠ '0') :
    dropLeadingZeros (c :: rest) = c :: rest := by
  cases rest with
  | nil => rfl
  | cons d ds => simp [dropLeadingZeros, h]

theorem FromDecimal_SprintfDec (v : Nat) (h : v < 2 ^ 256) :
    FromDecimal (SprintfDec v) = (some v, none) := by
  obtain ⟨c, rest, heq, hall, hval, hzero, hpos⟩ := SprintfDec_spec v
  rw [heq]
  by_cases hv : v = 0
  · obtain ⟨hc, hr⟩ := hzero hv
    subst hc hr hv
    decide
  · have hc49 := hpos (by omega)
    have hcp : c ≠ '+' := by
      intro hc; rw [hc] at hc49; revert hc49; decide
    have hc0 : c ≠ '0' := by
      intro hc; rw [hc] at hc49; revert hc49; decide
    have hmatch : (match c :: rest with
        | '+' :: r => r
        | s => s) = c :: rest := by
      split
      · rename_i heq2
        simp at heq2
        exact absurd heq2.1 hcp
      · rfl
    unfold FromDecimal
    simp only [hmatch, dropLeadingZeros_of_ne c rest hc0, twoPow256Sub1_length]
    have hfd : fromDecimal (c :: rest) = (some v, none) := by
      unfold fromDecimal
      simp only [List.cons_ne_nil, if_false, hall, if_true, hval, Nat.mod_eq_of_lt h]
    have hall' := hall
    rw [allDigits_cons] at hall'
    have hge : 10 ^ rest.length ≤ decValue (c :: rest) := by
      rw [decValue_cons]
      have : 1 * 10 ^ rest.length ≤ (c.toNat - 48) * 10 ^ rest.length :=
        Nat.mul_le_mul_right _ (by omega)
      omega
    by_cases h1 : (c :: rest).length < 78
    · rw [if_pos h1, hfd]
    · rw [if_neg h1]
      by_cases h2 : (c :: rest).length = 78
      · rw [if_pos h2]
        have hgt : strGt (c :: rest) twoPow256Sub1 = false := by
          by_contra hcon
          have hcon' : strGt (c :: rest) twoPow256Sub1 = true := by
            cases hs : strGt (c :: rest) twoPow256Sub1
            · exact absurd hs hcon
            · rfl
          have := strGt_decValue _ _ (by rw [h2, twoPow256Sub1_length]) hall
            twoPow256Sub1_allDigits hcon'
          rw [twoPow256Sub1_value, hval] at this
          omega
        simp only [hgt, hfd]
        rfl
      · exfalso
        have hlen : 78 ≤ rest.length := by
          simp only [List.length_cons] at h1 h2
          omega
        have hp : 10 ^ 78 ≤ 10 ^ rest.length := Nat.pow_le_pow_right (by norm_num) hlen
        rw [hval] at hge
        have h78 : (2 : Nat) ^ 256 < 10 ^ 78 := by norm_num
        omega

theorem HasPrefix_SprintfDec (v : Nat) : HasPrefix (SprintfDec v) ['0', 'x'] = false := by
  obtain ⟨c, rest, heq, hall, hval, hzero, hpos⟩ := SprintfDec_spec v
  rw [heq]
  by_cases hv : v = 0
  · obtain ⟨hc, hr⟩ := hzero hv
    subst hc hr
    decide
  · have hc49 := hpos (by omega)
    have hc0 : c ≠ '0' := by
      intro hc; rw [hc] at hc49; revert hc49; decide
    simp [HasPrefix, List.isPrefixOf, hc0]
    intro h
    exact absurd h.symm hc0

theorem SprintfDec_ne_nil (v : Nat) : SprintfDec v ≠ [] := by
  obtain ⟨c, rest, heq, _⟩ := SprintfDec_spec v
  rw [heq]
  simp

/-! ## The multi operation wrappers -/

section MultiTheorems

open Multi

/-- C1. For each multi operation wrapper (`ProposerDuties`, `ValidatorBalances`,
`SyncCommitteeContribution`) and every error `e`: if `doCall` returns a
non-nil error `e` (with whatever result), the wrapper returns a nil value
together with exactly `e`, neither wrapped nor replaced. -/
theorem multi_wrappers_return_doCall_error {Ctx Duty Contribution : Type}
    (doCall : DoCall Ctx Duty Contribution) (ctx : Ctx) (e : GoError) :
    (∀ epoch validatorIndices res,
      doCall ctx (proposerDutiesCall epoch validatorIndices) none = .ok (res, some e) →
      ProposerDuties doCall ctx epoch validatorIndices = .ok (none, some e)) ∧
    (∀ stateID validatorIndices res,
      doCall ctx (validatorBalancesCall stateID validatorIndices) none = .ok (res, some e) →
      ValidatorBalances doCall ctx stateID validatorIndices = .ok (none, some e)) ∧
    (∀ slot subcommitteeIndex beaconBlockRoot res,
      doCall ctx (syncCommitteeContributionCall slot subcommitteeIndex beaconBlockRoot) none
        = .ok (res, some e) →
      SyncCommitteeContribution doCall ctx slot subcommitteeIndex beaconBlockRoot
        = .ok (none, some e)) := by
  refine ⟨?_, ?_, ?_⟩
  · intro epoch validatorIndices res h
    simp only [ProposerDuties, h]
  · intro stateID validatorIndices res h
    simp only [ValidatorBalances, h]
  · intro slot subcommitteeIndex beaconBlockRoot res h
    simp only [SyncCommitteeContribution, h]

/-- Witness for C1: with a single provider that fails with `external 1`, each
wrapper returns a nil value and that very error. -/
theorem multi_wrappers_return_doCall_error_witness :
    ProposerDuties (singleClientDoCall failingClient) () 5 none
      = .ok (none, some (.external 1)) ∧
    ValidatorBalances (singleClientDoCall failingClient) () "head".toList none
      = .ok (none, some (.external 1)) ∧
    SyncCommitteeContribution (singleClientDoCall failingClient) () 5 0 []
      = .ok (none, some (.external 1)) :=
  have h := multi_wrappers_return_doCall_error (singleClientDoCall failingClient) ()
    (.external 1)
  ⟨h.1 5 none none rfl, h.2.1 "head".toList none none rfl, h.2.2 5 0 [] none rfl⟩

/-- C2. For each multi operation wrapper and every result `r`: if `doCall`
returns `(r, nil)` then the wrapper returns a nil error; its value is nil when
`r` is the nil interface ("no data"), and when `r` is not nil and carries a
value `v` of the wrapper's result type the value is `v` itself, unchanged (a
typed nil included). -/
theorem multi_wrappers_return_doCall_value {Ctx Duty Contribution : Type}
    (doCall : DoCall Ctx Duty Contribution) (ctx : Ctx) :
    (∀ epoch validatorIndices,
      (doCall ctx (proposerDutiesCall epoch validatorIndices) none = .ok (none, none) →
        ProposerDuties doCall ctx epoch validatorIndices = .ok (none, none)) ∧
      (∀ v, doCall ctx (proposerDutiesCall epoch validatorIndices) none
          = .ok (some (.proposerDuties v), none) →
        ProposerDuties doCall ctx epoch validatorIndices = .ok (v, none))) ∧
    (∀ stateID validatorIndices,
      (doCall ctx (validatorBalancesCall stateID validatorIndices) none = .ok (none, none) →
        ValidatorBalances doCall ctx stateID validatorIndices = .ok (none, none)) ∧
      (∀ v, doCall ctx (validatorBalancesCall stateID validatorIndices) none
          = .ok (some (.validatorBalances v), none) →
        ValidatorBalances doCall ctx stateID validatorIndices = .ok (v, none))) ∧
    (∀ slot subcommitteeIndex beaconBlockRoot,
      (doCall ctx (syncCommitteeContributionCall slot subcommitteeIndex beaconBlockRoot) none
          = .ok (none, none) →
        SyncCommitteeContribution doCall ctx slot subcommitteeIndex beaconBlockRoot
          = .ok (none, none)) ∧
      (∀ v, doCall ctx (syncCommitteeContributionCall slot subcommitteeIndex beaconBlockRoot)
          none = .ok (some (.syncCommitteeContribution v), none) →
        SyncCommitteeContribution doCall ctx slot subcommitteeIndex beaconBlockRoot
          = .ok (v, none))) := by
  refine ⟨?_, ?_, ?_⟩
  · intro epoch validatorIndices
    constructor
    · intro h
      simp only [ProposerDuties, h]
    · intro v h
      simp only [ProposerDuties, h]
  · intro stateID validatorIndices
    constructor
    · intro h
      simp only [ValidatorBalances, h]
    · intro v h
      simp only [ValidatorBalances, h]
  · intro slot subcommitteeIndex beaconBlockRoot
    constructor
    · intro h
      simp only [SyncCommitteeContribution, h]
    · intro v h
      simp only [SyncCommitteeContribution, h]

/-- Witness for C2: a dispatcher without data makes `ProposerDuties` return
`(nil, nil)`, and a single answering provider makes each wrapper return the
provider's value with a nil error. -/
theorem multi_wrappers_return_doCall_value_witness :
    ProposerDuties noDataDoCall () 5 none = .ok (none, none) ∧
    ProposerDuties (singleClientDoCall answeringClient) () 5 none
      = .ok (some [some ()], none) ∧
    ValidatorBalances (singleClientDoCall answeringClient) () "head".toList none
      = .ok (some [(1, 32000000000)], none) ∧
    SyncCommitteeContribution (singleClientDoCall answeringClient) () 5 0 []
      = .ok (some (), none) :=
  have h := multi_wrappers_return_doCall_value (singleClientDoCall answeringClient) ()
  ⟨((multi_wrappers_return_doCall_value noDataDoCall ()).1 5 none).1 rfl,
    (h.1 5 none).2 _ rfl, (h.2.1 "head".toList none).2 _ rfl, (h.2.2 5 0 []).2 _ rfl⟩

/-- C3. For every outcome of `doCall`, a multi operation wrapper never returns
a value together with an error: whenever the returned error is non-nil the
returned value is nil.  The wrapper does return in that case: an outcome of
`doCall` with a non-nil error always makes it return (a nil value and an
error). -/
theorem multi_wrappers_value_xor_error {Ctx Duty Contribution : Type}
    (doCall : DoCall Ctx Duty Contribution) (ctx : Ctx) :
    (∀ epoch validatorIndices,
      (∀ v err, ProposerDuties doCall ctx epoch validatorIndices = .ok (v, some err) →
        v = none) ∧
      (∀ res err,
        doCall ctx (proposerDutiesCall epoch validatorIndices) none = .ok (res, some err) →
        ∃ err1, ProposerDuties doCall ctx epoch validatorIndices = .ok (none, some err1))) ∧
    (∀ stateID validatorIndices,
      (∀ v err, ValidatorBalances doCall ctx stateID validatorIndices = .ok (v, some err) →
        v = none) ∧
      (∀ res err,
        doCall ctx (validatorBalancesCall stateID validatorIndices) none
          = .ok (res, some err) →
        ∃ err1, ValidatorBalances doCall ctx stateID validatorIndices
          = .ok (none, some err1))) ∧
    (∀ slot subcommitteeIndex beaconBlockRoot,
      (∀ v err, SyncCommitteeContribution doCall ctx slot subcommitteeIndex beaconBlockRoot
          = .ok (v, some err) → v = none) ∧
      (∀ res err,
        doCall ctx (syncCommitteeContributionCall slot subcommitteeIndex beaconBlockRoot) none
          = .ok (res, some err) →
        ∃ err1, SyncCommitteeContribution doCall ctx slot subcommitteeIndex beaconBlockRoot
          = .ok (none, some err1))) := by
  refine ⟨?_, ?_, ?_⟩
  · intro epoch validatorIndices
    constructor
    · intro v err h
      unfold ProposerDuties at h
      split at h <;> simp_all
    · intro res err h
      exact ⟨err, by simp only [ProposerDuties, h]⟩
  · intro stateID validatorIndices
    constructor
    · intro v err h
      unfold ValidatorBalances at h
      split at h <;> simp_all
    · intro res err h
      exact ⟨err, by simp only [ValidatorBalances, h]⟩
  · intro slot subcommitteeIndex beaconBlockRoot
    constructor
    · intro v err h
      unfold SyncCommitteeContribution at h
      split at h <;> simp_all
    · intro res err h
      exact ⟨err, by simp only [SyncCommitteeContribution, h]⟩

/-- Witness for C3: with a single failing provider `ProposerDuties` returns a
pair that carries an error, and the value of that pair is nil. -/
theorem multi_wrappers_value_xor_error_witness :
    (∃ v err, ProposerDuties (singleClientDoCall failingClient) () 5 none
      = .ok (v, some err) ∧ v = none) ∧
    (∃ err1, ValidatorBalances (singleClientDoCall failingClient) () "head".toList none
      = .ok (none, some err1)) :=
  have h := multi_wrappers_value_xor_error (singleClientDoCall failingClient) ()
  ⟨⟨none, .external 1, rfl, (h.1 5 none).1 none (.external 1) rfl⟩,
    (h.2.1 "head".toList none).2 none (.external 1) rfl⟩

end MultiTheorems

namespace Deneb

/-! ## Lemmas on the sequencing of field blocks -/

theorem runSteps_cons_ok {σ : Type} (f : Step σ) (fs : List (Step σ)) (st st1 : σ)
    (h : f st = (st1, none)) : runSteps (f :: fs) st = runSteps fs st1 := by
  simp only [runSteps, h]

theorem runSteps_cons_inv {σ : Type} (f : Step σ) (fs : List (Step σ)) (st : σ)
    (h : (runSteps (f :: fs) st).2 = none) :
    (f st).2 = none ∧ runSteps (f :: fs) st = runSteps fs (f st).1 := by
  cases hfs : f st with
  | mk st1 r =>
    cases r with
    | none => simp only [runSteps, hfs, and_self]
    | some err => simp [runSteps, hfs] at h

theorem runSteps_fails_at {σ : Type} (steps : List (Step σ)) (k : Nat) (f : Step σ)
    (hf : steps[k]? = some f) (st : σ) :
    ((∀ st1, (f st1).2 ≠ none) → (runSteps steps st).2 ≠ none) ∧
    (∀ E, (∀ st1, (f st1).2 = some E) → (runSteps (steps.take k) st).2 = none →
      (runSteps steps st).2 = some E) := by
  induction steps generalizing k st with
  | nil => simp at hf
  | cons g gs ih =>
    cases k with
    | zero =>
      simp only [List.getElem?_cons_zero, Option.some.injEq] at hf
      subst hf
      constructor
      · intro hfail
        have h1 := hfail st
        unfold runSteps
        split
        · rename_i st1 heq
          rw [heq] at h1
          exact absurd rfl h1
        · simp
      · intro E hE _
        have h1 := hE st
        unfold runSteps
        split
        · rename_i st1 heq
          rw [heq] at h1
          simp at h1
        · rename_i st1 err heq
          rw [heq] at h1
          simpa using h1
    | succ k =>
      simp only [List.getElem?_cons_succ] at hf
      simp only [List.take_succ_cons]
      unfold runSteps
      split
      · rename_i st1 heq
        exact ih k hf st1
      · rename_i st1 err heq
        constructor
        · intro _
          simp
        · intro E _ h
          simp at h

theorem field_getElem_unpackSteps {W : Type} (data : executionPayloadJSON W) (f : Field) :
    (unpackSteps data)[f.index]? = some (f.step data) := by
  cases f <;> rfl

theorem field_step_absent {W : Type} (data : executionPayloadJSON W) (f : Field)
    (h : f.absent data) (e : ExecutionPayload W) : (f.step data e).2 = some f.missingError := by
  cases f <;>
    simp only [Field.absent] at h <;>
    simp [Field.step, Field.missingError, unpackParentHash, unpackFeeRecipient, unpackStateRoot,
      unpackReceiptsRoot, unpackLogsBloom, unpackPrevRandao, unpackBlockNumber, unpackGasLimit,
      unpackGasUsed, unpackTimestamp, unpackExtraData, unpackBaseFeePerGas, unpackBlockHash,
      unpackTransactions, unpackWithdrawals, unpackExcessDataGas, decodeFixed, h]

/-! ## Lemmas on the field blocks of `ExecutionPayload.unpack` -/

theorem copyBytes_val {n : Nat} (dst : FixedBytes n) (src : List Byte) (h : src.length = n) :
    (copyBytes dst src).val = src := by
  have hd := dst.property
  simp only [copyBytes]
  rw [List.take_of_length_le (by omega), List.drop_of_length_le (by omega)]
  simp

theorem copyBytes_eq {n : Nat} (dst : FixedBytes n) (src : List Byte) (h : src.length = n) :
    copyBytes dst src = ⟨src, h⟩ :=
  Subtype.ext (copyBytes_val dst src h)

theorem decodeFixed_ok_iff (m i c : String) (n : Nat) (s : List Char) (b : List Byte) :
    decodeFixed m i c n s = .ok b ↔
      s ≠ [] ∧ DecodeString (TrimPrefix s ['0', 'x']) = .ok b ∧ b.length = n := by
  unfold decodeFixed
  by_cases hs : s = []
  · simp [hs]
  · rw [if_neg hs]
    cases hd : DecodeString (TrimPrefix s ['0', 'x']) with
    | error err => simp
    | ok b1 =>
      by_cases hl : b1.length = n
      · simp only [hl, ne_eq, not_true_eq_false, if_false, Except.ok.injEq, hs,
          not_false_eq_true, true_and]
        constructor
        · intro h; subst h; exact ⟨rfl, hl⟩
        · intro h; exact h.1
      · simp only [ne_eq, hl, not_false_eq_true, if_true, hs, true_and, Except.ok.injEq]
        constructor
        · intro h; cases h
        · intro h; exact absurd (h.1 ▸ h.2) hl

theorem decodeFixed_incorrect (m i c : String) (n : Nat) (s : List Char) (b : List Byte)
    (hs : s ≠ []) (hd : DecodeString (TrimPrefix s ['0', 'x']) = .ok b) (hl : b.length ≠ n) :
    decodeFixed m i c n s = .error (.new c) := by
  unfold decodeFixed
  rw [if_neg hs, hd]
  simp [hl]

theorem decodeFixed_of_rendering (m i c : String) (n : Nat) (s : List Char) (b : List Byte)
    (hr : IsHexRendering s b) (hl : b.length = n) : decodeFixed m i c n s = .ok b := by
  obtain ⟨digits, hs, hd⟩ := hr
  rw [decodeFixed_ok_iff]
  subst hs
  exact ⟨by simp, by rw [TrimPrefix_0x]; exact hd, hl⟩

theorem unpackParentHash_inv {W : Type} (data : executionPayloadJSON W) (e : ExecutionPayload W)
    (h : (unpackParentHash data e).2 = none) :
    ∃ (b : List Byte) (hb : b.length = Hash32Length), data.ParentHash ≠ [] ∧
      DecodeString (TrimPrefix data.ParentHash ['0', 'x']) = .ok b ∧
      (unpackParentHash data e).1 = { e with ParentHash := ⟨b, hb⟩ } := by
  unfold unpackParentHash at h ⊢
  split at h
  · simp at h
  · rename_i b heq
    have h1 := (decodeFixed_ok_iff _ _ _ _ _ _).1 heq
    refine ⟨b, h1.2.2, h1.1, h1.2.1, ?_⟩
    simp only [heq, copyBytes_eq _ b h1.2.2]

theorem unpackFeeRecipient_inv {W : Type} (data : executionPayloadJSON W) (e : ExecutionPayload W)
    (h : (unpackFeeRecipient data e).2 = none) :
    ∃ (b : List Byte) (hb : b.length = FeeRecipientLength), data.FeeRecipient ≠ [] ∧
      DecodeString (TrimPrefix data.FeeRecipient ['0', 'x']) = .ok b ∧
      (unpackFeeRecipient data e).1 = { e with FeeRecipient := ⟨b, hb⟩ } := by
  unfold unpackFeeRecipient at h ⊢
  split at h
  · simp at h
  · rename_i b heq
    have h1 := (decodeFixed_ok_iff _ _ _ _ _ _).1 heq
    refine ⟨b, h1.2.2, h1.1, h1.2.1, ?_⟩
    simp only [heq, copyBytes_eq _ b h1.2.2]

theorem unpackStateRoot_inv {W : Type} (data : executionPayloadJSON W) (e : ExecutionPayload W)
    (h : (unpackStateRoot data e).2 = none) :
    ∃ (b : List Byte) (hb : b.length = 32), data.StateRoot ≠ [] ∧
      DecodeString (TrimPrefix data.StateRoot ['0', 'x']) = .ok b ∧
      (unpackStateRoot data e).1 = { e with StateRoot := ⟨b, hb⟩ } := by
  unfold unpackStateRoot at h ⊢
  split at h
  · simp at h
  · rename_i b heq
    have h1 := (decodeFixed_ok_iff _ _ _ _ _ _).1 heq
    refine ⟨b, h1.2.2, h1.1, h1.2.1, ?_⟩
    simp only [heq, copyBytes_eq _ b h1.2.2]

theorem unpackReceiptsRoot_inv {W : Type} (data : executionPayloadJSON W) (e : ExecutionPayload W)
    (h : (unpackReceiptsRoot data e).2 = none) :
    ∃ (b : List Byte) (hb : b.length = 32), data.ReceiptsRoot ≠ [] ∧
      DecodeString (TrimPrefix data.ReceiptsRoot ['0', 'x']) = .ok b ∧
      (unpackReceiptsRoot data e).1 = { e with ReceiptsRoot := ⟨b, hb⟩ } := by
  unfold unpackReceiptsRoot at h ⊢
  split at h
  · simp at h
  · rename_i b heq
    have h1 := (decodeFixed_ok_iff _ _ _ _ _ _).1 heq
    refine ⟨b, h1.2.2, h1.1, h1.2.1, ?_⟩
    simp only [heq, copyBytes_eq _ b h1.2.2]

theorem unpackLogsBloom_inv {W : Type} (data : executionPayloadJSON W) (e : ExecutionPayload W)
    (h : (unpackLogsBloom data e).2 = none) :
    ∃ (b : List Byte) (hb : b.length = 256), data.LogsBloom ≠ [] ∧
      DecodeString (TrimPrefix data.LogsBloom ['0', 'x']) = .ok b ∧
      (unpackLogsBloom data e).1 = { e with LogsBloom := ⟨b, hb⟩ } := by
  unfold unpackLogsBloom at h ⊢
  split at h
  · simp at h
  · rename_i b heq
    have h1 := (decodeFixed_ok_iff _ _ _ _ _ _).1 heq
    refine ⟨b, h1.2.2, h1.1, h1.2.1, ?_⟩
    simp only [heq, copyBytes_eq _ b h1.2.2]

theorem unpackPrevRandao_inv {W : Type} (data : executionPayloadJSON W) (e : ExecutionPayload W)
    (h : (unpackPrevRandao data e).2 = none) :
    ∃ (b : List Byte) (hb : b.length = 32), data.PrevRandao ≠ [] ∧
      DecodeString (TrimPrefix data.PrevRandao ['0', 'x']) = .ok b ∧
      (unpackPrevRandao data e).1 = { e with PrevRandao := ⟨b, hb⟩ } := by
  unfold unpackPrevRandao at h ⊢
  split at h
  · simp at h
  · rename_i b heq
    have h1 := (decodeFixed_ok_iff _ _ _ _ _ _).1 heq
    refine ⟨b, h1.2.2, h1.1, h1.2.1, ?_⟩
    simp only [heq, copyBytes_eq _ b h1.2.2]

theorem unpackBlockHash_inv {W : Type} (data : executionPayloadJSON W) (e : ExecutionPayload W)
    (h : (unpackBlockHash data e).2 = none) :
    ∃ (b : List Byte) (hb : b.length = Hash32Length), data.BlockHash ≠ [] ∧
      DecodeString (TrimPrefix data.BlockHash ['0', 'x']) = .ok b ∧
      (unpackBlockHash data e).1 = { e with BlockHash := ⟨b, hb⟩ } := by
  unfold unpackBlockHash at h ⊢
  split at h
  · simp at h
  · rename_i b heq
    have h1 := (decodeFixed_ok_iff _ _ _ _ _ _).1 heq
    refine ⟨b, h1.2.2, h1.1, h1.2.1, ?_⟩
    simp only [heq, copyBytes_eq _ b h1.2.2]

theorem unpackBlockNumber_inv {W : Type} (data : executionPayloadJSON W) (e : ExecutionPayload W)
    (h : (unpackBlockNumber data e).2 = none) :
    data.BlockNumber ≠ [] ∧ (ParseUint data.BlockNumber).2 = none ∧
      (unpackBlockNumber data e).1 = { e with BlockNumber := (ParseUint data.BlockNumber).1 } := by
  unfold unpackBlockNumber at h ⊢
  by_cases hs : data.BlockNumber = []
  · simp [hs] at h
  · rw [if_neg hs] at h ⊢
    rcases hP : ParseUint data.BlockNumber with ⟨v, _ | err⟩
    · simp [hs]
    · simp [hP] at h

theorem unpackGasLimit_inv {W : Type} (data : executionPayloadJSON W) (e : ExecutionPayload W)
    (h : (unpackGasLimit data e).2 = none) :
    data.GasLimit ≠ [] ∧ (ParseUint data.GasLimit).2 = none ∧
      (unpackGasLimit data e).1 = { e with GasLimit := (ParseUint data.GasLimit).1 } := by
  unfold unpackGasLimit at h ⊢
  by_cases hs : data.GasLimit = []
  · simp [hs] at h
  · rw [if_neg hs] at h ⊢
    rcases hP : ParseUint data.GasLimit with ⟨v, _ | err⟩
    · simp [hs]
    · simp [hP] at h

theorem unpackGasUsed_inv {W : Type} (data : executionPayloadJSON W) (e : ExecutionPayload W)
    (h : (unpackGasUsed data e).2 = none) :
    data.GasUsed ≠ [] ∧ (ParseUint data.GasUsed).2 = none ∧
      (unpackGasUsed data e).1 = { e with GasUsed := (ParseUint data.GasUsed).1 } := by
  unfold unpackGasUsed at h ⊢
  by_cases hs : data.GasUsed = []
  · simp [hs] at h
  · rw [if_neg hs] at h ⊢
    rcases hP : ParseUint data.GasUsed with ⟨v, _ | err⟩
    · simp [hs]
    · simp [hP] at h

theorem unpackTimestamp_inv {W : Type} (data : executionPayloadJSON W) (e : ExecutionPayload W)
    (h : (unpackTimestamp data e).2 = none) :
    data.Timestamp ≠ [] ∧ (ParseUint data.Timestamp).2 = none ∧
      (unpackTimestamp data e).1 = { e with Timestamp := (ParseUint data.Timestamp).1 } := by
  unfold unpackTimestamp at h ⊢
  by_cases hs : data.Timestamp = []
  · simp [hs] at h
  · rw [if_neg hs] at h ⊢
    rcases hP : ParseUint data.Timestamp with ⟨v, _ | err⟩
    · simp [hs]
    · simp [hP] at h

theorem unpackExtraData_inv {W : Type} (data : executionPayloadJSON W) (e : ExecutionPayload W)
    (h : (unpackExtraData data e).2 = none) :
    ∃ b : List Byte, data.ExtraData ≠ [] ∧ b.length ≤ 32 ∧
      (unpackExtraData data e).1 = { e with ExtraData := some b } ∧
      (((data.ExtraData = ['0', 'x'] ∨ data.ExtraData = ['0']) ∧ b = []) ∨
       (¬ (data.ExtraData = ['0', 'x'] ∨ data.ExtraData = ['0']) ∧
        DecodeString (extraDataDigits data.ExtraData) = .ok b)) := by
  unfold unpackExtraData at h ⊢
  by_cases hs : data.ExtraData = []
  · simp [hs] at h
  · rw [if_neg hs] at h ⊢
    by_cases h0 : data.ExtraData = ['0', 'x'] ∨ data.ExtraData = ['0']
    · rw [if_pos h0]
      exact ⟨[], hs, by simp, rfl, Or.inl ⟨h0, rfl⟩⟩
    · rw [if_neg h0] at h ⊢
      cases hd : DecodeString (extraDataDigits data.ExtraData) with
      | error err => simp [hd] at h
      | ok b =>
        by_cases hl : b.length > 32
        · simp [hd, hl] at h
        · refine ⟨b, hs, by omega, ?_, Or.inr ⟨h0, rfl⟩⟩
          simp [hl]

theorem unpackBaseFeePerGas_inv {W : Type} (data : executionPayloadJSON W)
    (e : ExecutionPayload W) (h : (unpackBaseFeePerGas data e).2 = none) :
    data.BaseFeePerGas ≠ [] ∧
      (if HasPrefix data.BaseFeePerGas ['0', 'x'] then FromHex data.BaseFeePerGas
        else FromDecimal data.BaseFeePerGas).2 = none ∧
      (unpackBaseFeePerGas data e).1 = { e with BaseFeePerGas :=
        (if HasPrefix data.BaseFeePerGas ['0', 'x'] then FromHex data.BaseFeePerGas
          else FromDecimal data.BaseFeePerGas).1 } := by
  unfold unpackBaseFeePerGas at h ⊢
  by_cases hs : data.BaseFeePerGas = []
  · simp [hs] at h
  · rw [if_neg hs] at h ⊢
    rcases hP : (if HasPrefix data.BaseFeePerGas ['0', 'x'] then FromHex data.BaseFeePerGas
        else FromDecimal data.BaseFeePerGas) with ⟨v, _ | err⟩
    · simp [hs]
    · simp [hP] at h

theorem unpackTransactions_inv {W : Type} (data : executionPayloadJSON W)
    (e : ExecutionPayload W) (h : (unpackTransactions data e).2 = none) :
    ∃ txs l, data.Transactions = some txs ∧ decodeTransactions 0 txs = .ok l ∧
      (unpackTransactions data e).1 = { e with Transactions := some l } := by
  unfold unpackTransactions at h ⊢
  cases ht : data.Transactions with
  | none => simp [ht] at h
  | some txs =>
    cases hd : decodeTransactions 0 txs with
    | error err => simp [ht, hd] at h
    | ok l => exact ⟨txs, l, rfl, hd, by simp only [hd]⟩

theorem unpackWithdrawals_inv {W : Type} (data : executionPayloadJSON W)
    (e : ExecutionPayload W) (h : (unpackWithdrawals data e).2 = none) :
    ∃ ws, data.Withdrawals = some ws ∧
      (unpackWithdrawals data e).1 = { e with Withdrawals := some ws } := by
  unfold unpackWithdrawals at h ⊢
  cases hw : data.Withdrawals with
  | none => simp [hw] at h
  | some ws => exact ⟨ws, rfl, rfl⟩

theorem unpackExcessDataGas_inv {W : Type} (data : executionPayloadJSON W)
    (e : ExecutionPayload W) (h : (unpackExcessDataGas data e).2 = none) :
    data.ExcessDataGas ≠ [] ∧ (FromDecimal data.ExcessDataGas).2 = none ∧
      (unpackExcessDataGas data e).1
        = { e with ExcessDataGas := (FromDecimal data.ExcessDataGas).1 } := by
  unfold unpackExcessDataGas at h ⊢
  by_cases hs : data.ExcessDataGas = []
  · simp [hs] at h
  · rw [if_neg hs] at h ⊢
    rcases hP : FromDecimal data.ExcessDataGas with ⟨v, _ | err⟩
    · simp [hs]
    · simp [hP] at h

theorem runSteps_cons_inv2 {σ : Type} (f : Step σ) (fs : List (Step σ)) (st : σ)
    (h : (runSteps (f :: fs) st).2 = none) :
    ∃ st1, (f st).2 = none ∧ (f st).1 = st1 ∧ runSteps (f :: fs) st = runSteps fs st1 :=
  ⟨(f st).1, (runSteps_cons_inv f fs st h).1, rfl, (runSteps_cons_inv f fs st h).2⟩

/-- What a successful `unpack` has checked and stored, field by field. -/
theorem unpack_success {W : Type} (e : ExecutionPayload W) (data : executionPayloadJSON W)
    (h : (e.unpack data).2 = none) :
    ∃ (ph : FixedBytes Hash32Length) (fr : FixedBytes FeeRecipientLength)
      (sr rr : FixedBytes 32) (lb : FixedBytes 256) (pr : FixedBytes 32)
      (bh : FixedBytes Hash32Length) (ed : List Byte) (txs : List (List Char))
      (l : List (List Byte)) (ws : List W),
      (data.ParentHash ≠ [] ∧ DecodeString (TrimPrefix data.ParentHash ['0', 'x']) = .ok ph.val) ∧
      (data.FeeRecipient ≠ [] ∧
        DecodeString (TrimPrefix data.FeeRecipient ['0', 'x']) = .ok fr.val) ∧
      (data.StateRoot ≠ [] ∧ DecodeString (TrimPrefix data.StateRoot ['0', 'x']) = .ok sr.val) ∧
      (data.ReceiptsRoot ≠ [] ∧
        DecodeString (TrimPrefix data.ReceiptsRoot ['0', 'x']) = .ok rr.val) ∧
      (data.LogsBloom ≠ [] ∧ DecodeString (TrimPrefix data.LogsBloom ['0', 'x']) = .ok lb.val) ∧
      (data.PrevRandao ≠ [] ∧ DecodeString (TrimPrefix data.PrevRandao ['0', 'x']) = .ok pr.val) ∧
      (data.BlockNumber ≠ [] ∧ (ParseUint data.BlockNumber).2 = none) ∧
      (data.GasLimit ≠ [] ∧ (ParseUint data.GasLimit).2 = none) ∧
      (data.GasUsed ≠ [] ∧ (ParseUint data.GasUsed).2 = none) ∧
      (data.Timestamp ≠ [] ∧ (ParseUint data.Timestamp).2 = none) ∧
      (data.ExtraData ≠ [] ∧ ed.length ≤ 32 ∧
        (((data.ExtraData = ['0', 'x'] ∨ data.ExtraData = ['0']) ∧ ed = []) ∨
         (¬ (data.ExtraData = ['0', 'x'] ∨ data.ExtraData = ['0']) ∧
          DecodeString (extraDataDigits data.ExtraData) = .ok ed))) ∧
      (data.BaseFeePerGas ≠ [] ∧
        (if HasPrefix data.BaseFeePerGas ['0', 'x'] then FromHex data.BaseFeePerGas
          else FromDecimal data.BaseFeePerGas).2 = none) ∧
      (data.BlockHash ≠ [] ∧ DecodeString (TrimPrefix data.BlockHash ['0', 'x']) = .ok bh.val) ∧
      (data.Transactions = some txs ∧ decodeTransactions 0 txs = .ok l) ∧
      data.Withdrawals = some ws ∧
      (data.ExcessDataGas ≠ [] ∧ (FromDecimal data.ExcessDataGas).2 = none) ∧
      (e.unpack data).1 =
        { ParentHash := ph
          FeeRecipient := fr
          StateRoot := sr
          ReceiptsRoot := rr
          LogsBloom := lb
          PrevRandao := pr
          BlockNumber := (ParseUint data.BlockNumber).1
          GasLimit := (ParseUint data.GasLimit).1
          GasUsed := (ParseUint data.GasUsed).1
          Timestamp := (ParseUint data.Timestamp).1
          ExtraData := some ed
          BaseFeePerGas :=
            (if HasPrefix data.BaseFeePerGas ['0', 'x'] then FromHex data.BaseFeePerGas
              else FromDecimal data.BaseFeePerGas).1
          BlockHash := bh
          Transactions := some l
          Withdrawals := some ws
          ExcessDataGas := (FromDecimal data.ExcessDataGas).1 } := by
  have hu : e.unpack data = runSteps (unpackSteps data) e := rfl
  rw [hu] at h ⊢
  simp only [unpackSteps, Field.all, List.map, Field.step] at h ⊢
  obtain ⟨e1, h1, hs, hr⟩ := runSteps_cons_inv2 _ _ _ h
  rw [hr] at h ⊢
  obtain ⟨b1, hb1, hn1, hd1, he1⟩ := unpackParentHash_inv data e h1
  rw [hs] at he1
  clear h1 hs hr
  obtain ⟨e2, h1, hs, hr⟩ := runSteps_cons_inv2 _ _ _ h
  rw [hr] at h ⊢
  obtain ⟨b2, hb2, hn2, hd2, he2⟩ := unpackFeeRecipient_inv data e1 h1
  rw [hs] at he2
  clear h1 hs hr
  obtain ⟨e3, h1, hs, hr⟩ := runSteps_cons_inv2 _ _ _ h
  rw [hr] at h ⊢
  obtain ⟨b3, hb3, hn3, hd3, he3⟩ := unpackStateRoot_inv data e2 h1
  rw [hs] at he3
  clear h1 hs hr
  obtain ⟨e4, h1, hs, hr⟩ := runSteps_cons_inv2 _ _ _ h
  rw [hr] at h ⊢
  obtain ⟨b4, hb4, hn4, hd4, he4⟩ := unpackReceiptsRoot_inv data e3 h1
  rw [hs] at he4
  clear h1 hs hr
  obtain ⟨e5, h1, hs, hr⟩ := runSteps_cons_inv2 _ _ _ h
  rw [hr] at h ⊢
  obtain ⟨b5, hb5, hn5, hd5, he5⟩ := unpackLogsBloom_inv data e4 h1
  rw [hs] at he5
  clear h1 hs hr
  obtain ⟨e6, h1, hs, hr⟩ := runSteps_cons_inv2 _ _ _ h
  rw [hr] at h ⊢
  obtain ⟨b6, hb6, hn6, hd6, he6⟩ := unpackPrevRandao_inv data e5 h1
  rw [hs] at he6
  clear h1 hs hr
  obtain ⟨e7, h1, hs, hr⟩ := runSteps_cons_inv2 _ _ _ h
  rw [hr] at h ⊢
  obtain ⟨hn7, hd7, he7⟩ := unpackBlockNumber_inv data e6 h1
  rw [hs] at he7
  clear h1 hs hr
  obtain ⟨e8, h1, hs, hr⟩ := runSteps_cons_inv2 _ _ _ h
  rw [hr] at h ⊢
  obtain ⟨hn8, hd8, he8⟩ := unpackGasLimit_inv data e7 h1
  rw [hs] at he8
  clear h1 hs hr
  obtain ⟨e9, h1, hs, hr⟩ := runSteps_cons_inv2 _ _ _ h
  rw [hr] at h ⊢
  obtain ⟨hn9, hd9, he9⟩ := unpackGasUsed_inv data e8 h1
  rw [hs] at he9
  clear h1 hs hr
  obtain ⟨e10, h1, hs, hr⟩ := runSteps_cons_inv2 _ _ _ h
  rw [hr] at h ⊢
  obtain ⟨hn10, hd10, he10⟩ := unpackTimestamp_inv data e9 h1
  rw [hs] at he10
  clear h1 hs hr
  obtain ⟨e11, h1, hs, hr⟩ := runSteps_cons_inv2 _ _ _ h
  rw [hr] at h ⊢
  obtain ⟨ed, hn11, hl11, he11, hd11⟩ := unpackExtraData_inv data e10 h1
  rw [hs] at he11
  clear h1 hs hr
  obtain ⟨e12, h1, hs, hr⟩ := runSteps_cons_inv2 _ _ _ h
  rw [hr] at h ⊢
  obtain ⟨hn12, hd12, he12⟩ := unpackBaseFeePerGas_inv data e11 h1
  rw [hs] at he12
  clear h1 hs hr
  obtain ⟨e13, h1, hs, hr⟩ := runSteps_cons_inv2 _ _ _ h
  rw [hr] at h ⊢
  obtain ⟨b13, hb13, hn13, hd13, he13⟩ := unpackBlockHash_inv data e12 h1
  rw [hs] at he13
  clear h1 hs hr
  obtain ⟨e14, h1, hs, hr⟩ := runSteps_cons_inv2 _ _ _ h
  rw [hr] at h ⊢
  obtain ⟨txs, l, ht14, hd14, he14⟩ := unpackTransactions_inv data e13 h1
  rw [hs] at he14
  clear h1 hs hr
  obtain ⟨e15, h1, hs, hr⟩ := runSteps_cons_inv2 _ _ _ h
  rw [hr] at h ⊢
  obtain ⟨ws, hw15, he15⟩ := unpackWithdrawals_inv data e14 h1
  rw [hs] at he15
  clear h1 hs hr
  obtain ⟨e16, h1, hs, hr⟩ := runSteps_cons_inv2 _ _ _ h
  rw [hr] at h ⊢
  obtain ⟨hn16, hd16, he16⟩ := unpackExcessDataGas_inv data e15 h1
  rw [hs] at he16
  clear h1 hs hr
  refine ⟨⟨b1, hb1⟩, ⟨b2, hb2⟩, ⟨b3, hb3⟩, ⟨b4, hb4⟩, ⟨b5, hb5⟩, ⟨b6, hb6⟩, ⟨b13, hb13⟩, ed, txs, l,
    ws, ⟨hn1, hd1⟩, ⟨hn2, hd2⟩, ⟨hn3, hd3⟩, ⟨hn4, hd4⟩, ⟨hn5, hd5⟩, ⟨hn6, hd6⟩, ⟨hn7, hd7⟩,
    ⟨hn8, hd8⟩, ⟨hn9, hd9⟩, ⟨hn10, hd10⟩, ⟨hn11, hl11, hd11⟩, ⟨hn12, hd12⟩, ⟨hn13, hd13⟩,
    ⟨ht14, hd14⟩, hw15, ⟨hn16, hd16⟩, ?_⟩
  simp only [runSteps]
  rw [he16, he15, he14, he13, he12, he11, he10, he9, he8, he7, he6, he5, he4, he3, he2, he1]

/-! ## Lemmas on decoding what the encoder prints -/

theorem hexDigits_length (b : List Byte) : (hexDigits b).length = 2 * b.length := by
  induction b with
  | nil => rfl
  | cons x xs ih => simp only [hexDigits, List.length_cons, ih]; omega

theorem SprintfHex_of_ne_nil (b : List Byte) (h : b ≠ []) :
    SprintfHex b = '0' :: 'x' :: hexDigits b := by
  unfold SprintfHex
  rw [if_neg]
  intro h0
  exact h (List.length_eq_zero.1 h0)

theorem IsHexRendering_SprintfHex (b : List Byte) (h : b ≠ []) :
    IsHexRendering (SprintfHex b) b :=
  ⟨hexDigits b, SprintfHex_of_ne_nil b h, DecodeString_hexDigits b⟩

theorem IsHexRendering_SprintfHex_fixed {n : Nat} (b : FixedBytes n) (hn : 0 < n) :
    IsHexRendering (SprintfHex b.val) b.val := by
  apply IsHexRendering_SprintfHex
  intro h0
  have := b.property
  rw [h0] at this
  simp at this
  omega

theorem stringers_sprintf_hex : Stringers.sprintf.Hex :=
  ⟨fun b => IsHexRendering_SprintfHex_fixed b (by decide),
   fun b => IsHexRendering_SprintfHex_fixed b (by decide),
   fun b => IsHexRendering_SprintfHex_fixed b (by decide),
   fun b => IsHexRendering_SprintfHex_fixed b (by decide)⟩

theorem hexDigits_ne_nil (b : List Byte) (h : b ≠ []) : hexDigits b ≠ [] := by
  cases b with
  | nil => exact absurd rfl h
  | cons x xs => simp [hexDigits]

theorem extraDataDigits_SprintfHex (b : List Byte) (h : b ≠ []) :
    extraDataDigits (SprintfHex b) = hexDigits b := by
  unfold extraDataDigits
  rw [SprintfHex_of_ne_nil b h, TrimPrefix_0x]
  have : (hexDigits b).length % 2 = 0 := by rw [hexDigits_length]; omega
  simp [this]

theorem decodeTransactions_SprintfHex (i : Nat) (txs : List (List Byte))
    (h : ∀ t ∈ txs, t ≠ []) : decodeTransactions i (txs.map SprintfHex) = .ok txs := by
  induction txs generalizing i with
  | nil => rfl
  | cons t ts ih =>
    have ht : t ≠ [] := h t (List.mem_cons_self _ _)
    have hts := ih (i + 1) (fun x hx => h x (List.mem_cons_of_mem _ hx))
    have hd := hexDigits_ne_nil t ht
    simp only [List.map_cons, decodeTransactions, SprintfHex_of_ne_nil t ht, TrimPrefix_0x,
      DecodeString_hexDigits, hts]
    simp [hd]

/-! ### The blocks of `unpack` on what the encoder prints -/

variable {W : Type}

theorem unpackExtraData_of_encoded (data : executionPayloadJSON W) (e : ExecutionPayload W)
    (ed : Option (List Byte)) (hlen : sliceLen ed ≤ 32)
    (hd : data.ExtraData = if sliceLen ed > 0 then SprintfHex (sliceElems ed) else ['0', 'x']) :
    unpackExtraData data e = ({ e with ExtraData := some (sliceElems ed) }, none) := by
  unfold unpackExtraData
  by_cases h0 : sliceLen ed > 0
  · rw [if_pos h0] at hd
    have hne : sliceElems ed ≠ [] := by
      intro hnil
      cases ed with
      | none => simp [sliceLen] at h0
      | some l =>
        simp only [sliceElems] at hnil
        simp [sliceLen, hnil] at h0
    have hl : (sliceElems ed).length ≤ 32 := by
      cases ed with
      | none => simp [sliceElems]
      | some l => simpa [sliceLen, sliceElems] using hlen
    have hdig := hexDigits_ne_nil _ hne
    have h1 : data.ExtraData ≠ [] := by rw [hd, SprintfHex_of_ne_nil _ hne]; simp
    have h2 : ¬ (data.ExtraData = ['0', 'x'] ∨ data.ExtraData = ['0']) := by
      rw [hd, SprintfHex_of_ne_nil _ hne]
      simp [hdig]
    rw [if_neg h1, if_neg h2, hd, extraDataDigits_SprintfHex _ hne, DecodeString_hexDigits]
    simp only [gt_iff_lt]
    rw [if_neg (by omega)]
  · rw [if_neg h0] at hd
    have hnil : sliceElems ed = [] := by
      cases ed with
      | none => rfl
      | some l =>
        simp only [sliceLen] at h0
        simp only [sliceElems]
        exact List.length_eq_zero.1 (by omega)
    rw [hd, hnil]
    simp

theorem unpackFixed_ok_parentHash (data : executionPayloadJSON W) (e : ExecutionPayload W)
    (b : FixedBytes Hash32Length) (hr : IsHexRendering data.ParentHash b.val) :
    unpackParentHash data e = ({ e with ParentHash := b }, none) := by
  unfold unpackParentHash
  rw [decodeFixed_of_rendering _ _ _ _ _ _ hr b.property]
  simp only [copyBytes_eq _ _ b.property]

theorem unpackFixed_ok_feeRecipient (data : executionPayloadJSON W) (e : ExecutionPayload W)
    (b : FixedBytes FeeRecipientLength) (hr : IsHexRendering data.FeeRecipient b.val) :
    unpackFeeRecipient data e = ({ e with FeeRecipient := b }, none) := by
  unfold unpackFeeRecipient
  rw [decodeFixed_of_rendering _ _ _ _ _ _ hr b.property]
  simp only [copyBytes_eq _ _ b.property]

theorem unpackFixed_ok_stateRoot (data : executionPayloadJSON W) (e : ExecutionPayload W)
    (b : FixedBytes 32) (hr : IsHexRendering data.StateRoot b.val) :
    unpackStateRoot data e = ({ e with StateRoot := b }, none) := by
  unfold unpackStateRoot
  rw [decodeFixed_of_rendering _ _ _ _ _ _ hr b.property]
  simp only [copyBytes_eq _ _ b.property]

theorem unpackFixed_ok_receiptsRoot (data : executionPayloadJSON W) (e : ExecutionPayload W)
    (b : FixedBytes 32) (hr : IsHexRendering data.ReceiptsRoot b.val) :
    unpackReceiptsRoot data e = ({ e with ReceiptsRoot := b }, none) := by
  unfold unpackReceiptsRoot
  rw [decodeFixed_of_rendering _ _ _ _ _ _ hr b.property]
  simp only [copyBytes_eq _ _ b.property]

theorem unpackFixed_ok_logsBloom (data : executionPayloadJSON W) (e : ExecutionPayload W)
    (b : FixedBytes 256) (hr : IsHexRendering data.LogsBloom b.val) :
    unpackLogsBloom data e = ({ e with LogsBloom := b }, none) := by
  unfold unpackLogsBloom
  rw [decodeFixed_of_rendering _ _ _ _ _ _ hr b.property]
  simp only [copyBytes_eq _ _ b.property]

theorem unpackFixed_ok_prevRandao (data : executionPayloadJSON W) (e : ExecutionPayload W)
    (b : FixedBytes 32) (hr : IsHexRendering data.PrevRandao b.val) :
    unpackPrevRandao data e = ({ e with PrevRandao := b }, none) := by
  unfold unpackPrevRandao
  rw [decodeFixed_of_rendering _ _ _ _ _ _ hr b.property]
  simp only [copyBytes_eq _ _ b.property]

theorem unpackFixed_ok_blockHash (data : executionPayloadJSON W) (e : ExecutionPayload W)
    (b : FixedBytes Hash32Length) (hr : IsHexRendering data.BlockHash b.val) :
    unpackBlockHash data e = ({ e with BlockHash := b }, none) := by
  unfold unpackBlockHash
  rw [decodeFixed_of_rendering _ _ _ _ _ _ hr b.property]
  simp only [copyBytes_eq _ _ b.property]

theorem unpackBlockNumber_of_dec (data : executionPayloadJSON W) (e : ExecutionPayload W)
    (n : Nat) (hn : n < 2 ^ 64) (hd : data.BlockNumber = SprintfDec n) :
    unpackBlockNumber data e = ({ e with BlockNumber := n }, none) := by
  unfold unpackBlockNumber
  rw [hd, if_neg (SprintfDec_ne_nil n), ParseUint_SprintfDec n hn]

theorem unpackGasLimit_of_dec (data : executionPayloadJSON W) (e : ExecutionPayload W)
    (n : Nat) (hn : n < 2 ^ 64) (hd : data.GasLimit = SprintfDec n) :
    unpackGasLimit data e = ({ e with GasLimit := n }, none) := by
  unfold unpackGasLimit
  rw [hd, if_neg (SprintfDec_ne_nil n), ParseUint_SprintfDec n hn]

theorem unpackGasUsed_of_dec (data : executionPayloadJSON W) (e : ExecutionPayload W)
    (n : Nat) (hn : n < 2 ^ 64) (hd : data.GasUsed = SprintfDec n) :
    unpackGasUsed data e = ({ e with GasUsed := n }, none) := by
  unfold unpackGasUsed
  rw [hd, if_neg (SprintfDec_ne_nil n), ParseUint_SprintfDec n hn]

theorem unpackTimestamp_of_dec (data : executionPayloadJSON W) (e : ExecutionPayload W)
    (n : Nat) (hn : n < 2 ^ 64) (hd : data.Timestamp = SprintfDec n) :
    unpackTimestamp data e = ({ e with Timestamp := n }, none) := by
  unfold unpackTimestamp
  rw [hd, if_neg (SprintfDec_ne_nil n), ParseUint_SprintfDec n hn]

theorem unpackBaseFeePerGas_of_dec (data : executionPayloadJSON W) (e : ExecutionPayload W)
    (v : Nat) (hv : v < 2 ^ 256) (hd : data.BaseFeePerGas = SprintfDec v) :
    unpackBaseFeePerGas data e = ({ e with BaseFeePerGas := some v }, none) := by
  unfold unpackBaseFeePerGas
  rw [hd, if_neg (SprintfDec_ne_nil v), HasPrefix_SprintfDec, FromDecimal_SprintfDec v hv]
  simp

theorem unpackExcessDataGas_of_dec (data : executionPayloadJSON W) (e : ExecutionPayload W)
    (v : Nat) (hv : v < 2 ^ 256) (hd : data.ExcessDataGas = SprintfDec v) :
    unpackExcessDataGas data e = ({ e with ExcessDataGas := some v }, none) := by
  unfold unpackExcessDataGas
  rw [hd, if_neg (SprintfDec_ne_nil v), FromDecimal_SprintfDec v hv]

theorem unpackTransactions_of_encoded (data : executionPayloadJSON W) (e : ExecutionPayload W)
    (txs : List (List Byte)) (h : ∀ t ∈ txs, t ≠ [])
    (hd : data.Transactions = some (txs.map SprintfHex)) :
    unpackTransactions data e = ({ e with Transactions := some txs }, none) := by
  unfold unpackTransactions
  rw [hd]
  simp only [decodeTransactions_SprintfHex 0 txs h]

theorem unpackWithdrawals_of_some (data : executionPayloadJSON W) (e : ExecutionPayload W)
    (ws : List W) (hd : data.Withdrawals = some ws) :
    unpackWithdrawals data e = ({ e with Withdrawals := some ws }, none) := by
  unfold unpackWithdrawals
  rw [hd]

variable {W : Type}

theorem fixedField_step_incorrect (data : executionPayloadJSON W) (ff : FixedField)
    (b : List Byte) (hs : ff.text data ≠ [])
    (hd : DecodeString (TrimPrefix (ff.text data) ['0', 'x']) = .ok b) (hl : b.length ≠ ff.size)
    (e : ExecutionPayload W) : (ff.field.step data e).2 = some ff.incorrectError := by
  cases ff <;>
    simp only [FixedField.text, FixedField.size] at hs hd hl <;>
    simp only [FixedField.field, Field.step, FixedField.incorrectError, unpackParentHash,
      unpackFeeRecipient, unpackStateRoot, unpackReceiptsRoot, unpackLogsBloom, unpackPrevRandao,
      unpackBlockHash, decodeFixed_incorrect _ _ _ _ _ b hs hd hl]

theorem fixedField_of_success (e : ExecutionPayload W) (data : executionPayloadJSON W)
    (h : (e.unpack data).2 = none) (ff : FixedField) :
    ∃ b, DecodeString (TrimPrefix (ff.text data) ['0', 'x']) = .ok b ∧ b.length = ff.size ∧
      ff.bytes (e.unpack data).1 = b := by
  obtain ⟨ph, fr, sr, rr, lb, pr, bh, ed, txs, l, ws, h1, h2, h3, h4, h5, h6, _, _, _, _, _, _,
    h13, _, _, _, hres⟩ := unpack_success e data h
  rw [hres]
  cases ff
  · exact ⟨ph.val, h1.2, ph.property, rfl⟩
  · exact ⟨fr.val, h2.2, fr.property, rfl⟩
  · exact ⟨sr.val, h3.2, sr.property, rfl⟩
  · exact ⟨rr.val, h4.2, rr.property, rfl⟩
  · exact ⟨lb.val, h5.2, lb.property, rfl⟩
  · exact ⟨pr.val, h6.2, pr.property, rfl⟩
  · exact ⟨bh.val, h13.2, bh.property, rfl⟩

theorem numField_of_success (e : ExecutionPayload W) (data : executionPayloadJSON W)
    (h : (e.unpack data).2 = none) (nf : NumField) :
    nf.text data ≠ [] ∧ (ParseUint (nf.text data)).2 = none ∧
      nf.value (e.unpack data).1 = (ParseUint (nf.text data)).1 := by
  obtain ⟨ph, fr, sr, rr, lb, pr, bh, ed, txs, l, ws, _, _, _, _, _, _, h7, h8, h9, h10, _, _,
    _, _, _, _, hres⟩ := unpack_success e data h
  rw [hres]
  cases nf
  · exact ⟨h7.1, h7.2, rfl⟩
  · exact ⟨h8.1, h8.2, rfl⟩
  · exact ⟨h9.1, h9.2, rfl⟩
  · exact ⟨h10.1, h10.2, rfl⟩

theorem numField_step_ok_iff (data : executionPayloadJSON W) (nf : NumField)
    (e : ExecutionPayload W) :
    (nf.field.step data e).2 = none ↔ nf.text data ≠ [] ∧ (ParseUint (nf.text data)).2 = none := by
  cases nf <;>
    simp only [NumField.field, Field.step, NumField.text, unpackBlockNumber, unpackGasLimit,
      unpackGasUsed, unpackTimestamp]
  · by_cases hs : data.BlockNumber = []
    · simp [hs]
    · rcases hP : ParseUint data.BlockNumber with ⟨v, _ | err⟩ <;> simp [hs]
  · by_cases hs : data.GasLimit = []
    · simp [hs]
    · rcases hP : ParseUint data.GasLimit with ⟨v, _ | err⟩ <;> simp [hs]
  · by_cases hs : data.GasUsed = []
    · simp [hs]
    · rcases hP : ParseUint data.GasUsed with ⟨v, _ | err⟩ <;> simp [hs]
  · by_cases hs : data.Timestamp = []
    · simp [hs]
    · rcases hP : ParseUint data.Timestamp with ⟨v, _ | err⟩ <;> simp [hs]

theorem numField_step_value (data : executionPayloadJSON W) (nf : NumField)
    (e : ExecutionPayload W) (h : (nf.field.step data e).2 = none) :
    nf.value (nf.field.step data e).1 = (ParseUint (nf.text data)).1 := by
  have h1 := (numField_step_ok_iff data nf e).1 h
  revert h1
  cases nf <;>
    simp only [NumField.field, Field.step, NumField.text, NumField.value, unpackBlockNumber,
      unpackGasLimit, unpackGasUsed, unpackTimestamp] <;>
    intro h1 <;> rw [if_neg h1.1]
  · rcases hP : ParseUint data.BlockNumber with ⟨v, _ | err⟩
    · rfl
    · rw [hP] at h1; simp at h1
  · rcases hP : ParseUint data.GasLimit with ⟨v, _ | err⟩
    · rfl
    · rw [hP] at h1; simp at h1
  · rcases hP : ParseUint data.GasUsed with ⟨v, _ | err⟩
    · rfl
    · rw [hP] at h1; simp at h1
  · rcases hP : ParseUint data.Timestamp with ⟨v, _ | err⟩ <;> rfl

theorem numField_step_err (data : executionPayloadJSON W) (nf : NumField) (err : GoError)
    (hs : nf.text data ≠ []) (hp : (ParseUint (nf.text data)).2 = some err)
    (e : ExecutionPayload W) :
    (nf.field.step data e).2 = some (.wrap err nf.invalidMessage) := by
  revert hs hp
  cases nf <;>
    simp only [NumField.field, Field.step, NumField.text, NumField.invalidMessage,
      unpackBlockNumber, unpackGasLimit, unpackGasUsed, unpackTimestamp] <;>
    intro hs hp <;> rw [if_neg hs]
  · rcases hP : ParseUint data.BlockNumber with ⟨v, _ | err1⟩
    · rw [hP] at hp; simp at hp
    · rw [hP] at hp; simp at hp; simp [hp]
  · rcases hP : ParseUint data.GasLimit with ⟨v, _ | err1⟩
    · rw [hP] at hp; simp at hp
    · rw [hP] at hp; simp at hp; simp [hp]
  · rcases hP : ParseUint data.GasUsed with ⟨v, _ | err1⟩
    · rw [hP] at hp; simp at hp
    · rw [hP] at hp; simp at hp; simp [hp]
  · rcases hP : ParseUint data.Timestamp with ⟨v, _ | err1⟩
    · rw [hP] at hp; simp at hp
    · rw [hP] at hp; simp at hp; simp [hp]

/-! ## `ExecutionPayload`: claims -/

/-- C4. Decode undoes encode for the deneb `ExecutionPayload`: for every
payload `e` (with numeric fields in the range of their Go types) whose
`ExtraData` has at most 32 bytes, whose transactions are all non-empty, whose
`Withdrawals` list is non-nil and whose `BaseFeePerGas` and `ExcessDataGas` are
set, `MarshalJSON` builds a record, and `unpack` applied to that record, on
any receiver `e0`, returns no error and leaves a receiver equal to `e` field by
field, a nil `ExtraData` or `Transactions` list being read back as the empty
one.  The `String()` methods of the byte types are any that print `0x` and
the hexadecimal digits of the bytes. -/
theorem executionPayload_unpack_MarshalJSON {W : Type} (S : Stringers) (hS : S.Hex)
    (e0 e : ExecutionPayload W) (hrange : e.InRange) (hextra : sliceLen e.ExtraData ≤ 32)
    (htx : ∀ t ∈ sliceElems e.Transactions, t ≠ []) (hw : e.Withdrawals ≠ none)
    (hbf : e.BaseFeePerGas ≠ none) (heg : e.ExcessDataGas ≠ none) :
    ∃ data, e.MarshalJSON S = .ok data ∧
      e0.unpack data =
        ({ e with
            ExtraData := some (sliceElems e.ExtraData)
            Transactions := some (sliceElems e.Transactions) }, none) := by
  obtain ⟨hbn, hgl, hgu, hts, hbfr, hegr⟩ := hrange
  obtain ⟨bf, hbf1⟩ := Option.ne_none_iff_exists'.1 hbf
  obtain ⟨eg, heg1⟩ := Option.ne_none_iff_exists'.1 heg
  obtain ⟨ws, hws⟩ := Option.ne_none_iff_exists'.1 hw
  obtain ⟨hS1, hS2, hS3, hS4⟩ := hS
  have hm : e.MarshalJSON S = .ok
      { ParentHash := S.hash32 e.ParentHash
        FeeRecipient := S.executionAddress e.FeeRecipient
        StateRoot := S.root e.StateRoot
        ReceiptsRoot := S.root e.ReceiptsRoot
        LogsBloom := SprintfHex e.LogsBloom.val
        PrevRandao := SprintfHex e.PrevRandao.val
        BlockNumber := SprintfDec e.BlockNumber
        GasLimit := SprintfDec e.GasLimit
        GasUsed := SprintfDec e.GasUsed
        Timestamp := SprintfDec e.Timestamp
        ExtraData := if sliceLen e.ExtraData > 0 then SprintfHex (sliceElems e.ExtraData)
          else ['0', 'x']
        BaseFeePerGas := SprintfDec bf
        BlockHash := S.hash32 e.BlockHash
        Transactions := some ((sliceElems e.Transactions).map SprintfHex)
        Withdrawals := e.Withdrawals
        ExcessDataGas := SprintfDec eg } := by
    simp only [ExecutionPayload.MarshalJSON, hbf1, heg1]
  refine ⟨_, hm, ?_⟩
  have hu : ∀ d : executionPayloadJSON W, e0.unpack d = runSteps (unpackSteps d) e0 :=
    fun _ => rfl
  rw [hu]
  simp only [unpackSteps, Field.all, List.map, Field.step]
  rw [runSteps_cons_ok _ _ _ _ (unpackFixed_ok_parentHash _ _ e.ParentHash (hS1 _))]
  rw [runSteps_cons_ok _ _ _ _ (unpackFixed_ok_feeRecipient _ _ e.FeeRecipient (hS2 _))]
  rw [runSteps_cons_ok _ _ _ _ (unpackFixed_ok_stateRoot _ _ e.StateRoot (hS3 _))]
  rw [runSteps_cons_ok _ _ _ _ (unpackFixed_ok_receiptsRoot _ _ e.ReceiptsRoot (hS3 _))]
  rw [runSteps_cons_ok _ _ _ _ (unpackFixed_ok_logsBloom _ _ e.LogsBloom
    (IsHexRendering_SprintfHex_fixed _ (by decide)))]
  rw [runSteps_cons_ok _ _ _ _ (unpackFixed_ok_prevRandao _ _ e.PrevRandao
    (IsHexRendering_SprintfHex_fixed _ (by decide)))]
  rw [runSteps_cons_ok _ _ _ _ (unpackBlockNumber_of_dec _ _ e.BlockNumber hbn rfl)]
  rw [runSteps_cons_ok _ _ _ _ (unpackGasLimit_of_dec _ _ e.GasLimit hgl rfl)]
  rw [runSteps_cons_ok _ _ _ _ (unpackGasUsed_of_dec _ _ e.GasUsed hgu rfl)]
  rw [runSteps_cons_ok _ _ _ _ (unpackTimestamp_of_dec _ _ e.Timestamp hts rfl)]
  rw [runSteps_cons_ok _ _ _ _ (unpackExtraData_of_encoded _ _ e.ExtraData hextra rfl)]
  rw [runSteps_cons_ok _ _ _ _ (unpackBaseFeePerGas_of_dec _ _ bf (hbfr bf hbf1) rfl)]
  rw [runSteps_cons_ok _ _ _ _ (unpackFixed_ok_blockHash _ _ e.BlockHash (hS1 _))]
  rw [runSteps_cons_ok _ _ _ _ (unpackTransactions_of_encoded _ _ (sliceElems e.Transactions)
    htx rfl)]
  rw [runSteps_cons_ok _ _ _ _ (unpackWithdrawals_of_some _ _ ws hws)]
  rw [runSteps_cons_ok _ _ _ _ (unpackExcessDataGas_of_dec _ _ eg (hegr eg heg1) rfl)]
  simp only [runSteps, hbf1, heg1, hws]

/-- Witness for C4: the sample payload, printed with `%#x` for every byte
type, is read back unchanged into the zero payload. -/
theorem executionPayload_unpack_MarshalJSON_witness :
    ∃ data, samplePayload.MarshalJSON Stringers.sprintf = .ok data ∧
      (ExecutionPayload.zero : ExecutionPayload Nat).unpack data =
        ({ samplePayload with
            ExtraData := some (sliceElems samplePayload.ExtraData)
            Transactions := some (sliceElems samplePayload.Transactions) }, none) :=
  executionPayload_unpack_MarshalJSON Stringers.sprintf stringers_sprintf_hex
    ExecutionPayload.zero samplePayload
    ⟨by decide, by decide, by decide, by decide,
      fun v h => by cases h; decide, fun v h => by cases h; decide⟩
    (by decide) (by decide) (by decide) (by decide) (by decide)

/-- C5. `ExecutionPayload.unpack` enforces field presence: for every record in
which a field is absent (one of the fourteen string fields is empty, or the
transactions or withdrawals list is nil), `unpack` returns an error, whatever
the receiver and the other fields are; and when the blocks of the fields that
come before it in the source order raise no error, the error returned is the
`<field> missing` error of that field. -/
theorem executionPayload_unpack_presence {W : Type} (e : ExecutionPayload W)
    (data : executionPayloadJSON W) (f : Field) (h : f.absent data) :
    (e.unpack data).2 ≠ none ∧
    ((runSteps (f.blocksBefore data) e).2 = none → (e.unpack data).2 = some f.missingError) := by
  have hk := runSteps_fails_at (unpackSteps data) f.index (f.step data)
    (field_getElem_unpackSteps data f) e
  have hstep := field_step_absent data f h
  constructor
  · apply hk.1
    intro st1
    rw [hstep st1]
    simp
  · exact hk.2 f.missingError hstep

set_option maxRecDepth 1000000 in
/-- Witness for C5: the sample record with its `gas_limit` emptied is rejected
with `gas limit missing`. -/
theorem executionPayload_unpack_presence_witness :
    ((ExecutionPayload.zero : ExecutionPayload Nat).unpack
        { sampleRecord with GasLimit := [] }).2 ≠ none ∧
    ((ExecutionPayload.zero : ExecutionPayload Nat).unpack
        { sampleRecord with GasLimit := [] }).2 = some (.new "gas limit missing") :=
  have h := executionPayload_unpack_presence (ExecutionPayload.zero : ExecutionPayload Nat)
    { sampleRecord with GasLimit := [] } .gasLimit rfl
  ⟨h.1, h.2 (by decide)⟩

/-- C6. `ExecutionPayload.unpack` enforces exact hex lengths.  For each of the
fixed-size fields (parent hash and block hash 32 bytes, fee recipient 20,
state root, receipts root and prev randao 32, logs bloom 256): when `unpack`
succeeds, the field's string with an optional `0x` prefix removed decodes to
exactly that many bytes and the receiver's field equals the decoded bytes;
and a present string that decodes to any other number of bytes makes `unpack`
fail, with `incorrect length for <field>` when the blocks of the earlier
fields raise no error. -/
theorem executionPayload_unpack_hex_lengths {W : Type} (e : ExecutionPayload W)
    (data : executionPayloadJSON W) (ff : FixedField) :
    ((e.unpack data).2 = none →
      ∃ b, DecodeString (TrimPrefix (ff.text data) ['0', 'x']) = .ok b ∧ b.length = ff.size ∧
        ff.bytes (e.unpack data).1 = b) ∧
    (∀ b, ff.text data ≠ [] → DecodeString (TrimPrefix (ff.text data) ['0', 'x']) = .ok b →
      b.length ≠ ff.size →
      (e.unpack data).2 ≠ none ∧
      ((runSteps (ff.field.blocksBefore data) e).2 = none →
        (e.unpack data).2 = some ff.incorrectError)) := by
  constructor
  · intro h
    exact fixedField_of_success e data h ff
  · intro b hs hd hl
    have hk := runSteps_fails_at (unpackSteps data) ff.field.index (ff.field.step data)
      (field_getElem_unpackSteps data ff.field) e
    have hstep := fixedField_step_incorrect data ff b hs hd hl
    constructor
    · apply hk.1
      intro st1
      rw [hstep st1]
      simp
    · exact hk.2 ff.incorrectError hstep

set_option maxRecDepth 1000000 in
/-- Witness for C6: the sample record is accepted and its fee recipient is read
as 20 bytes; with a fee recipient of 19 bytes it is rejected with
`incorrect length for fee recipient`. -/
theorem executionPayload_unpack_hex_lengths_witness :
    (∃ b, DecodeString (TrimPrefix sampleRecord.FeeRecipient ['0', 'x']) = .ok b ∧
      b.length = 20 ∧
      ((ExecutionPayload.zero : ExecutionPayload Nat).unpack sampleRecord).1.FeeRecipient.val
        = b) ∧
    ((ExecutionPayload.zero : ExecutionPayload Nat).unpack
        { sampleRecord with FeeRecipient := hexOf 19 'B' }).2
      = some (.new "incorrect length for fee recipient") :=
  ⟨(executionPayload_unpack_hex_lengths (ExecutionPayload.zero : ExecutionPayload Nat)
      sampleRecord .feeRecipient).1 (by decide),
   ((executionPayload_unpack_hex_lengths (ExecutionPayload.zero : ExecutionPayload Nat)
      { sampleRecord with FeeRecipient := hexOf 19 'B' } .feeRecipient).2
      (List.replicate 19 0xbb) (by decide) (by decide) (by decide)).2 (by decide)⟩

/-- C7. `ExecutionPayload.unpack` enforces the numeric range of the block
number, gas limit, gas used and timestamp.  The block of each of these fields
accepts the string if and only if it is a non-empty string of ASCII decimal
digits whose value is below `2^64`; when `unpack` succeeds the string is of
that form and the receiver's field equals exactly its value, and when it is
not of that form `unpack` fails.  In particular the decimal rendering of every
`n < 2^64` is accepted and stored as `n`, and the decimal rendering of `2^64`
makes `unpack` fail, with the range error of `strconv.ParseUint` wrapped as
`invalid value for <field>` when the blocks of the earlier fields raise no
error. -/
theorem executionPayload_unpack_numeric_range {W : Type} (e : ExecutionPayload W)
    (data : executionPayloadJSON W) (nf : NumField) :
    ((nf.field.step data e).2 = none ↔
      nf.text data ≠ [] ∧ allDigits (nf.text data) = true ∧ decValue (nf.text data) < 2 ^ 64) ∧
    ((e.unpack data).2 = none →
      (nf.text data ≠ [] ∧ allDigits (nf.text data) = true ∧
        decValue (nf.text data) < 2 ^ 64) ∧
      nf.value (e.unpack data).1 = decValue (nf.text data)) ∧
    (¬ (nf.text data ≠ [] ∧ allDigits (nf.text data) = true ∧
        decValue (nf.text data) < 2 ^ 64) → (e.unpack data).2 ≠ none) ∧
    (∀ n, n < 2 ^ 64 → nf.text data = SprintfDec n →
      (nf.field.step data e).2 = none ∧ nf.value (nf.field.step data e).1 = n) ∧
    (nf.text data = SprintfDec (2 ^ 64) →
      (e.unpack data).2 ≠ none ∧
      ((runSteps (nf.field.blocksBefore data) e).2 = none →
        (e.unpack data).2
          = some (.wrap (.numRange "ParseUint" (SprintfDec (2 ^ 64))) nf.invalidMessage))) := by
  have hiff : ∀ e1 : ExecutionPayload W, (nf.field.step data e1).2 = none ↔
      nf.text data ≠ [] ∧ allDigits (nf.text data) = true ∧
        decValue (nf.text data) < 2 ^ 64 := by
    intro e1
    rw [numField_step_ok_iff, ParseUint_ok_iff]
    constructor
    · intro h; exact h.2
    · intro h; exact ⟨h.1, h⟩
  have hsucc : (e.unpack data).2 = none →
      (nf.text data ≠ [] ∧ allDigits (nf.text data) = true ∧
        decValue (nf.text data) < 2 ^ 64) ∧
      nf.value (e.unpack data).1 = decValue (nf.text data) := by
    intro h
    obtain ⟨h1, h2, h3⟩ := numField_of_success e data h nf
    exact ⟨(ParseUint_ok_iff _).1 h2, by rw [h3, ParseUint_value _ h2]⟩
  refine ⟨hiff e, hsucc, ?_, ?_, ?_⟩
  · intro hnot hok
    exact hnot (hsucc hok).1
  · intro n hn ht
    have hp := ParseUint_SprintfDec n hn
    have hok : (nf.field.step data e).2 = none := by
      rw [numField_step_ok_iff, ht, hp]
      exact ⟨SprintfDec_ne_nil n, rfl⟩
    refine ⟨hok, ?_⟩
    rw [numField_step_value data nf e hok, ht, hp]
  · intro ht
    have hp : (ParseUint (nf.text data)).2
        = some (.numRange "ParseUint" (SprintfDec (2 ^ 64))) := by
      rw [ht]
      decide
    have hs : nf.text data ≠ [] := by
      rw [ht]
      exact SprintfDec_ne_nil _
    have hk := runSteps_fails_at (unpackSteps data) nf.field.index (nf.field.step data)
      (field_getElem_unpackSteps data nf.field) e
    have hstep := numField_step_err data nf _ hs hp
    constructor
    · apply hk.1
      intro st1
      rw [hstep st1]
      simp
    · exact hk.2 _ hstep

set_option maxRecDepth 1000000 in
/-- Witness for C7: the sample record is accepted and its gas limit is stored
as 30000000; with the gas limit `18446744073709551616` it is rejected with
`invalid value for gas limit`. -/
theorem executionPayload_unpack_numeric_range_witness :
    ((ExecutionPayload.zero : ExecutionPayload Nat).unpack sampleRecord).1.GasLimit = 30000000 ∧
    ((ExecutionPayload.zero : ExecutionPayload Nat).unpack
        { sampleRecord with GasLimit := SprintfDec (2 ^ 64) }).2
      = some (.wrap (.numRange "ParseUint" "18446744073709551616".toList)
          "invalid value for gas limit") :=
  ⟨((executionPayload_unpack_numeric_range (ExecutionPayload.zero : ExecutionPayload Nat)
      sampleRecord .gasLimit).2.1 (by decide)).2,
   ((executionPayload_unpack_numeric_range (ExecutionPayload.zero : ExecutionPayload Nat)
      { sampleRecord with GasLimit := SprintfDec (2 ^ 64) } .gasLimit).2.2.2.2 rfl).2
      (by decide)⟩

theorem extraDataDigits_eq (s : List Char) :
    extraDataDigits s =
      if (TrimPrefix s ['0', 'x']).length % 2 = 1 then '0' :: TrimPrefix s ['0', 'x']
      else TrimPrefix s ['0', 'x'] := rfl

theorem unpackExtraData_too_long {W : Type} (data : executionPayloadJSON W) (b : List Byte)
    (hs : data.ExtraData ≠ [])
    (h0 : ¬ (data.ExtraData = ['0', 'x'] ∨ data.ExtraData = ['0']))
    (hd : DecodeString (extraDataDigits data.ExtraData) = .ok b) (hl : 32 < b.length)
    (e : ExecutionPayload W) :
    (unpackExtraData data e).2 = some (.new "incorrect length for extra data") := by
  unfold unpackExtraData
  rw [if_neg hs, if_neg h0, hd]
  simp [hl]

/-- C8. `ExecutionPayload.unpack` bounds extra data at 32 bytes.  When `unpack`
succeeds the receiver's `ExtraData` is a byte string of at most 32 bytes,
empty when `extra_data` is `0x` or `0` and otherwise the hexadecimal decoding
of `extra_data` with an optional `0x` prefix removed and an odd number of
digits padded with one `0` on the left.  The block of the field stores the
empty byte string for `0x` and for `0`, stores the decoded bytes of any other
present value that decodes to at most 32 bytes, and a value that decodes to
more than 32 bytes makes `unpack` fail, with `incorrect length for extra data`
when the blocks of the earlier fields raise no error. -/
theorem executionPayload_unpack_extra_data {W : Type} (e : ExecutionPayload W)
    (data : executionPayloadJSON W) :
    ((e.unpack data).2 = none →
      ∃ b, (e.unpack data).1.ExtraData = some b ∧ b.length ≤ 32 ∧
        ((data.ExtraData = ['0', 'x'] ∨ data.ExtraData = ['0']) → b = []) ∧
        (¬ (data.ExtraData = ['0', 'x'] ∨ data.ExtraData = ['0']) →
          DecodeString
            (if (TrimPrefix data.ExtraData ['0', 'x']).length % 2 = 1
              then '0' :: TrimPrefix data.ExtraData ['0', 'x']
              else TrimPrefix data.ExtraData ['0', 'x']) = .ok b)) ∧
    ((data.ExtraData = ['0', 'x'] ∨ data.ExtraData = ['0']) →
      unpackExtraData data e = ({ e with ExtraData := some [] }, none)) ∧
    (data.ExtraData ≠ [] → ¬ (data.ExtraData = ['0', 'x'] ∨ data.ExtraData = ['0']) →
      ∀ b, DecodeString
          (if (TrimPrefix data.ExtraData ['0', 'x']).length % 2 = 1
            then '0' :: TrimPrefix data.ExtraData ['0', 'x']
            else TrimPrefix data.ExtraData ['0', 'x']) = .ok b →
        (b.length ≤ 32 → unpackExtraData data e = ({ e with ExtraData := some b }, none)) ∧
        (32 < b.length →
          (e.unpack data).2 ≠ none ∧
          ((runSteps (Field.extraData.blocksBefore data) e).2 = none →
            (e.unpack data).2 = some (.new "incorrect length for extra data")))) := by
  refine ⟨?_, ?_, ?_⟩
  · intro h
    obtain ⟨ph, fr, sr, rr, lb, pr, bh, ed, txs, l, ws, _, _, _, _, _, _, _, _, _, _, h11, _,
      _, _, _, _, hres⟩ := unpack_success e data h
    rw [hres]
    refine ⟨ed, rfl, h11.2.1, ?_, ?_⟩
    · intro h0
      rcases h11.2.2 with h1 | h1
      · exact h1.2
      · exact absurd h0 h1.1
    · intro h0
      rcases h11.2.2 with h1 | h1
      · exact absurd h1.1 h0
      · rw [← extraDataDigits_eq]
        exact h1.2
  · intro h0
    have hs : data.ExtraData ≠ [] := by
      rcases h0 with h0 | h0 <;> rw [h0] <;> simp
    unfold unpackExtraData
    rw [if_neg hs, if_pos h0]
  · intro hs h0 b hd
    rw [← extraDataDigits_eq] at hd
    constructor
    · intro hl
      unfold unpackExtraData
      rw [if_neg hs, if_neg h0, hd]
      simp only [gt_iff_lt]
      rw [if_neg (by omega)]
    · intro hl
      have hk := runSteps_fails_at (unpackSteps data) Field.extraData.index
        (Field.extraData.step data) (field_getElem_unpackSteps data .extraData) e
      have hstep := unpackExtraData_too_long data b hs h0 hd hl
      constructor
      · apply hk.1
        intro st1
        have := hstep st1
        simp only [Field.step]
        rw [this]
        simp
      · exact hk.2 _ hstep

set_option maxRecDepth 1000000 in
/-- Witness for C8: the sample record, whose `extra_data` is `0x123`, is
accepted with the two bytes `01 23`; `0x` gives the empty byte string; and 33
bytes of extra data are rejected with `incorrect length for extra data`. -/
theorem executionPayload_unpack_extra_data_witness :
    (∃ b, ((ExecutionPayload.zero : ExecutionPayload Nat).unpack sampleRecord).1.ExtraData
        = some b ∧ b.length ≤ 32 ∧ DecodeString "0123".toList = .ok b) ∧
    unpackExtraData { sampleRecord with ExtraData := ['0', 'x'] }
        (ExecutionPayload.zero : ExecutionPayload Nat)
      = ({ (ExecutionPayload.zero : ExecutionPayload Nat) with ExtraData := some [] }, none) ∧
    ((ExecutionPayload.zero : ExecutionPayload Nat).unpack
        { sampleRecord with ExtraData := hexOf 33 'c' }).2
      = some (.new "incorrect length for extra data") :=
  have h1 := (executionPayload_unpack_extra_data
    (ExecutionPayload.zero : ExecutionPayload Nat) sampleRecord).1 (by decide)
  have h2 := (executionPayload_unpack_extra_data
    (ExecutionPayload.zero : ExecutionPayload Nat)
    { sampleRecord with ExtraData := ['0', 'x'] }).2.1 (Or.inl rfl)
  have h3 := ((executionPayload_unpack_extra_data
    (ExecutionPayload.zero : ExecutionPayload Nat)
    { sampleRecord with ExtraData := hexOf 33 'c' }).2.2 (by decide) (by decide)
    (List.replicate 33 0xcc) (by decide)).2 (by decide)
  ⟨h1.elim fun b hb => ⟨b, hb.1, hb.2.1, hb.2.2.2 (by decide)⟩, h2, h3.2 (by decide)⟩

/-! ## Lemmas on the field blocks of `BeaconBlockBody.unpack` -/

variable {T : BodyTypes}

theorem bodyField_getElem_steps (data : beaconBlockBodyJSON T) (f : BodyField) :
    (bodyUnpackSteps data)[f.index]? = some (f.step data) := by
  cases f <;> rfl

theorem decodeCommitments_ok (cs : List (List Char)) (h : (decodeCommitments cs).2 = none) :
    List.Forall₂ (fun s c => DecodeString (TrimPrefix s ['0', 'x']) = .ok c.val) cs
      (decodeCommitments cs).1 := by
  induction cs with
  | nil => exact List.Forall₂.nil
  | cons s ss ih =>
    unfold decodeCommitments at h ⊢
    cases hd : DecodeString (TrimPrefix s ['0', 'x']) with
    | error err => simp [hd] at h
    | ok d =>
      by_cases hl : d.length = KzgCommitmentLength
      · simp only [hd, hl, ne_eq, not_true_eq_false, if_false] at h ⊢
        exact List.Forall₂.cons (by rw [copyBytes_val _ _ hl]; exact hd) (ih h)
      · simp [hd, hl] at h

theorem decodeCommitments_incorrect (pre post : List (List Char)) (s : List Char)
    (b : List Byte)
    (hpre : ∀ p ∈ pre, ∃ d, DecodeString (TrimPrefix p ['0', 'x']) = .ok d ∧
      d.length = KzgCommitmentLength)
    (hd : DecodeString (TrimPrefix s ['0', 'x']) = .ok b) (hl : b.length ≠ KzgCommitmentLength) :
    (decodeCommitments (pre ++ s :: post)).2
      = some (.new "incorrect length for blob KZG commitment") := by
  induction pre with
  | nil =>
    simp only [List.nil_append, decodeCommitments, hd]
    simp [hl]
  | cons p ps ih =>
    obtain ⟨d, hd1, hl1⟩ := hpre p (List.mem_cons_self _ _)
    have h2 := ih (fun q hq => hpre q (List.mem_cons_of_mem _ hq))
    simp only [List.cons_append, decodeCommitments, hd1, hl1, ne_eq, not_true_eq_false,
      if_false]
    exact h2

theorem unpackRANDAOReveal_inv (data : beaconBlockBodyJSON T) (b : BeaconBlockBody T)
    (h : (unpackRANDAOReveal data b).2 = none) :
    ∃ (d : List Byte) (hd : d.length = SignatureLength), data.RANDAOReveal ≠ [] ∧
      DecodeString (TrimPrefix data.RANDAOReveal ['0', 'x']) = .ok d ∧
      (unpackRANDAOReveal data b).1 = { b with RANDAOReveal := ⟨d, hd⟩ } := by
  unfold unpackRANDAOReveal at h ⊢
  split at h
  · simp at h
  · rename_i d heq
    have h1 := (decodeFixed_ok_iff _ _ _ _ _ _).1 heq
    refine ⟨d, h1.2.2, h1.1, h1.2.1, ?_⟩
    simp only [heq, copyBytes_eq _ d h1.2.2]

theorem unpackGraffiti_inv (data : beaconBlockBodyJSON T) (b : BeaconBlockBody T)
    (h : (unpackGraffiti data b).2 = none) :
    ∃ (d : List Byte) (hd : d.length = GraffitiLength), data.Graffiti ≠ [] ∧
      DecodeString (TrimPrefix data.Graffiti ['0', 'x']) = .ok d ∧
      (unpackGraffiti data b).1 = { b with Graffiti := ⟨d, hd⟩ } := by
  unfold unpackGraffiti at h ⊢
  split at h
  · simp at h
  · rename_i d heq
    have h1 := (decodeFixed_ok_iff _ _ _ _ _ _).1 heq
    refine ⟨d, h1.2.2, h1.1, h1.2.1, ?_⟩
    simp only [heq, copyBytes_eq _ d h1.2.2]

theorem unpackETH1Data_inv (data : beaconBlockBodyJSON T) (b : BeaconBlockBody T)
    (h : (unpackETH1Data data b).2 = none) :
    ∃ v, data.ETH1Data = some v ∧ (unpackETH1Data data b).1 = { b with ETH1Data := some v } := by
  unfold unpackETH1Data at h ⊢
  cases hv : data.ETH1Data with
  | none => simp [hv] at h
  | some v => exact ⟨v, rfl, rfl⟩

theorem unpackProposerSlashings_inv (data : beaconBlockBodyJSON T) (b : BeaconBlockBody T)
    (h : (unpackProposerSlashings data b).2 = none) :
    ∃ v, data.ProposerSlashings = some v ∧
      (unpackProposerSlashings data b).1 = { b with ProposerSlashings := some v } := by
  unfold unpackProposerSlashings at h ⊢
  cases hv : data.ProposerSlashings with
  | none => simp [hv] at h
  | some v => exact ⟨v, rfl, rfl⟩

theorem unpackAttesterSlashings_inv (data : beaconBlockBodyJSON T) (b : BeaconBlockBody T)
    (h : (unpackAttesterSlashings data b).2 = none) :
    ∃ v, data.AttesterSlashings = some v ∧
      (unpackAttesterSlashings data b).1 = { b with AttesterSlashings := some v } := by
  unfold unpackAttesterSlashings at h ⊢
  cases hv : data.AttesterSlashings with
  | none => simp [hv] at h
  | some v => exact ⟨v, rfl, rfl⟩

theorem unpackAttestations_inv (data : beaconBlockBodyJSON T) (b : BeaconBlockBody T)
    (h : (unpackAttestations data b).2 = none) :
    ∃ v, data.Attestations = some v ∧
      (unpackAttestations data b).1 = { b with Attestations := some v } := by
  unfold unpackAttestations at h ⊢
  cases hv : data.Attestations with
  | none => simp [hv] at h
  | some v => exact ⟨v, rfl, rfl⟩

theorem unpackDeposits_inv (data : beaconBlockBodyJSON T) (b : BeaconBlockBody T)
    (h : (unpackDeposits data b).2 = none) :
    ∃ v, data.Deposits = some v ∧ (unpackDeposits data b).1 = { b with Deposits := some v } := by
  unfold unpackDeposits at h ⊢
  cases hv : data.Deposits with
  | none => simp [hv] at h
  | some v => exact ⟨v, rfl, rfl⟩

theorem unpackVoluntaryExits_inv (data : beaconBlockBodyJSON T) (b : BeaconBlockBody T)
    (h : (unpackVoluntaryExits data b).2 = none) :
    ∃ v, data.VoluntaryExits = some v ∧
      (unpackVoluntaryExits data b).1 = { b with VoluntaryExits := some v } := by
  unfold unpackVoluntaryExits at h ⊢
  cases hv : data.VoluntaryExits with
  | none => simp [hv] at h
  | some v => exact ⟨v, rfl, rfl⟩

theorem unpackSyncAggregate_inv (data : beaconBlockBodyJSON T) (b : BeaconBlockBody T)
    (h : (unpackSyncAggregate data b).2 = none) :
    ∃ v, data.SyncAggregate = some v ∧
      (unpackSyncAggregate data b).1 = { b with SyncAggregate := some v } := by
  unfold unpackSyncAggregate at h ⊢
  cases hv : data.SyncAggregate with
  | none => simp [hv] at h
  | some v => exact ⟨v, rfl, rfl⟩

theorem unpackExecutionPayload_inv (data : beaconBlockBodyJSON T) (b : BeaconBlockBody T)
    (h : (unpackExecutionPayload data b).2 = none) :
    ∃ v, data.ExecutionPayload = some v ∧
      (unpackExecutionPayload data b).1 = { b with ExecutionPayload := some v } := by
  unfold unpackExecutionPayload at h ⊢
  cases hv : data.ExecutionPayload with
  | none => simp [hv] at h
  | some v => exact ⟨v, rfl, rfl⟩

theorem unpackBlobKzgCommitments_inv (data : beaconBlockBodyJSON T) (b : BeaconBlockBody T)
    (h : (unpackBlobKzgCommitments data b).2 = none) :
    ∃ cs l, data.BlobKzgCommitments = some cs ∧
      List.Forall₂ (fun s c => DecodeString (TrimPrefix s ['0', 'x']) = .ok c.val) cs l ∧
      (unpackBlobKzgCommitments data b).1 = { b with BlobKzgCommitments := some l } := by
  unfold unpackBlobKzgCommitments at h ⊢
  cases hv : data.BlobKzgCommitments with
  | none => simp [hv] at h
  | some cs =>
    simp only [hv] at h
    exact ⟨cs, (decodeCommitments cs).1, rfl, decodeCommitments_ok cs h, rfl⟩

/-- What a successful `BeaconBlockBody.unpack` has checked and stored. -/
theorem body_unpack_success (b : BeaconBlockBody T) (data : beaconBlockBodyJSON T)
    (h : (b.unpack data).2 = none) :
    ∃ (rr : FixedBytes SignatureLength) (g : FixedBytes GraffitiLength) (e1 : T.ETH1Data)
      (ps : List T.ProposerSlashing) (as : List T.AttesterSlashing) (at1 : List T.Attestation)
      (dp : List T.Deposit) (ve : List T.SignedVoluntaryExit) (sa : T.SyncAggregate)
      (ep : ExecutionPayload T.Withdrawal) (cs : List (List Char))
      (l : List (FixedBytes KzgCommitmentLength)),
      (data.RANDAOReveal ≠ [] ∧
        DecodeString (TrimPrefix data.RANDAOReveal ['0', 'x']) = .ok rr.val) ∧
      data.ETH1Data = some e1 ∧
      (data.Graffiti ≠ [] ∧ DecodeString (TrimPrefix data.Graffiti ['0', 'x']) = .ok g.val) ∧
      data.ProposerSlashings = some ps ∧ data.AttesterSlashings = some as ∧
      data.Attestations = some at1 ∧ data.Deposits = some dp ∧ data.VoluntaryExits = some ve ∧
      data.SyncAggregate = some sa ∧ data.ExecutionPayload = some ep ∧
      (data.BlobKzgCommitments = some cs ∧
        List.Forall₂ (fun s c => DecodeString (TrimPrefix s ['0', 'x']) = .ok c.val) cs l) ∧
      (b.unpack data).1 =
        { RANDAOReveal := rr
          ETH1Data := some e1
          Graffiti := g
          ProposerSlashings := some ps
          AttesterSlashings := some as
          Attestations := some at1
          Deposits := some dp
          VoluntaryExits := some ve
          SyncAggregate := some sa
          ExecutionPayload := some ep
          BLSToExecutionChanges := data.BLSToExecutionChanges
          BlobKzgCommitments := some l } := by
  have hu : b.unpack data = runSteps (bodyUnpackSteps data) b := rfl
  rw [hu] at h ⊢
  simp only [bodyUnpackSteps] at h ⊢
  obtain ⟨b1, h1, hs, hr⟩ := runSteps_cons_inv2 _ _ _ h
  rw [hr] at h ⊢
  obtain ⟨d1, hd1, hn1, hx1, he1⟩ := unpackRANDAOReveal_inv data b h1
  rw [hs] at he1
  clear h1 hs hr
  obtain ⟨b2, h1, hs, hr⟩ := runSteps_cons_inv2 _ _ _ h
  rw [hr] at h ⊢
  obtain ⟨v2, hx2, he2⟩ := unpackETH1Data_inv data b1 h1
  rw [hs] at he2
  clear h1 hs hr
  obtain ⟨b3, h1, hs, hr⟩ := runSteps_cons_inv2 _ _ _ h
  rw [hr] at h ⊢
  obtain ⟨d3, hd3, hn3, hx3, he3⟩ := unpackGraffiti_inv data b2 h1
  rw [hs] at he3
  clear h1 hs hr
  obtain ⟨b4, h1, hs, hr⟩ := runSteps_cons_inv2 _ _ _ h
  rw [hr] at h ⊢
  obtain ⟨v4, hx4, he4⟩ := unpackProposerSlashings_inv data b3 h1
  rw [hs] at he4
  clear h1 hs hr
  obtain ⟨b5, h1, hs, hr⟩ := runSteps_cons_inv2 _ _ _ h
  rw [hr] at h ⊢
  obtain ⟨v5, hx5, he5⟩ := unpackAttesterSlashings_inv data b4 h1
  rw [hs] at he5
  clear h1 hs hr
  obtain ⟨b6, h1, hs, hr⟩ := runSteps_cons_inv2 _ _ _ h
  rw [hr] at h ⊢
  obtain ⟨v6, hx6, he6⟩ := unpackAttestations_inv data b5 h1
  rw [hs] at he6
  clear h1 hs hr
  obtain ⟨b7, h1, hs, hr⟩ := runSteps_cons_inv2 _ _ _ h
  rw [hr] at h ⊢
  obtain ⟨v7, hx7, he7⟩ := unpackDeposits_inv data b6 h1
  rw [hs] at he7
  clear h1 hs hr
  obtain ⟨b8, h1, hs, hr⟩ := runSteps_cons_inv2 _ _ _ h
  rw [hr] at h ⊢
  obtain ⟨v8, hx8, he8⟩ := unpackVoluntaryExits_inv data b7 h1
  rw [hs] at he8
  clear h1 hs hr
  obtain ⟨b9, h1, hs, hr⟩ := runSteps_cons_inv2 _ _ _ h
  rw [hr] at h ⊢
  obtain ⟨v9, hx9, he9⟩ := unpackSyncAggregate_inv data b8 h1
  rw [hs] at he9
  clear h1 hs hr
  obtain ⟨b10, h1, hs, hr⟩ := runSteps_cons_inv2 _ _ _ h
  rw [hr] at h ⊢
  obtain ⟨v10, hx10, he10⟩ := unpackExecutionPayload_inv data b9 h1
  rw [hs] at he10
  clear h1 hs hr
  obtain ⟨b11, h1, hs, hr⟩ := runSteps_cons_inv2 _ _ _ h
  rw [hr] at h ⊢
  have he11 : b11 = { b10 with BLSToExecutionChanges := data.BLSToExecutionChanges } := by
    rw [← hs]
    rfl
  clear h1 hs hr
  obtain ⟨b12, h1, hs, hr⟩ := runSteps_cons_inv2 _ _ _ h
  rw [hr] at h ⊢
  obtain ⟨cs, l, hx12, hf12, he12⟩ := unpackBlobKzgCommitments_inv data b11 h1
  rw [hs] at he12
  clear h1 hs hr
  refine ⟨⟨d1, hd1⟩, ⟨d3, hd3⟩, v2, v4, v5, v6, v7, v8, v9, v10, cs, l, ⟨hn1, hx1⟩, hx2,
    ⟨hn3, hx3⟩, hx4, hx5, hx6, hx7, hx8, hx9, hx10, ⟨hx12, hf12⟩, ?_⟩
  simp only [runSteps]
  rw [he12, he11, he10, he9, he8, he7, he6, he5, he4, he3, he2, he1]

/-! ## `BeaconBlockBody`: claims -/

theorem bodyField_step_absent (data : beaconBlockBodyJSON T) (f : BodyField)
    (hf : f ≠ .blsToExecutionChanges) (h : f.absent data) (b : BeaconBlockBody T) :
    (f.step data b).2 ≠ none := by
  cases f <;>
    first
    | exact absurd rfl hf
    | (simp only [BodyField.absent] at h
       simp [BodyField.step, unpackRANDAOReveal, unpackETH1Data, unpackGraffiti,
         unpackProposerSlashings, unpackAttesterSlashings, unpackAttestations, unpackDeposits,
         unpackVoluntaryExits, unpackSyncAggregate, unpackExecutionPayload,
         unpackBlobKzgCommitments, decodeFixed, h])

/-- The eleven fields that `BeaconBlockBody.unpack` does test: the absence of
any of them makes `unpack` return an error. -/
theorem beaconBlockBody_unpack_presence_tested (b : BeaconBlockBody T)
    (data : beaconBlockBodyJSON T) (f : BodyField) (hf : f ≠ .blsToExecutionChanges)
    (h : f.absent data) : (b.unpack data).2 ≠ none :=
  (runSteps_fails_at (bodyUnpackSteps data) f.index (f.step data)
    (bodyField_getElem_steps data f) b).1 (bodyField_step_absent data f hf h)

set_option maxRecDepth 1000000 in
/-- C9, the failing input. The sample record with `bls_to_execution_changes`
absent (a nil list) and every other field present and valid:
`BeaconBlockBody.unpack` returns no error and leaves the receiver's
`BLSToExecutionChanges` nil, whereas the same record with any other list
absent, here `voluntary_exits`, is rejected. -/
theorem beaconBlockBody_unpack_accepts_nil_bls_changes :
    BodyField.absent { sampleBodyRecord with BLSToExecutionChanges := none }
      .blsToExecutionChanges ∧
    ((BeaconBlockBody.zero : BeaconBlockBody sampleTypes).unpack
      { sampleBodyRecord with BLSToExecutionChanges := none }).2 = none ∧
    ((BeaconBlockBody.zero : BeaconBlockBody sampleTypes).unpack
      { sampleBodyRecord with BLSToExecutionChanges := none }).1.BLSToExecutionChanges = none ∧
    ((BeaconBlockBody.zero : BeaconBlockBody sampleTypes).unpack
      { sampleBodyRecord with VoluntaryExits := none }).2
      = some (.new "voluntary exits missing") := by
  refine ⟨rfl, ?_, rfl, ?_⟩ <;> decide

theorem unpackRANDAOReveal_incorrect (data : beaconBlockBodyJSON T) (d : List Byte)
    (hs : data.RANDAOReveal ≠ [])
    (hd : DecodeString (TrimPrefix data.RANDAOReveal ['0', 'x']) = .ok d)
    (hl : d.length ≠ SignatureLength) (b : BeaconBlockBody T) :
    (unpackRANDAOReveal data b).2 = some (.new "incorrect length for RANDAO reveal") := by
  simp only [unpackRANDAOReveal, decodeFixed_incorrect _ _ _ _ _ d hs hd hl]

theorem unpackGraffiti_incorrect (data : beaconBlockBodyJSON T) (d : List Byte)
    (hs : data.Graffiti ≠ [])
    (hd : DecodeString (TrimPrefix data.Graffiti ['0', 'x']) = .ok d)
    (hl : d.length ≠ GraffitiLength) (b : BeaconBlockBody T) :
    (unpackGraffiti data b).2 = some (.new "incorrect length for graffiti") := by
  simp only [unpackGraffiti, decodeFixed_incorrect _ _ _ _ _ d hs hd hl]

theorem unpackBlobKzgCommitments_incorrect (data : beaconBlockBodyJSON T)
    (pre post : List (List Char)) (s : List Char) (d : List Byte)
    (hcs : data.BlobKzgCommitments = some (pre ++ s :: post))
    (hpre : ∀ p ∈ pre, ∃ d1, DecodeString (TrimPrefix p ['0', 'x']) = .ok d1 ∧
      d1.length = KzgCommitmentLength)
    (hd : DecodeString (TrimPrefix s ['0', 'x']) = .ok d) (hl : d.length ≠ KzgCommitmentLength)
    (b : BeaconBlockBody T) :
    (unpackBlobKzgCommitments data b).2
      = some (.new "incorrect length for blob KZG commitment") := by
  simp only [unpackBlobKzgCommitments, hcs, decodeCommitments_incorrect pre post s d hpre hd hl]

theorem forall2_at_left {α β : Type} {R : α → β → Prop} (pre post : List α) (s : α)
    (l : List β) (h : List.Forall₂ R (pre ++ s :: post) l) : ∃ c, R s c := by
  induction pre generalizing l with
  | nil =>
    cases h with
    | cons hsc _ => exact ⟨_, hsc⟩
  | cons p ps ih =>
    cases h with
    | cons _ hrest => exact ih _ hrest

/-- C10. `BeaconBlockBody.unpack` enforces exact hex lengths.  When `unpack`
succeeds, `randao_reveal` with an optional `0x` prefix removed decodes to
exactly 96 bytes and `graffiti` to exactly 32 bytes, the receiver holding the
decoded bytes, and the receiver's commitment list corresponds entry by entry,
in the same order and with the same length, to `blob_kzg_commitments`, each
entry being the 48 bytes its string decodes to.  A present `randao_reveal` of
another length is rejected with `incorrect length for RANDAO reveal`; a present
`graffiti` of another length, or a commitment of another length, makes `unpack`
fail, with `incorrect length for graffiti`, respectively `incorrect length for
blob KZG commitment`, when the blocks of the earlier fields raise no error
(and, for a commitment, the entries before it are 48 bytes long). -/
theorem beaconBlockBody_unpack_hex_lengths (b : BeaconBlockBody T)
    (data : beaconBlockBodyJSON T) :
    ((b.unpack data).2 = none →
      (∃ d, DecodeString (TrimPrefix data.RANDAOReveal ['0', 'x']) = .ok d ∧
        d.length = SignatureLength ∧ (b.unpack data).1.RANDAOReveal.val = d) ∧
      (∃ d, DecodeString (TrimPrefix data.Graffiti ['0', 'x']) = .ok d ∧
        d.length = GraffitiLength ∧ (b.unpack data).1.Graffiti.val = d) ∧
      (∃ cs l, data.BlobKzgCommitments = some cs ∧
        (b.unpack data).1.BlobKzgCommitments = some l ∧ l.length = cs.length ∧
        List.Forall₂ (fun s c => DecodeString (TrimPrefix s ['0', 'x']) = .ok c.val ∧
          c.val.length = KzgCommitmentLength) cs l)) ∧
    (∀ d, data.RANDAOReveal ≠ [] →
      DecodeString (TrimPrefix data.RANDAOReveal ['0', 'x']) = .ok d →
      d.length ≠ SignatureLength →
      (b.unpack data).2 = some (.new "incorrect length for RANDAO reveal")) ∧
    (∀ d, data.Graffiti ≠ [] → DecodeString (TrimPrefix data.Graffiti ['0', 'x']) = .ok d →
      d.length ≠ GraffitiLength →
      (b.unpack data).2 ≠ none ∧
      ((runSteps (BodyField.graffiti.blocksBefore data) b).2 = none →
        (b.unpack data).2 = some (.new "incorrect length for graffiti"))) ∧
    (∀ pre post s d, data.BlobKzgCommitments = some (pre ++ s :: post) →
      DecodeString (TrimPrefix s ['0', 'x']) = .ok d → d.length ≠ KzgCommitmentLength →
      (b.unpack data).2 ≠ none ∧
      ((runSteps (BodyField.blobKzgCommitments.blocksBefore data) b).2 = none →
        (∀ p ∈ pre, ∃ d1, DecodeString (TrimPrefix p ['0', 'x']) = .ok d1 ∧
          d1.length = KzgCommitmentLength) →
        (b.unpack data).2 = some (.new "incorrect length for blob KZG commitment"))) := by
  have hsucc : (b.unpack data).2 = none →
      (∃ d, DecodeString (TrimPrefix data.RANDAOReveal ['0', 'x']) = .ok d ∧
        d.length = SignatureLength ∧ (b.unpack data).1.RANDAOReveal.val = d) ∧
      (∃ d, DecodeString (TrimPrefix data.Graffiti ['0', 'x']) = .ok d ∧
        d.length = GraffitiLength ∧ (b.unpack data).1.Graffiti.val = d) ∧
      (∃ cs l, data.BlobKzgCommitments = some cs ∧
        (b.unpack data).1.BlobKzgCommitments = some l ∧ l.length = cs.length ∧
        List.Forall₂ (fun s c => DecodeString (TrimPrefix s ['0', 'x']) = .ok c.val ∧
          c.val.length = KzgCommitmentLength) cs l) := by
    intro h
    obtain ⟨rr, g, e1, ps, as, at1, dp, ve, sa, ep, cs, l, h1, _, h3, _, _, _, _, _, _, _, h12,
      hres⟩ := body_unpack_success b data h
    rw [hres]
    refine ⟨⟨rr.val, h1.2, rr.property, rfl⟩, ⟨g.val, h3.2, g.property, rfl⟩,
      ⟨cs, l, h12.1, rfl, h12.2.length_eq.symm, ?_⟩⟩
    exact h12.2.imp (fun s c hsc => ⟨hsc, c.property⟩)
  refine ⟨hsucc, ?_, ?_, ?_⟩
  · intro d hs hd hl
    have hk := runSteps_fails_at (bodyUnpackSteps data) BodyField.randaoReveal.index
      (BodyField.randaoReveal.step data) (bodyField_getElem_steps data .randaoReveal) b
    exact hk.2 _ (unpackRANDAOReveal_incorrect data d hs hd hl) rfl
  · intro d hs hd hl
    have hk := runSteps_fails_at (bodyUnpackSteps data) BodyField.graffiti.index
      (BodyField.graffiti.step data) (bodyField_getElem_steps data .graffiti) b
    have hstep := unpackGraffiti_incorrect data d hs hd hl
    constructor
    · apply hk.1
      intro st1
      have := hstep st1
      simp only [BodyField.step]
      rw [this]
      simp
    · exact hk.2 _ hstep
  · intro pre post s d hcs hd hl
    constructor
    · intro hok
      obtain ⟨_, _, cs, l, hcs1, _, _, hf⟩ := hsucc hok
      rw [hcs] at hcs1
      cases hcs1
      obtain ⟨c, hsc⟩ := forall2_at_left pre post s l hf
      rw [hd] at hsc
      have := hsc.1
      cases this
      exact hl hsc.2
    · intro hbefore hpre
      have hk := runSteps_fails_at (bodyUnpackSteps data) BodyField.blobKzgCommitments.index
        (BodyField.blobKzgCommitments.step data)
        (bodyField_getElem_steps data .blobKzgCommitments) b
      exact hk.2 _ (unpackBlobKzgCommitments_incorrect data pre post s d hcs hpre hd hl) hbefore

set_option maxRecDepth 1000000 in
/-- Witness for C10: the sample record is accepted, with a RANDAO reveal of 96
bytes and two commitments; with a graffiti of 31 bytes it is rejected with
`incorrect length for graffiti`, and with a second commitment of 47 bytes with
`incorrect length for blob KZG commitment`. -/
theorem beaconBlockBody_unpack_hex_lengths_witness :
    (∃ d, DecodeString (TrimPrefix sampleBodyRecord.RANDAOReveal ['0', 'x']) = .ok d ∧
      d.length = 96 ∧
      ((BeaconBlockBody.zero : BeaconBlockBody sampleTypes).unpack
        sampleBodyRecord).1.RANDAOReveal.val = d) ∧
    ((BeaconBlockBody.zero : BeaconBlockBody sampleTypes).unpack
      { sampleBodyRecord with Graffiti := hexOf 31 '0' }).2
      = some (.new "incorrect length for graffiti") ∧
    ((BeaconBlockBody.zero : BeaconBlockBody sampleTypes).unpack
      { sampleBodyRecord with BlobKzgCommitments := some [hexOf 48 'c', hexOf 47 'D'] }).2
      = some (.new "incorrect length for blob KZG commitment") :=
  ⟨((beaconBlockBody_unpack_hex_lengths (BeaconBlockBody.zero : BeaconBlockBody sampleTypes)
      sampleBodyRecord).1 (by decide)).1,
   ((beaconBlockBody_unpack_hex_lengths (BeaconBlockBody.zero : BeaconBlockBody sampleTypes)
      { sampleBodyRecord with Graffiti := hexOf 31 '0' }).2.2.1
      (List.replicate 31 0) (by decide) (by decide) (by decide)).2 (by decide),
   ((beaconBlockBody_unpack_hex_lengths (BeaconBlockBody.zero : BeaconBlockBody sampleTypes)
      { sampleBodyRecord with BlobKzgCommitments := some [hexOf 48 'c', hexOf 47 'D'] }).2.2.2
      [hexOf 48 'c'] [] (hexOf 47 'D') (List.replicate 47 0xdd) rfl (by decide)
      (by decide)).2 (by decide)
      (fun p hp => ⟨List.replicate 48 0xcc, by
        simp only [List.mem_singleton] at hp
        subst hp
        decide⟩)⟩

end Deneb

namespace Deneb

variable {W : Type}

theorem decodeTransactions_ok (i : Nat) (txs : List (List Char)) (l : List (List Byte))
    (h : decodeTransactions i txs = .ok l) :
    List.Forall₂ (fun s t => s ≠ [] ∧
      ((s = ['0'] ∧ t = []) ∨ (s ≠ ['0'] ∧ DecodeString (TrimPrefix s ['0', 'x']) = .ok t)))
      txs l := by
  induction txs generalizing i l with
  | nil =>
    simp [decodeTransactions] at h
    subst h
    exact List.Forall₂.nil
  | cons s ss ih =>
    unfold decodeTransactions at h
    by_cases hs : s = []
    · simp [hs] at h
    · rw [if_neg hs] at h
      by_cases h0 : s = ['0']
      · rw [if_pos h0] at h
        cases hr : decodeTransactions (i + 1) ss with
        | error err => simp [hr] at h
        | ok rest =>
          simp [hr] at h
          subst h
          exact List.Forall₂.cons ⟨hs, Or.inl ⟨h0, rfl⟩⟩ (ih (i + 1) rest hr)
      · rw [if_neg h0] at h
        cases hd : DecodeString (TrimPrefix s ['0', 'x']) with
        | error err => simp [hd] at h
        | ok tmp =>
          cases hr : decodeTransactions (i + 1) ss with
          | error err => simp [hd, hr] at h
          | ok rest =>
            simp [hd, hr] at h
            subst h
            exact List.Forall₂.cons ⟨hs, Or.inr ⟨h0, hd⟩⟩ (ih (i + 1) rest hr)

theorem decodeTransactions_at (i : Nat) (pre post : List (List Char)) (s : List Char)
    (hpre : ∀ p ∈ pre, p ≠ [] ∧
      (p = ['0'] ∨ ∃ t, DecodeString (TrimPrefix p ['0', 'x']) = .ok t)) :
    (s = [] → decodeTransactions i (pre ++ s :: post) = .error (.new "transaction missing")) ∧
    (∀ err, s ≠ [] → s ≠ ['0'] → DecodeString (TrimPrefix s ['0', 'x']) = .error err →
      decodeTransactions i (pre ++ s :: post)
        = .error (.wrap err
            ("invalid value for transaction " ++ String.mk (SprintfDec (i + pre.length))))) := by
  induction pre generalizing i with
  | nil =>
    constructor
    · intro hs
      simp [decodeTransactions, hs]
    · intro err hs h0 hd
      simp [decodeTransactions, hs, h0, hd]
  | cons p ps ih =>
    obtain ⟨hpne, hp⟩ := hpre p (List.mem_cons_self _ _)
    have hrest := ih (i + 1) (fun q hq => hpre q (List.mem_cons_of_mem _ hq))
    have hidx : i + 1 + ps.length = i + (p :: ps).length := by
      simp only [List.length_cons]
      omega
    constructor
    · intro hs
      have h1 := hrest.1 hs
      by_cases h0 : p = ['0']
      · simp [decodeTransactions, hpne, h0, h1]
      · obtain ⟨t, ht⟩ := hp.resolve_left h0
        simp [decodeTransactions, hpne, h0, ht, h1]
    · intro err hs hs0 hd
      have h1 := hrest.2 err hs hs0 hd
      rw [hidx] at h1
      by_cases h0 : p = ['0']
      · subst h0
        simp only [List.cons_append]
        simp [decodeTransactions, h1]
      · obtain ⟨t, ht⟩ := hp.resolve_left h0
        simp [decodeTransactions, hpne, h0, ht, h1]

/-- C20. `ExecutionPayload.unpack` decodes the transaction list element-wise.
When `unpack` succeeds, the receiver's `Transactions` has the same length and
order as the input list, the string `0` being read as the empty transaction
and every other (non-empty) string as its hexadecimal bytes after removal of
an optional `0x` prefix.  An empty string in the list makes `unpack` fail, and
so does a string that is neither empty nor `0` and cannot be decoded; when the
blocks of the earlier fields raise no error and the strings before it in the
list are in order, the error is `transaction missing`, respectively the
decoding error wrapped as `invalid value for transaction i` with `i` the index
of the string. -/
theorem executionPayload_unpack_transactions (e : ExecutionPayload W)
    (data : executionPayloadJSON W) :
    ((e.unpack data).2 = none →
      ∃ txs l, data.Transactions = some txs ∧ (e.unpack data).1.Transactions = some l ∧
        l.length = txs.length ∧
        List.Forall₂ (fun s t => s ≠ [] ∧
          ((s = ['0'] ∧ t = []) ∨
           (s ≠ ['0'] ∧ DecodeString (TrimPrefix s ['0', 'x']) = .ok t))) txs l) ∧
    (∀ pre post, data.Transactions = some (pre ++ [] :: post) →
      (e.unpack data).2 ≠ none ∧
      ((runSteps (Field.transactions.blocksBefore data) e).2 = none →
        (∀ p ∈ pre, p ≠ [] ∧
          (p = ['0'] ∨ ∃ t, DecodeString (TrimPrefix p ['0', 'x']) = .ok t)) →
        (e.unpack data).2 = some (.new "transaction missing"))) ∧
    (∀ pre post s err, data.Transactions = some (pre ++ s :: post) → s ≠ [] → s ≠ ['0'] →
      DecodeString (TrimPrefix s ['0', 'x']) = .error err →
      (e.unpack data).2 ≠ none ∧
      ((runSteps (Field.transactions.blocksBefore data) e).2 = none →
        (∀ p ∈ pre, p ≠ [] ∧
          (p = ['0'] ∨ ∃ t, DecodeString (TrimPrefix p ['0', 'x']) = .ok t)) →
        (e.unpack data).2
          = some (.wrap err
              ("invalid value for transaction " ++ String.mk (SprintfDec pre.length))))) := by
  have hsucc : (e.unpack data).2 = none →
      ∃ txs l, data.Transactions = some txs ∧ (e.unpack data).1.Transactions = some l ∧
        l.length = txs.length ∧
        List.Forall₂ (fun s t => s ≠ [] ∧
          ((s = ['0'] ∧ t = []) ∨
           (s ≠ ['0'] ∧ DecodeString (TrimPrefix s ['0', 'x']) = .ok t))) txs l := by
    intro h
    obtain ⟨ph, fr, sr, rr, lb, pr, bh, ed, txs, l, ws, _, _, _, _, _, _, _, _, _, _, _, _, _,
      h14, _, _, hres⟩ := unpack_success e data h
    rw [hres]
    have hf := decodeTransactions_ok 0 txs l h14.2
    exact ⟨txs, l, h14.1, rfl, hf.length_eq.symm, hf⟩
  have hk := runSteps_fails_at (unpackSteps data) Field.transactions.index
    (Field.transactions.step data) (field_getElem_unpackSteps data .transactions) e
  refine ⟨hsucc, ?_, ?_⟩
  · intro pre post htx
    constructor
    · intro hok
      obtain ⟨txs, l, htx2, _, _, hf⟩ := hsucc hok
      rw [htx] at htx2
      cases htx2
      obtain ⟨t, ht⟩ := forall2_at_left pre post [] l hf
      exact ht.1 rfl
    · intro hbefore hpre
      apply hk.2 _ _ hbefore
      intro st1
      simp only [Field.step, unpackTransactions, htx,
        (decodeTransactions_at 0 pre post [] hpre).1 rfl]
  · intro pre post s err htx hs h0 hd
    constructor
    · intro hok
      obtain ⟨txs, l, htx2, _, _, hf⟩ := hsucc hok
      rw [htx] at htx2
      cases htx2
      obtain ⟨t, ht⟩ := forall2_at_left pre post s l hf
      rcases ht.2 with h1 | h1
      · exact h0 h1.1
      · rw [hd] at h1
        cases h1.2
    · intro hbefore hpre
      apply hk.2 _ _ hbefore
      intro st1
      have := (decodeTransactions_at 0 pre post s hpre).2 err hs h0 hd
      rw [Nat.zero_add] at this
      simp only [Field.step, unpackTransactions, htx, this]

set_option maxRecDepth 1000000 in
/-- Witness for C20: the sample record, whose transactions are `0` and
`0x1234`, is accepted with the empty transaction and the bytes `12 34`; with
an empty second transaction it is rejected with `transaction missing`, and
with the second transaction `0xzz` it is rejected with
`invalid value for transaction 1`. -/
theorem executionPayload_unpack_transactions_witness :
    ((ExecutionPayload.zero : ExecutionPayload Nat).unpack sampleRecord).1.Transactions
      = some [[], [0x12, 0x34]] ∧
    ((ExecutionPayload.zero : ExecutionPayload Nat).unpack
      { sampleRecord with Transactions := some ["0".toList, []] }).2
      = some (.new "transaction missing") ∧
    ((ExecutionPayload.zero : ExecutionPayload Nat).unpack
      { sampleRecord with Transactions := some ["0".toList, "0xzz".toList] }).2
      = some (.wrap (.hexInvalidByte 'z') "invalid value for transaction 1") :=
  have h2 := ((executionPayload_unpack_transactions
    (ExecutionPayload.zero : ExecutionPayload Nat)
    { sampleRecord with Transactions := some ["0".toList, []] }).2.1
    ["0".toList] [] rfl).2 (by decide)
    (fun p hp => by
      simp only [List.mem_singleton] at hp
      subst hp
      exact ⟨by decide, Or.inl rfl⟩)
  have h3 := ((executionPayload_unpack_transactions
    (ExecutionPayload.zero : ExecutionPayload Nat)
    { sampleRecord with Transactions := some ["0".toList, "0xzz".toList] }).2.2
    ["0".toList] [] "0xzz".toList (.hexInvalidByte 'z') rfl (by decide) (by decide)
    (by decide)).2 (by decide)
    (fun p hp => by
      simp only [List.mem_singleton] at hp
      subst hp
      exact ⟨by decide, Or.inl rfl⟩)
  ⟨by decide, h2, h3⟩

end Deneb

/-! ## Lemmas on printing what the decoders read -/

theorem char_eq_of_toNat_eq (c d : Char) (h : c.toNat = d.toNat) : c = d := by
  rw [← Char.ofNat_toNat c, ← Char.ofNat_toNat d, h]

theorem digits_eq_of_decValue_eq (a b : List Char) (hlen : a.length = b.length)
    (ha : allDigits a = true) (hb : allDigits b = true) (h : decValue a = decValue b) :
    a = b := by
  induction a generalizing b with
  | nil =>
    cases b with
    | nil => rfl
    | cons y ys => simp at hlen
  | cons x xs ih =>
    cases b with
    | nil => simp at hlen
    | cons y ys =>
      rw [allDigits_cons] at ha hb
      have hl : xs.length = ys.length := by simpa using hlen
      rw [decValue_cons, decValue_cons, hl] at h
      have hxs := decValue_lt_pow xs ha.2
      have hys := decValue_lt_pow ys hb.2
      rw [hl] at hxs
      have hd : x.toNat - 48 = y.toNat - 48 := by
        by_contra hne
        rcases Nat.lt_or_gt_of_ne hne with hlt | hgt
        · have : (x.toNat - 48 + 1) * 10 ^ ys.length ≤ (y.toNat - 48) * 10 ^ ys.length :=
            Nat.mul_le_mul_right _ (by omega)
          rw [Nat.add_mul] at this
          omega
        · have : (y.toNat - 48 + 1) * 10 ^ ys.length ≤ (x.toNat - 48) * 10 ^ ys.length :=
            Nat.mul_le_mul_right _ (by omega)
          rw [Nat.add_mul] at this
          omega
      have hxy : x = y := char_eq_of_toNat_eq x y (by omega)
      rw [hd] at h
      have hrest := ih ys hl ha.2 hb.2 (by omega)
      rw [hxy, hrest]

theorem decValue_ge_pow_of_head (c : Char) (rest : List Char) (hc : 49 ≤ c.toNat) :
    10 ^ rest.length ≤ decValue (c :: rest) := by
  rw [decValue_cons]
  have : 1 * 10 ^ rest.length ≤ (c.toNat - 48) * 10 ^ rest.length :=
    Nat.mul_le_mul_right _ (by omega)
  omega

theorem SprintfDec_decValue (s : List Char) (hne : s ≠ []) (hall : allDigits s = true)
    (hcanon : s = ['0'] ∨ s.head? ≠ some '0') : SprintfDec (decValue s) = s := by
  obtain ⟨c, rest, heq, hall2, hval, hzero, hpos⟩ := SprintfDec_spec (decValue s)
  rw [heq]
  cases s with
  | nil => exact absurd rfl hne
  | cons x xs =>
    rcases hcanon with h0 | hhead
    · rw [h0] at hzero ⊢
      obtain ⟨hc, hr⟩ := hzero (by decide)
      rw [hc, hr]
    · have hall' := hall
      rw [allDigits_cons] at hall'
      have hx : 49 ≤ x.toNat := by
        have hx0 : x ≠ '0' := by
          intro hx
          apply hhead
          simp [hx]
        by_contra hlt
        apply hx0
        apply char_eq_of_toNat_eq
        have : ('0' : Char).toNat = 48 := by decide
        omega
      have hge := decValue_ge_pow_of_head x xs hx
      have hvpos : 0 < decValue (x :: xs) := by
        have : 1 ≤ 10 ^ xs.length := Nat.one_le_pow _ _ (by norm_num)
        omega
      have hc := hpos hvpos
      have hge2 := decValue_ge_pow_of_head c rest hc
      have hlt1 := decValue_lt_pow (x :: xs) hall
      have hlt2 := decValue_lt_pow (c :: rest) hall2
      have hlen : rest.length = xs.length := by
        rw [hval] at hge2 hlt2
        simp only [List.length_cons] at hlt1 hlt2
        by_contra hne2
        rcases Nat.lt_or_gt_of_ne hne2 with hlt | hgt
        · have : 10 ^ (rest.length + 1) ≤ 10 ^ xs.length :=
            Nat.pow_le_pow_right (by norm_num) hlt
          omega
        · have : 10 ^ (xs.length + 1) ≤ 10 ^ rest.length :=
            Nat.pow_le_pow_right (by norm_num) hgt
          omega
      exact digits_eq_of_decValue_eq _ _ (by simp [hlen]) hall2 hall hval

theorem hexDigit_fromHexChar (c : Char) (n : Fin 16)
    (hc : (48 ≤ c.toNat ∧ c.toNat ≤ 57) ∨ (97 ≤ c.toNat ∧ c.toNat ≤ 102))
    (h : fromHexChar c = some n) : hexDigit n = c := by
  apply char_eq_of_toNat_eq
  unfold fromHexChar at h
  rcases hc with hd | hl
  · rw [dif_pos hd] at h
    simp only [Option.some.injEq] at h
    subst h
    obtain ⟨h1, h2⟩ := hd
    have key : ∀ k, 48 ≤ k → k ≤ 57 → ∀ hk : k - 48 < 16,
        (hexDigit ⟨k - 48, hk⟩).toNat = k := by
      intro k h1 h2 hk
      interval_cases k <;> rfl
    exact key _ h1 h2 _
  · have hnd : ¬ (48 ≤ c.toNat ∧ c.toNat ≤ 57) := by omega
    rw [dif_neg hnd, dif_pos hl] at h
    simp only [Option.some.injEq] at h
    subst h
    obtain ⟨h1, h2⟩ := hl
    have key : ∀ k, 97 ≤ k → k ≤ 102 → ∀ hk : k - 87 < 16,
        (hexDigit ⟨k - 87, hk⟩).toNat = k := by
      intro k h1 h2 hk
      interval_cases k <;> rfl
    exact key _ h1 h2 _

theorem mkByte_div (a b : Fin 16) : (mkByte a b).val / 16 = a.val := by
  simp only [mkByte]
  omega

theorem mkByte_mod (a b : Fin 16) : (mkByte a b).val % 16 = b.val := by
  simp only [mkByte]
  omega

theorem hexDigits_DecodeString (s : List Char) (bs : List Byte)
    (hlow : ∀ c ∈ s, (48 ≤ c.toNat ∧ c.toNat ≤ 57) ∨ (97 ≤ c.toNat ∧ c.toNat ≤ 102))
    (h : DecodeString s = .ok bs) : hexDigits bs = s := by
  induction s using DecodeString.induct generalizing bs with
  | case1 => simp [DecodeString] at h; subst h; rfl
  | case2 p hp => simp [DecodeString, hp] at h
  | case3 p x hp => simp [DecodeString, hp] at h
  | case4 p q rest hp => simp [DecodeString, hp] at h
  | case5 p q rest a ha hq => simp [DecodeString, ha, hq] at h
  | case6 p q rest a ha b hb err herr ih => simp [DecodeString, ha, hb, herr] at h
  | case7 p q rest a ha b hb bs1 hbs ih =>
    simp [DecodeString, ha, hb, hbs] at h
    subst h
    have hp := hexDigit_fromHexChar p a (hlow p (by simp)) ha
    have hq := hexDigit_fromHexChar q b (hlow q (by simp)) hb
    have hrest := ih bs1 (fun c hc => hlow c (by simp [hc])) hbs
    simp only [hexDigits, hrest]
    have e1 : (⟨(mkByte a b).val / 16, by omega⟩ : Fin 16) = a := Fin.ext (mkByte_div a b)
    have e2 : (⟨(mkByte a b).val % 16, by omega⟩ : Fin 16) = b := Fin.ext (mkByte_mod a b)
    rw [e1, e2, hp, hq]

/-! ## The HTTP operations -/

namespace Http

variable {Ctx Body A : Type}

theorem goError_mem_chain_self (e : GoError) : e ∈ e.chain := by
  cases e <;> simp [GoError.chain]

/-- C11. `BeaconBlockRoot` returns nil without an error when the block is not
available: for every block ID, if the GET returns no response body and no
error, `BeaconBlockRoot` returns `(nil, nil)`; the same holds for
`BeaconStateRoot` with a non-empty state ID. -/
theorem http_root_nil_without_body (s : Service Ctx Body) (json : JSONLib Body A) (ctx : Ctx) :
    (∀ blockID, s.get ctx (blockRootEndpoint blockID) = (none, none) →
      (BeaconBlockRoot s json ctx blockID).result = .ok (none, none)) ∧
    (∀ stateID, stateID ≠ [] → s.get ctx (stateRootEndpoint stateID) = (none, none) →
      (BeaconStateRoot s json ctx stateID).result = .ok (none, none)) := by
  constructor
  · intro blockID h
    simp only [BeaconBlockRoot, h]
  · intro stateID hne h
    simp only [BeaconStateRoot, hne, if_false, h]

/-- Witness for C11: a node that answers without a body makes both operations
return `(nil, nil)`. -/
theorem http_root_nil_without_body_witness :
    (BeaconBlockRoot silentService sampleJSON () "head".toList).result = .ok (none, none) ∧
    (BeaconStateRoot silentService sampleJSON () "head".toList).result = .ok (none, none) :=
  have h := http_root_nil_without_body silentService sampleJSON ()
  ⟨h.1 "head".toList rfl, h.2 "head".toList (by decide) rfl⟩

/-- C12, the failing input. For the response `{"data":{"root":"0x01"}}`, whose
root decodes to one byte, `BeaconBlockRoot` and `BeaconStateRoot` both return,
with a nil error, the root `01 00 ... 00`: the single byte padded with 31
zero bytes. -/
theorem http_root_short_root_is_padded :
    (∃ root : FixedBytes 32,
      (BeaconBlockRoot (answeringService shortRootBody) sampleJSON () "head".toList).result
        = .ok (some root, none) ∧ root.val = 1 :: List.replicate 31 0) ∧
    (∃ root : FixedBytes 32,
      (BeaconStateRoot (answeringService shortRootBody) sampleJSON () "head".toList).result
        = .ok (some root, none) ∧ root.val = 1 :: List.replicate 31 0) := by
  constructor
  · exact ⟨⟨1 :: List.replicate 31 0, by decide⟩, by decide, rfl⟩
  · exact ⟨⟨1 :: List.replicate 31 0, by decide⟩, by decide, rfl⟩

/-- C13, the failing input. For the response `{}`, which has no `data`
object, `BeaconStateRoot` dereferences the nil `Data` and panics, whereas
`BeaconBlockRoot` returns the error `no data returned`. -/
theorem http_state_root_panics_without_data :
    (BeaconStateRoot (answeringService noDataBody) sampleJSON () "head".toList).result
      = .error .nilDereference ∧
    (BeaconBlockRoot (answeringService noDataBody) sampleJSON () "head".toList).result
      = .ok (none, some (.new "no data returned")) := by
  constructor <;> decide

/-- C14. A transport failure stays recoverable through the wrapping: for every
error `e` returned by the GET or POST, `BeaconBlockRoot`, `BeaconStateRoot`
(for a non-empty state ID) and `SubmitAggregateAttestations` (once the
aggregates are marshalled) return the error `e` wrapped under
`failed to request beacon block root`, `failed to request state root` and
`failed to submit aggregate and proofs`; the message of a wrapped error is the
wrapping message, `": "` and the message of `e`; `e` is in its chain; and
`errors.As` finds in it the `http.Error` that it finds in `e`, so an `e` that
is an `http.Error` is recovered with its four fields unchanged. -/
theorem http_transport_error_recoverable (s : Service Ctx Body) (json : JSONLib Body A)
    (ctx : Ctx) (e : GoError) :
    (∀ blockID body, s.get ctx (blockRootEndpoint blockID) = (body, some e) →
      (BeaconBlockRoot s json ctx blockID).result
        = .ok (none, some (.wrap e "failed to request beacon block root"))) ∧
    (∀ stateID body, stateID ≠ [] → s.get ctx (stateRootEndpoint stateID) = (body, some e) →
      (BeaconStateRoot s json ctx stateID).result
        = .ok (none, some (.wrap e "failed to request state root"))) ∧
    (∀ aggregateAndProofs specJSON body,
      json.marshalAggregates aggregateAndProofs = (specJSON, none) →
      s.post ctx aggregateAndProofsEndpoint specJSON = (body, some e) →
      (SubmitAggregateAttestations s json ctx aggregateAndProofs).result
        = .ok (some (.wrap e "failed to submit aggregate and proofs"))) ∧
    (∀ (message : String) (lib : GoError → String),
      (GoError.wrap e message).Error lib = message ++ ": " ++ e.Error lib ∧
      e ∈ (GoError.wrap e message).chain ∧
      errorsAsHTTP (.wrap e message) = errorsAsHTTP e) ∧
    (∀ statusCode data method endpoint (message : String),
      e = .http statusCode data method endpoint →
      errorsAsHTTP (.wrap e message) = some ⟨statusCode, data, method, endpoint⟩) := by
  refine ⟨?_, ?_, ?_, ?_, ?_⟩
  · intro blockID body h
    simp only [BeaconBlockRoot, h]
  · intro stateID body hne h
    simp only [BeaconStateRoot, hne, if_false, h]
  · intro aggregateAndProofs specJSON body hm h
    simp only [SubmitAggregateAttestations, hm, h]
  · intro message lib
    refine ⟨rfl, ?_, rfl⟩
    simp only [GoError.chain, List.mem_cons]
    exact Or.inr (goError_mem_chain_self e)
  · intro statusCode data method endpoint message he
    subst he
    rfl

/-- Witness for C14: against a node that fails every request with the
`http.Error` of status 418, the three operations return it wrapped, and
`errors.As` recovers it from the error of `BeaconBlockRoot`. -/
theorem http_transport_error_recoverable_witness :
    (BeaconBlockRoot teapotService sampleJSON () "head".toList).result
      = .ok (none, some (.wrap
          (.http 418 [100, 97, 116, 97] "GET".toList (blockRootEndpoint "head".toList))
          "failed to request beacon block root")) ∧
    (BeaconStateRoot teapotService sampleJSON () "head".toList).result
      = .ok (none, some (.wrap
          (.http 418 [100, 97, 116, 97] "GET".toList (stateRootEndpoint "head".toList))
          "failed to request state root")) ∧
    (SubmitAggregateAttestations teapotService sampleJSON () (some [])).result
      = .ok (some (.wrap
          (.http 418 [100, 97, 116, 97] "POST".toList aggregateAndProofsEndpoint)
          "failed to submit aggregate and proofs")) ∧
    errorsAsHTTP (.wrap
        (.http 418 [100, 97, 116, 97] "GET".toList (blockRootEndpoint "head".toList))
        "failed to request beacon block root")
      = some ⟨418, [100, 97, 116, 97], "GET".toList, blockRootEndpoint "head".toList⟩ :=
  ⟨(http_transport_error_recoverable teapotService sampleJSON () _).1 "head".toList none rfl,
   (http_transport_error_recoverable teapotService sampleJSON () _).2.1 "head".toList none
      (by decide) rfl,
   (http_transport_error_recoverable teapotService sampleJSON () _).2.2.1 (some []) [] none
      rfl rfl,
   (http_transport_error_recoverable teapotService sampleJSON ()
      (.http 418 [100, 97, 116, 97] "GET".toList (blockRootEndpoint "head".toList))).2.2.2.2
      418 [100, 97, 116, 97] "GET".toList (blockRootEndpoint "head".toList)
      "failed to request beacon block root" rfl⟩

end Http

/-! ## Delegation to the provider, dispatch and provider health -/

section DelegationTheorems

open Multi

/-- C15. The multi layer delegates the filtering by validator index to the
provider.  For every epoch (or state ID) and every index list, empty or not,
the closure of `ProposerDuties` (of `ValidatorBalances`) calls the provider of
the client with the caller's context, epoch (state ID) and index list
unchanged and returns the provider's value as it is; so, with a `doCall` that
runs the closure on a client, the wrapper returns exactly the provider's value
with a nil error when the provider returns no error, and a nil value with the
provider's error otherwise. -/
theorem multi_wrappers_delegate_filter {Ctx Duty Contribution : Type}
    (doCall : DoCall Ctx Duty Contribution) (ctx : Ctx)
    (client : Client Ctx Duty Contribution)
    (hdo : ∀ call, doCall ctx call none = call ctx client) :
    (∀ provider, client.proposerDutiesProvider = some provider →
      ∀ epoch validatorIndices,
        (∀ v, provider ctx epoch validatorIndices = (v, none) →
          proposerDutiesCall epoch validatorIndices ctx client
            = .ok (some (.proposerDuties v), none) ∧
          ProposerDuties doCall ctx epoch validatorIndices = .ok (v, none)) ∧
        (∀ v err, provider ctx epoch validatorIndices = (v, some err) →
          ProposerDuties doCall ctx epoch validatorIndices = .ok (none, some err))) ∧
    (∀ provider, client.validatorBalancesProvider = some provider →
      ∀ stateID validatorIndices,
        (∀ v, provider ctx stateID validatorIndices = (v, none) →
          validatorBalancesCall stateID validatorIndices ctx client
            = .ok (some (.validatorBalances v), none) ∧
          ValidatorBalances doCall ctx stateID validatorIndices = .ok (v, none)) ∧
        (∀ v err, provider ctx stateID validatorIndices = (v, some err) →
          ValidatorBalances doCall ctx stateID validatorIndices = .ok (none, some err))) := by
  constructor
  · intro provider hp epoch validatorIndices
    constructor
    · intro v hv
      have hc : proposerDutiesCall epoch validatorIndices ctx client
          = .ok (some (.proposerDuties v), none) := by
        simp only [proposerDutiesCall, hp, hv]
      exact ⟨hc, by simp only [ProposerDuties, hdo, hc]⟩
    · intro v err hv
      have hc : proposerDutiesCall epoch validatorIndices ctx client
          = .ok (none, some err) := by
        simp only [proposerDutiesCall, hp, hv]
      simp only [ProposerDuties, hdo, hc]
  · intro provider hp stateID validatorIndices
    constructor
    · intro v hv
      have hc : validatorBalancesCall stateID validatorIndices ctx client
          = .ok (some (.validatorBalances v), none) := by
        simp only [validatorBalancesCall, hp, hv]
      exact ⟨hc, by simp only [ValidatorBalances, hdo, hc]⟩
    · intro v err hv
      have hc : validatorBalancesCall stateID validatorIndices ctx client
          = .ok (none, some err) := by
        simp only [validatorBalancesCall, hp, hv]
      simp only [ValidatorBalances, hdo, hc]

/-- Witness for C15: with the single answering provider, `ProposerDuties` for
an empty index list and `ValidatorBalances` for the indices 1 and 2 return
what the provider returns. -/
theorem multi_wrappers_delegate_filter_witness :
    ProposerDuties (singleClientDoCall answeringClient) () 5 (some [])
      = .ok (some [some ()], none) ∧
    ValidatorBalances (singleClientDoCall answeringClient) () "head".toList (some [1, 2])
      = .ok (some [(1, 32000000000)], none) :=
  have h := multi_wrappers_delegate_filter (singleClientDoCall answeringClient) ()
    answeringClient (fun _ => rfl)
  ⟨((h.1 _ rfl 5 (some [])).1 _ rfl).2, ((h.2 _ rfl "head".toList (some [1, 2])).1 _ rfl).2⟩

end DelegationTheorems

namespace Dispatcher

variable {C V : Type}

theorem race_all_failed (callFn : C → ProviderOutcome V) (now : Nat)
    (errOf : Provider C → GoError) (ps : List (Provider C)) (errs : List (Nat × GoError))
    (reg : Registry C) (h : ∀ p ∈ ps, callFn p.client = .failed (errOf p)) :
    (race callFn now ps errs false reg).1
      = .error (.allProvidersFailed (errs ++ ps.map (fun p => (p.id, errOf p)))) := by
  induction ps generalizing errs reg with
  | nil => simp [race]
  | cons p ps ih =>
    have hp := h p (List.mem_cons_self _ _)
    simp only [race, hp]
    rw [ih _ _ (fun q hq => h q (List.mem_cons_of_mem _ hq))]
    simp

theorem eligible_nil_of_not_advertised (reg : Registry C) (cap : Capability) (now : Nat)
    (h : ∀ p ∈ reg.providers, cap ∉ p.capabilities) : reg.EligibleProviders cap now = [] := by
  simp only [Registry.EligibleProviders, List.filter_eq_nil_iff]
  intro p hp
  simp [Provider.eligible, h p hp]

/-- C16. Dispatching an operation when no provider advertises the required
capability fails immediately with `CapabilityUnavailable`: with zero providers
advertising proposer duties, the dispatch for that capability returns
`CapabilityUnavailable`, launches the call on no provider and leaves the
registry as it was, and `ProposerDuties` over that dispatch returns a nil value
together with the error that stands for `CapabilityUnavailable`. -/
theorem dispatch_capability_unavailable {Ctx Duty Contribution : Type}
    (reg : Registry (Multi.Client Ctx Duty Contribution)) (now : Nat)
    (order : List (Provider (Multi.Client Ctx Duty Contribution)) →
      List (Provider (Multi.Client Ctx Duty Contribution)))
    (h : ∀ p ∈ reg.providers, Capability.proposerDuties ∉ p.capabilities) :
    (∀ callFn : Multi.Client Ctx Duty Contribution →
        ProviderOutcome (Multi.Iface Duty Contribution),
      (Dispatch reg .proposerDuties callFn now order).result = .error .capabilityUnavailable ∧
      (Dispatch reg .proposerDuties callFn now order).called = [] ∧
      (Dispatch reg .proposerDuties callFn now order).registry = reg) ∧
    (∀ panicError asError ctx epoch validatorIndices,
      Multi.ProposerDuties (dispatchDoCall reg .proposerDuties now order panicError asError)
        ctx epoch validatorIndices = .ok (none, some (asError .capabilityUnavailable))) := by
  have he := eligible_nil_of_not_advertised reg .proposerDuties now h
  have hd : ∀ callFn : Multi.Client Ctx Duty Contribution →
      ProviderOutcome (Multi.Iface Duty Contribution),
      Dispatch reg .proposerDuties callFn now order = ⟨.error .capabilityUnavailable, [], reg⟩ := by
    intro callFn
    simp only [Dispatch, he]
  constructor
  · intro callFn
    rw [hd callFn]
    exact ⟨rfl, rfl, rfl⟩
  · intro panicError asError ctx epoch validatorIndices
    simp only [Multi.ProposerDuties, dispatchDoCall, hd]

/-- Witness for C16: the registry of two providers of validator balances has
no provider of proposer duties, and `ProposerDuties` over it returns the error
that stands for `CapabilityUnavailable`. -/
theorem dispatch_capability_unavailable_witness :
    Multi.ProposerDuties
        (dispatchDoCall balancesRegistry .proposerDuties 0 id (fun _ => .external 0)
          sampleAsError) () 5 none
      = .ok (none, some (.external 100)) :=
  (dispatch_capability_unavailable balancesRegistry 0 id (by decide)).2
    (fun _ => .external 0) sampleAsError () 5 none

/-- C17. For every `N ≥ 1` eligible providers that all fail, `Dispatch` returns
`AllProvidersFailed` and no value; the failure carries exactly `N` provider
errors, one for each eligible provider and each the error of that provider's
call verbatim, in the order in which the calls completed. -/
theorem dispatch_all_providers_failed (reg : Registry C) (cap : Capability)
    (callFn : C → ProviderOutcome V) (now : Nat)
    (order : List (Provider C) → List (Provider C)) (errOf : Provider C → GoError)
    (hperm : ∀ l, (order l).Perm l) (hne : reg.EligibleProviders cap now ≠ [])
    (hfail : ∀ p ∈ reg.EligibleProviders cap now, callFn p.client = .failed (errOf p)) :
    (Dispatch reg cap callFn now order).result
      = .error (.allProvidersFailed
          ((order (reg.EligibleProviders cap now)).map (fun p => (p.id, errOf p)))) ∧
    ((order (reg.EligibleProviders cap now)).map (fun p => (p.id, errOf p))).length
      = (reg.EligibleProviders cap now).length ∧
    (∀ p ∈ reg.EligibleProviders cap now,
      (p.id, errOf p) ∈ (order (reg.EligibleProviders cap now)).map (fun p => (p.id, errOf p))) := by
  refine ⟨?_, ?_, ?_⟩
  · cases he : reg.EligibleProviders cap now with
    | nil => exact absurd he hne
    | cons p ps =>
      simp only [Dispatch, he]
      rw [race_all_failed callFn now errOf]
      · simp
      · intro q hq
        apply hfail
        rw [he]
        exact (hperm _).subset hq
  · rw [List.length_map]
    exact (hperm _).length_eq
  · intro p hp
    exact List.mem_map.2 ⟨p, (hperm _).mem_iff.2 hp, rfl⟩

/-- Witness for C17: the two providers of validator balances both fail with
`external 1`, and the dispatch returns `AllProvidersFailed` with the two
errors. -/
theorem dispatch_all_providers_failed_witness :
    (Dispatch balancesRegistry .validatorBalances
        (fun _ => (ProviderOutcome.failed (.external 1) : ProviderOutcome Nat)) 0 id).result
      = .error (.allProvidersFailed [(1, .external 1), (2, .external 1)]) :=
  (dispatch_all_providers_failed balancesRegistry .validatorBalances
    (fun _ => (ProviderOutcome.failed (.external 1) : ProviderOutcome Nat)) 0 id
    (fun _ => .external 1) (fun _ => List.Perm.refl _)
    (fun h => absurd (congrArg List.length h) (by decide))
    (fun _ _ => rfl)).1

end Dispatcher

namespace Dispatcher

variable {C V : Type}

theorem reportFailure_thrice (p : Provider C) (t1 t2 t3 : Nat) (h0 : p.failures = 0) :
    (((p.reportFailure 3 t1).reportFailure 3 t2).reportFailure 3 t3).health = .inactive ∧
    (((p.reportFailure 3 t1).reportFailure 3 t2).reportFailure 3 t3).lastFailure = t3 ∧
    (((p.reportFailure 3 t1).reportFailure 3 t2).reportFailure 3 t3).failures = 3 ∧
    (((p.reportFailure 3 t1).reportFailure 3 t2).reportFailure 3 t3).capabilities
      = p.capabilities ∧
    (((p.reportFailure 3 t1).reportFailure 3 t2).reportFailure 3 t3).id = p.id := by
  simp [Provider.reportFailure, h0]

/-- C18. Provider health is a failure-counting state machine with `K = 3`.  A
provider whose counter of consecutive failures is zero keeps its health state
through two reported failures and becomes `Inactive`, with the counter at 3,
at the third; from then on it is not eligible for any capability before the
cooldown counted from that failure has elapsed, and it is eligible again for
the capabilities it advertises once the cooldown has elapsed.  In a registry
with threshold 3 in which the providers of some identifier have a zero
counter, three reported failures for that identifier leave no provider of
that identifier in the eligible set of a dispatch before the cooldown has
elapsed.  A single reported success resets the counter of any provider to 0
and restores `Active` at once, so the provider is eligible for the
capabilities it advertises. -/
theorem provider_health_state_machine (cap : Capability) (cooldown t1 t2 t3 : Nat) :
    (∀ p : Provider C, p.failures = 0 →
      ((p.reportFailure 3 t1).reportFailure 3 t2).health = p.health ∧
      (((p.reportFailure 3 t1).reportFailure 3 t2).reportFailure 3 t3).health = .inactive ∧
      (((p.reportFailure 3 t1).reportFailure 3 t2).reportFailure 3 t3).failures = 3 ∧
      (∀ now, now < t3 + cooldown →
        (((p.reportFailure 3 t1).reportFailure 3 t2).reportFailure 3 t3).eligible cap cooldown now
          = false) ∧
      (∀ now, t3 + cooldown ≤ now → cap ∈ p.capabilities →
        (((p.reportFailure 3 t1).reportFailure 3 t2).reportFailure 3 t3).eligible cap cooldown now
          = true)) ∧
    (∀ (reg : Registry C) (providerID : Nat), reg.threshold = 3 → reg.cooldown = cooldown →
      (∀ p ∈ reg.providers, p.id = providerID → p.failures = 0) →
      ∀ now, now < t3 + cooldown →
      ∀ q ∈ (((reg.ReportFailure providerID t1).ReportFailure providerID t2).ReportFailure
          providerID t3).EligibleProviders cap now, q.id ≠ providerID) ∧
    (∀ q : Provider C,
      q.reportSuccess.failures = 0 ∧ q.reportSuccess.health = .active ∧
      (cap ∈ q.capabilities → ∀ now, q.reportSuccess.eligible cap cooldown now = true)) := by
  refine ⟨?_, ?_, ?_⟩
  · intro p h0
    obtain ⟨hh, hl, hf, hc, _⟩ := reportFailure_thrice p t1 t2 t3 h0
    refine ⟨by simp [Provider.reportFailure, h0], hh, hf, ?_, ?_⟩
    · intro now hnow
      simp only [Provider.eligible, hh, hl]
      have : ¬ t3 + cooldown ≤ now := by omega
      simp [this]
    · intro now hnow hcap
      simp only [Provider.eligible, hh, hl, hc]
      simp [hnow, hcap]
  · intro reg providerID hK hT hzero now hnow q hq
    simp only [Registry.EligibleProviders, Registry.ReportFailure, List.mem_filter,
      List.mem_map, List.map_map, hK, hT] at hq
    obtain ⟨⟨p, hp, hpq⟩, helig⟩ := hq
    by_cases hid : p.id = providerID
    · exfalso
      obtain ⟨hh, hl, hf, hc, hi⟩ := reportFailure_thrice p t1 t2 t3 (hzero p hp hid)
      have hq3 : q = ((p.reportFailure 3 t1).reportFailure 3 t2).reportFailure 3 t3 := by
        rw [← hpq]
        simp [Function.comp, hid, Provider.reportFailure]
      rw [hq3] at helig
      simp only [Provider.eligible, hh, hl] at helig
      have : ¬ t3 + cooldown ≤ now := by omega
      simp [this] at helig
    · have hq0 : q = p := by
        rw [← hpq]
        simp [Function.comp, hid]
      rw [hq0]
      exact hid
  · intro q
    refine ⟨rfl, rfl, ?_⟩
    intro hcap now
    simp [Provider.eligible, Provider.reportSuccess, hcap]

/-- Witness for C18: the first provider of the sample registry, which has no
failure, is `Inactive` after failures at times 10, 11 and 12, is not eligible
at time 41 and is eligible again at time 42, the cooldown being 30. -/
theorem provider_health_state_machine_witness :
    ((((balancesProvider 1).reportFailure 3 10).reportFailure 3 11).reportFailure 3 12).health
      = .inactive ∧
    ((((balancesProvider 1).reportFailure 3 10).reportFailure 3 11).reportFailure 3
      12).eligible .validatorBalances 30 41 = false ∧
    ((((balancesProvider 1).reportFailure 3 10).reportFailure 3 11).reportFailure 3
      12).eligible .validatorBalances 30 42 = true ∧
    (∀ q ∈ (((balancesRegistry.ReportFailure 1 10).ReportFailure 1 11).ReportFailure
        1 12).EligibleProviders .validatorBalances 41, q.id ≠ 1) :=
  have h := provider_health_state_machine (C := Multi.Client Unit Unit Unit)
    .validatorBalances 30 10 11 12
  have hp := h.1 (balancesProvider 1) rfl
  ⟨hp.2.1, hp.2.2.2.1 41 (by decide), hp.2.2.2.2 42 (by decide) (by decide),
    h.2.1 balancesRegistry 1 rfl rfl (by decide) 41 (by decide)⟩

end Dispatcher

namespace Phase0

open Deneb

theorem unpackEpoch_inv (data : checkpointJSON) (c : Checkpoint)
    (h : (unpackEpoch data c).2 = none) :
    data.Epoch ≠ [] ∧ (ParseUint data.Epoch).2 = none ∧
      (unpackEpoch data c).1 = { c with Epoch := (ParseUint data.Epoch).1 } := by
  unfold unpackEpoch at h ⊢
  by_cases hs : data.Epoch = []
  · simp [hs] at h
  · rw [if_neg hs] at h ⊢
    rcases hP : ParseUint data.Epoch with ⟨v, _ | err⟩
    · simp [hs]
    · simp [hP] at h

theorem unpackRoot_inv (data : checkpointJSON) (c : Checkpoint)
    (h : (unpackRoot data c).2 = none) :
    ∃ (b : List Byte) (hb : b.length = 32), data.Root ≠ [] ∧
      DecodeString (TrimPrefix data.Root ['0', 'x']) = .ok b ∧
      (unpackRoot data c).1 = { c with Root := ⟨b, hb⟩ } := by
  unfold unpackRoot at h ⊢
  split at h
  · simp at h
  · rename_i b heq
    have h1 := (decodeFixed_ok_iff _ _ _ _ _ _).1 heq
    refine ⟨b, h1.2.2, h1.1, h1.2.1, ?_⟩
    simp only [heq, copyBytes_eq _ b h1.2.2]

theorem checkpoint_unpack_success (c0 : Checkpoint) (data : checkpointJSON)
    (h : (c0.unpack data).2 = none) :
    ∃ root : FixedBytes 32,
      (data.Epoch ≠ [] ∧ (ParseUint data.Epoch).2 = none) ∧
      (data.Root ≠ [] ∧ DecodeString (TrimPrefix data.Root ['0', 'x']) = .ok root.val) ∧
      (c0.unpack data).1 = { Epoch := (ParseUint data.Epoch).1, Root := root } := by
  have hu : c0.unpack data = runSteps [unpackEpoch data, unpackRoot data] c0 := rfl
  rw [hu] at h ⊢
  obtain ⟨c1, h1, hs, hr⟩ := runSteps_cons_inv2 _ _ _ h
  rw [hr] at h ⊢
  obtain ⟨hn1, hp1, he1⟩ := unpackEpoch_inv data c0 h1
  rw [hs] at he1
  clear h1 hs hr
  obtain ⟨c2, h1, hs, hr⟩ := runSteps_cons_inv2 _ _ _ h
  rw [hr] at h ⊢
  obtain ⟨b, hb, hn2, hd2, he2⟩ := unpackRoot_inv data c1 h1
  rw [hs] at he2
  clear h1 hs hr
  refine ⟨⟨b, hb⟩, ⟨hn1, hp1⟩, ⟨hn2, hd2⟩, ?_⟩
  simp only [runSteps]
  rw [he2, he1]

/-- C19. Checkpoint JSON round trip.  For every input in canonical form, the
object `{"epoch":"<epoch>","root":"<root>"}` whose epoch is a decimal string
without a leading zero (or `0`) and whose root is `0x` and 64 lower-case
hexadecimal digits, that `Checkpoint.unpack` accepts: the record which
`MarshalJSON` builds from the decoded checkpoint is the input record, so its
JSON text is the input text byte for byte.  A record with an absent epoch is
rejected with `epoch missing`, one with an absent root is rejected, one whose
epoch is present and not made of decimal digits is rejected under
`invalid value for epoch`, and one whose root decodes to a number of bytes
other than 32 is rejected. -/
theorem checkpoint_json_round_trip (c0 : Checkpoint) (data : checkpointJSON) :
    (canonicalDecimal data.Epoch → canonicalRoot data.Root → (c0.unpack data).2 = none →
      (c0.unpack data).1.MarshalJSON = data ∧
      (c0.unpack data).1.MarshalJSON.text = data.text) ∧
    (data.Epoch = [] → (c0.unpack data).2 = some (.new "epoch missing")) ∧
    (data.Root = [] → (c0.unpack data).2 ≠ none) ∧
    (data.Epoch ≠ [] → allDigits data.Epoch = false →
      ∃ err, (c0.unpack data).2 = some (.wrap err "invalid value for epoch")) ∧
    (∀ b, DecodeString (TrimPrefix data.Root ['0', 'x']) = .ok b → b.length ≠ 32 →
      (c0.unpack data).2 ≠ none) := by
  have hu : c0.unpack data = runSteps [unpackEpoch data, unpackRoot data] c0 := rfl
  refine ⟨?_, ?_, ?_, ?_, ?_⟩
  · intro hepoch hroot hok
    obtain ⟨root, ⟨_, hp⟩, ⟨_, hd⟩, hres⟩ := checkpoint_unpack_success c0 data hok
    obtain ⟨hne, hall, hcanon⟩ := hepoch
    obtain ⟨digits, hr, hlen, hlow⟩ := hroot
    rw [hr, TrimPrefix_0x] at hd
    have hlow' : ∀ c ∈ digits,
        (48 ≤ c.toNat ∧ c.toNat ≤ 57) ∨ (97 ≤ c.toNat ∧ c.toNat ≤ 102) := by
      intro c hc
      have := List.all_eq_true.1 hlow c hc
      simpa [isLowerHexDigit] using this
    have hhex := hexDigits_DecodeString digits root.val hlow' hd
    have hrootne : root.val ≠ [] := by
      intro h0
      have := root.property
      rw [h0] at this
      simp at this
    have hm : (c0.unpack data).1.MarshalJSON = data := by
      rw [hres]
      simp only [Checkpoint.MarshalJSON, ParseUint_value _ hp,
        SprintfDec_decValue _ hne hall hcanon, SprintfHex_of_ne_nil _ hrootne, hhex, ← hr]
    exact ⟨hm, by rw [hm]⟩
  · intro h0
    rw [hu]
    simp [runSteps, unpackEpoch, h0]
  · intro h0 hok
    obtain ⟨_, _, ⟨hne, _⟩, _⟩ := checkpoint_unpack_success c0 data hok
    exact hne h0
  · intro hne hnd
    have hperr : (ParseUint data.Epoch).2 ≠ none := by
      intro hp
      have := ((ParseUint_ok_iff _).1 hp).2.1
      rw [hnd] at this
      exact absurd this (by simp)
    rcases hP : ParseUint data.Epoch with ⟨v, _ | err⟩
    · rw [hP] at hperr
      exact absurd rfl hperr
    · refine ⟨err, ?_⟩
      rw [hu]
      simp [runSteps, unpackEpoch, hne, hP]
  · intro b hd hl hok
    obtain ⟨root, _, ⟨_, hd2⟩, _⟩ := checkpoint_unpack_success c0 data hok
    rw [hd] at hd2
    cases hd2
    exact hl root.property

/-- Witness for C19: the accepted input of the test,
`{"epoch":"1","root":"0x0001...1f"}`, is accepted and marshalled back to the
same text. -/
theorem checkpoint_json_round_trip_witness :
    (Checkpoint.zero.unpack sampleCheckpointJSON).1.MarshalJSON = sampleCheckpointJSON ∧
    (Checkpoint.zero.unpack sampleCheckpointJSON).1.MarshalJSON.text
      = ("\x7b\"epoch\":\"1\",\"root\":\"0x000102030405060708090a0b0c0d0e0f" ++
          "101112131415161718191a1b1c1d1e1f\"\x7d").toList :=
  (checkpoint_json_round_trip Checkpoint.zero sampleCheckpointJSON).1
    ⟨by decide, by decide, Or.inr (by decide)⟩
    ⟨"000102030405060708090a0b0c0d0e0f101112131415161718191a1b1c1d1e1f".toList, by decide,
      by decide, by decide⟩
    (by decide)

end Phase0

/-! ## Lemmas on the 256-bit parsers -/

theorem hexValue_bound (ds : List Char) (n v : Nat) (h : hexValue ds n = some v) :
    v < (n + 1) * 16 ^ ds.length := by
  induction ds generalizing n with
  | nil =>
    simp only [hexValue, Option.some.injEq] at h
    subst h
    simp
  | cons c cs ih =>
    unfold hexValue at h
    cases hc : fromHexChar c with
    | none => simp [hc] at h
    | some d =>
      simp only [hc] at h
      have h1 := ih _ h
      have hd : d.val < 16 := d.isLt
      have h2 : (n * 16 + d.val + 1) * 16 ^ cs.length ≤ ((n + 1) * 16) * 16 ^ cs.length :=
        Nat.mul_le_mul_right _ (by omega)
      rw [List.length_cons, pow_succ]
      calc v < (n * 16 + d.val + 1) * 16 ^ cs.length := h1
        _ ≤ ((n + 1) * 16) * 16 ^ cs.length := h2
        _ = (n + 1) * (16 ^ cs.length * 16) := by ring

theorem FromHex_ok (ds : List Char) (r : Option Nat)
    (h : FromHex ('0' :: 'x' :: ds) = (r, none)) :
    ∃ v, r = some v ∧ hexValue ds 0 = some v ∧ v < 2 ^ 256 ∧ ds.length ≤ 64 := by
  unfold FromHex at h
  cases hc : checkNumberS ('0' :: 'x' :: ds) with
  | some err => simp [hc] at h
  | none =>
    simp only [hc] at h
    simp only [List.length_cons, List.drop_succ_cons, List.drop_zero] at h
    by_cases hl : ds.length + 1 + 1 > 66
    · rw [if_pos hl] at h
      simp at h
    · rw [if_neg hl] at h
      cases hv : hexValue ds 0 with
      | none => simp [hv] at h
      | some v =>
        simp only [hv, Prod.mk.injEq, and_true] at h
        have hlen : ds.length ≤ 64 := by omega
        have hb := hexValue_bound ds 0 v hv
        have hp : 16 ^ ds.length ≤ 16 ^ 64 := Nat.pow_le_pow_right (by norm_num) hlen
        have h64 : (16 : Nat) ^ 64 = 2 ^ 256 := by norm_num
        have hlt : v < 2 ^ 256 := by omega
        exact ⟨v, by rw [← h, Nat.mod_eq_of_lt hlt], rfl, hlt, hlen⟩

theorem FromHex_too_long (ds : List Char) (h : 64 < ds.length) :
    (FromHex ('0' :: 'x' :: ds)).2 ≠ none := by
  unfold FromHex
  cases hc : checkNumberS ('0' :: 'x' :: ds) with
  | some err => simp
  | none =>
    have hl : ds.length + 1 + 1 > 66 := by omega
    simp only [List.length_cons, if_pos hl]
    simp

theorem dropLeadingZeros_spec (s : List Char) (hne : s ≠ []) (hall : allDigits s = true) :
    dropLeadingZeros s ≠ [] ∧ allDigits (dropLeadingZeros s) = true ∧
    decValue (dropLeadingZeros s) = decValue s ∧
    (dropLeadingZeros s = ['0'] ∨
      ∃ c r, dropLeadingZeros s = c :: r ∧ 49 ≤ c.toNat) := by
  induction s with
  | nil => exact absurd rfl hne
  | cons c cs ih =>
    have hall' := hall
    rw [allDigits_cons] at hall'
    cases cs with
    | nil =>
      have hd : dropLeadingZeros [c] = [c] := rfl
      rw [hd]
      refine ⟨by simp, hall, rfl, ?_⟩
      by_cases hc : c = '0'
      · exact Or.inl (by rw [hc])
      · refine Or.inr ⟨c, [], rfl, ?_⟩
        by_contra hlt
        apply hc
        apply char_eq_of_toNat_eq
        have : ('0' : Char).toNat = 48 := by decide
        omega
    | cons d ds =>
      by_cases hc : c = '0'
      · have hd : dropLeadingZeros (c :: d :: ds) = dropLeadingZeros (d :: ds) := by
          simp [dropLeadingZeros, hc]
        rw [hd]
        obtain ⟨i1, i2, i3, i4⟩ := ih (by simp) hall'.2
        refine ⟨i1, i2, ?_, i4⟩
        rw [i3, decValue_cons c, hc]
        have : ('0' : Char).toNat = 48 := by decide
        simp [this]
      · rw [dropLeadingZeros_of_ne c _ hc]
        refine ⟨by simp, hall, rfl, Or.inr ⟨c, d :: ds, rfl, ?_⟩⟩
        by_contra hlt
        apply hc
        apply char_eq_of_toNat_eq
        have : ('0' : Char).toNat = 48 := by decide
        omega

theorem not_strGt_decValue (a b : List Char) (hlen : a.length = b.length)
    (ha : allDigits a = true) (hb : allDigits b = true) (h : strGt a b = false) :
    decValue a ≤ decValue b := by
  induction a generalizing b with
  | nil =>
    cases b with
    | nil => simp
    | cons y ys => simp at hlen
  | cons x xs ih =>
    cases b with
    | nil => simp at hlen
    | cons y ys =>
      rw [allDigits_cons] at ha hb
      have hl : xs.length = ys.length := by simpa using hlen
      rw [decValue_cons, decValue_cons, hl]
      have hxs := decValue_lt_pow xs ha.2
      rw [hl] at hxs
      unfold strGt at h
      by_cases h1 : x.toNat > y.toNat
      · rw [if_pos h1] at h
        exact absurd h (by simp)
      · rw [if_neg h1] at h
        by_cases h2 : x.toNat < y.toNat
        · have : (x.toNat - 48 + 1) * 10 ^ ys.length ≤ (y.toNat - 48) * 10 ^ ys.length :=
            Nat.mul_le_mul_right _ (by omega)
          rw [Nat.add_mul] at this
          omega
        · rw [if_neg h2] at h
          have h3 := ih ys hl ha.2 hb.2 h
          have : x.toNat = y.toNat := by omega
          rw [this]
          omega

theorem fromDecimal_of_digits (s : List Char) (hne : s ≠ []) (hall : allDigits s = true)
    (hlt : decValue s < 2 ^ 256) : fromDecimal s = (some (decValue s), none) := by
  unfold fromDecimal
  simp only [hne, if_false, hall, if_true, Nat.mod_eq_of_lt hlt]

theorem digit_cases (c : Char) (h : 48 ≤ c.toNat ∧ c.toNat ≤ 57) :
    c = '0' ∨ c = '1' ∨ c = '2' ∨ c = '3' ∨ c = '4' ∨ c = '5' ∨ c = '6' ∨ c = '7' ∨
      c = '8' ∨ c = '9' := by
  have h0 : c.toNat = 48 ∨ c.toNat = 49 ∨ c.toNat = 50 ∨ c.toNat = 51 ∨ c.toNat = 52 ∨
      c.toNat = 53 ∨ c.toNat = 54 ∨ c.toNat = 55 ∨ c.toNat = 56 ∨ c.toNat = 57 := by omega
  rcases h0 with h | h | h | h | h | h | h | h | h | h
  · exact Or.inl (char_eq_of_toNat_eq _ _ h)
  · exact Or.inr (Or.inl (char_eq_of_toNat_eq _ _ h))
  · exact Or.inr (Or.inr (Or.inl (char_eq_of_toNat_eq _ _ h)))
  · exact Or.inr (Or.inr (Or.inr (Or.inl (char_eq_of_toNat_eq _ _ h))))
  · exact Or.inr (Or.inr (Or.inr (Or.inr (Or.inl (char_eq_of_toNat_eq _ _ h)))))
  · exact Or.inr (Or.inr (Or.inr (Or.inr (Or.inr (Or.inl (char_eq_of_toNat_eq _ _ h))))))
  · exact Or.inr (Or.inr (Or.inr (Or.inr (Or.inr (Or.inr (Or.inl
      (char_eq_of_toNat_eq _ _ h)))))))
  · exact Or.inr (Or.inr (Or.inr (Or.inr (Or.inr (Or.inr (Or.inr (Or.inl
      (char_eq_of_toNat_eq _ _ h))))))))
  · exact Or.inr (Or.inr (Or.inr (Or.inr (Or.inr (Or.inr (Or.inr (Or.inr (Or.inl
      (char_eq_of_toNat_eq _ _ h)))))))))
  · exact Or.inr (Or.inr (Or.inr (Or.inr (Or.inr (Or.inr (Or.inr (Or.inr (Or.inr
      (char_eq_of_toNat_eq _ _ h)))))))))

theorem FromDecimal_of_digits_unfold (t : List Char) (ht : allDigits t = true) :
      FromDecimal t =
        if (dropLeadingZeros t).length < twoPow256Sub1.length then
          fromDecimal (dropLeadingZeros t)
        else if (dropLeadingZeros t).length = twoPow256Sub1.length then
          if strGt (dropLeadingZeros t) twoPow256Sub1 then
            (none, some (.uint256Err "hex number > 256 bits"))
          else fromDecimal (dropLeadingZeros t)
        else (none, some (.uint256Err "hex number > 256 bits")) := by
    cases t with
    | nil => rfl
    | cons c rest =>
      rw [allDigits_cons] at ht
      rcases digit_cases c ht.1 with h | h | h | h | h | h | h | h | h | h <;>
        · subst h
          rfl

theorem FromDecimal_digits (s : List Char) (hne : s ≠ []) (hall : allDigits s = true) :
    (decValue s < 2 ^ 256 → FromDecimal s = (some (decValue s), none)) ∧
    (2 ^ 256 ≤ decValue s → (FromDecimal s).2 ≠ none) := by
  obtain ⟨i1, i2, i3, i4⟩ := dropLeadingZeros_spec s hne hall
  have hbound := decValue_lt_pow _ i2
  have h78 : (2 : Nat) ^ 256 < 10 ^ 78 := by norm_num
  have h77 : (10 : Nat) ^ 77 < 2 ^ 256 := by norm_num
  rw [FromDecimal_of_digits_unfold s hall]
  simp only [twoPow256Sub1_length]
  by_cases h1 : (dropLeadingZeros s).length < 78
  · rw [if_pos h1]
    have hp : 10 ^ (dropLeadingZeros s).length ≤ 10 ^ 77 :=
      Nat.pow_le_pow_right (by norm_num) (by omega)
    have hlt : decValue (dropLeadingZeros s) < 2 ^ 256 := by omega
    constructor
    · intro _
      rw [fromDecimal_of_digits _ i1 i2 hlt, i3]
    · intro hge
      rw [i3] at hlt
      omega
  · rw [if_neg h1]
    by_cases h2 : (dropLeadingZeros s).length = 78
    · rw [if_pos h2]
      cases hs : strGt (dropLeadingZeros s) twoPow256Sub1 with
      | true =>
        have := strGt_decValue _ _ (by rw [h2, twoPow256Sub1_length]) i2
          twoPow256Sub1_allDigits hs
        rw [twoPow256Sub1_value, i3] at this
        constructor
        · intro hlt
          omega
        · intro _
          simp
      | false =>
        have := not_strGt_decValue _ _ (by rw [h2, twoPow256Sub1_length]) i2
          twoPow256Sub1_allDigits hs
        rw [twoPow256Sub1_value] at this
        have hlt : decValue (dropLeadingZeros s) < 2 ^ 256 := by
          have : 0 < 2 ^ 256 := by norm_num
          omega
        constructor
        · intro _
          simp only [Bool.false_eq_true, if_false]
          rw [fromDecimal_of_digits _ i1 i2 hlt, i3]
        · intro hge
          rw [i3] at hlt
          omega
    · rw [if_neg h2]
      constructor
      · intro hlt
        exfalso
        rcases i4 with h0 | ⟨c, r, hcr, hc⟩
        · rw [h0] at h1
          simp at h1
        · have hge := decValue_ge_pow_of_head c r hc
          rw [← hcr, i3] at hge
          have hlen : 78 ≤ r.length := by
            rw [hcr] at h1 h2
            simp only [List.length_cons] at h1 h2
            omega
          have hp : 10 ^ 78 ≤ 10 ^ r.length := Nat.pow_le_pow_right (by norm_num) hlen
          omega
      · intro _
        simp

theorem FromDecimal_ok_lt (s : List Char) (r : Option Nat) (h : FromDecimal s = (r, none)) :
    ∃ v, r = some v ∧ v < 2 ^ 256 := by
  have hfd : ∀ t r1, fromDecimal t = (r1, none) → ∃ v, r1 = some v ∧ v < 2 ^ 256 := by
    intro t r1 ht
    unfold fromDecimal at ht
    by_cases h0 : t = []
    · simp [h0] at ht
    · rw [if_neg h0] at ht
      by_cases ha : allDigits t = true
      · rw [if_pos ha] at ht
        simp only [Prod.mk.injEq, and_true] at ht
        exact ⟨_, ht.symm, Nat.mod_lt _ (by norm_num)⟩
      · rw [if_neg ha] at ht
        simp at ht
  unfold FromDecimal at h
  simp only at h
  split at h
  · exact hfd _ _ h
  · split at h
    · split at h
      · simp at h
      · exact hfd _ _ h
    · simp at h

theorem FromDecimal_0x (ds : List Char) : (FromDecimal ('0' :: 'x' :: ds)).2 ≠ none := by
  have hx : ('x' : Char) ≠ '0' := by decide
  have hfd : (fromDecimal ('x' :: ds)).2 ≠ none := by
    unfold fromDecimal
    have ha : allDigits ('x' :: ds) = false := by
      cases h : allDigits ('x' :: ds) with
      | false => rfl
      | true =>
        rw [allDigits_cons] at h
        have : ('x' : Char).toNat = 120 := by decide
        omega
    simp [ha]
  have hd : dropLeadingZeros ('0' :: 'x' :: ds) = 'x' :: ds := by
    have : dropLeadingZeros ('0' :: 'x' :: ds) = dropLeadingZeros ('x' :: ds) := by
      simp [dropLeadingZeros]
    rw [this, dropLeadingZeros_of_ne _ _ hx]
  have hunf : FromDecimal ('0' :: 'x' :: ds) =
      if (dropLeadingZeros ('0' :: 'x' :: ds)).length < twoPow256Sub1.length then
        fromDecimal (dropLeadingZeros ('0' :: 'x' :: ds))
      else if (dropLeadingZeros ('0' :: 'x' :: ds)).length = twoPow256Sub1.length then
        if strGt (dropLeadingZeros ('0' :: 'x' :: ds)) twoPow256Sub1 then
          (none, some (.uint256Err "hex number > 256 bits"))
        else fromDecimal (dropLeadingZeros ('0' :: 'x' :: ds))
      else (none, some (.uint256Err "hex number > 256 bits")) := rfl
  rw [hunf, hd]
  split
  · exact hfd
  · split
    · split
      · simp
      · exact hfd
    · simp

namespace Deneb

variable {W : Type} {T : BodyTypes}

/-! ## Encoding of empty transactions, the body round trip and the YAML path -/

theorem runSteps_cons_err {σ : Type} (f : Step σ) (fs : List (Step σ)) (st st1 : σ)
    (err : GoError) (h : f st = (st1, some err)) : runSteps (f :: fs) st = (st1, some err) := by
  simp only [runSteps, h]

theorem decodeTransactions_SprintfHex_empty (i : Nat) (txs : List (List Byte))
    (h : [] ∈ txs) :
    decodeTransactions i (txs.map SprintfHex) = .error (.new "transaction missing") := by
  induction txs generalizing i with
  | nil => simp at h
  | cons t ts ih =>
    by_cases ht : t = []
    · subst ht
      simp [decodeTransactions, SprintfHex]
    · have hts : [] ∈ ts := by
        rcases List.mem_cons.1 h with h1 | h1
        · exact absurd h1.symm ht
        · exact h1
      have hne : SprintfHex t ≠ [] := by
        rw [SprintfHex_of_ne_nil t ht]
        simp
      have hne0 : SprintfHex t ≠ ['0'] := by
        rw [SprintfHex_of_ne_nil t ht]
        simp
      have hd : DecodeString (TrimPrefix (SprintfHex t) ['0', 'x']) = .ok t := by
        rw [SprintfHex_of_ne_nil t ht, TrimPrefix_0x, DecodeString_hexDigits]
      simp only [List.map_cons, decodeTransactions, hne, hne0, if_false, hd, ih (i + 1) hts]

/-- C21. An empty transaction does not survive encoding.  `%#x` prints nothing
for an empty byte slice, so for every payload `e` with an empty transaction
(and with `BaseFeePerGas` and `ExcessDataGas` set, without which `MarshalJSON`
dereferences nil) the record that `MarshalJSON` builds holds the empty string
in the list of transactions, and `unpack` applied to that record fails on any
receiver; the error is `transaction missing` when the fields before the
transactions are read back without error, which is so when the `String()`
methods print `0x` and the hexadecimal digits, the numeric fields are in the
range of their Go types and `ExtraData` has at most 32 bytes. -/
theorem executionPayload_empty_transaction_lost (S : Stringers) (e0 e : ExecutionPayload W)
    (txs : List (List Byte)) (htxs : e.Transactions = some txs) (hempty : [] ∈ txs)
    (hbf : e.BaseFeePerGas ≠ none) (heg : e.ExcessDataGas ≠ none) :
    SprintfHex [] = [] ∧
    ∃ data, e.MarshalJSON S = .ok data ∧
      data.Transactions = some (txs.map SprintfHex) ∧ [] ∈ txs.map SprintfHex ∧
      (e0.unpack data).2 ≠ none ∧
      (S.Hex → e.InRange → sliceLen e.ExtraData ≤ 32 →
        (e0.unpack data).2 = some (.new "transaction missing")) := by
  obtain ⟨bf, hbf1⟩ := Option.ne_none_iff_exists'.1 hbf
  obtain ⟨eg, heg1⟩ := Option.ne_none_iff_exists'.1 heg
  have hm : e.MarshalJSON S = .ok
      { ParentHash := S.hash32 e.ParentHash
        FeeRecipient := S.executionAddress e.FeeRecipient
        StateRoot := S.root e.StateRoot
        ReceiptsRoot := S.root e.ReceiptsRoot
        LogsBloom := SprintfHex e.LogsBloom.val
        PrevRandao := SprintfHex e.PrevRandao.val
        BlockNumber := SprintfDec e.BlockNumber
        GasLimit := SprintfDec e.GasLimit
        GasUsed := SprintfDec e.GasUsed
        Timestamp := SprintfDec e.Timestamp
        ExtraData := if sliceLen e.ExtraData > 0 then SprintfHex (sliceElems e.ExtraData)
          else ['0', 'x']
        BaseFeePerGas := SprintfDec bf
        BlockHash := S.hash32 e.BlockHash
        Transactions := some (txs.map SprintfHex)
        Withdrawals := e.Withdrawals
        ExcessDataGas := SprintfDec eg } := by
    simp only [ExecutionPayload.MarshalJSON, hbf1, heg1, htxs, sliceElems]
  have hmem : [] ∈ txs.map SprintfHex := List.mem_map.2 ⟨[], hempty, rfl⟩
  have htx : ∀ (d : executionPayloadJSON W) (st : ExecutionPayload W),
      d.Transactions = some (txs.map SprintfHex) →
      unpackTransactions d st = (st, some (.new "transaction missing")) := by
    intro d st hd
    simp only [unpackTransactions, hd, decodeTransactions_SprintfHex_empty 0 txs hempty]
  refine ⟨rfl, _, hm, rfl, hmem, ?_, ?_⟩
  · apply (runSteps_fails_at _ Field.transactions.index _
      (field_getElem_unpackSteps _ .transactions) e0).1
    intro st1
    simp only [Field.step]
    rw [htx _ st1 rfl]
    simp
  · intro hS hrange hextra
    obtain ⟨hbn, hgl, hgu, hts, hbfr, hegr⟩ := hrange
    obtain ⟨hS1, hS2, hS3, hS4⟩ := hS
    have hu : ∀ d : executionPayloadJSON W, e0.unpack d = runSteps (unpackSteps d) e0 :=
      fun _ => rfl
    rw [hu]
    simp only [unpackSteps, Field.all, List.map, Field.step]
    rw [runSteps_cons_ok _ _ _ _ (unpackFixed_ok_parentHash _ _ e.ParentHash (hS1 _))]
    rw [runSteps_cons_ok _ _ _ _ (unpackFixed_ok_feeRecipient _ _ e.FeeRecipient (hS2 _))]
    rw [runSteps_cons_ok _ _ _ _ (unpackFixed_ok_stateRoot _ _ e.StateRoot (hS3 _))]
    rw [runSteps_cons_ok _ _ _ _ (unpackFixed_ok_receiptsRoot _ _ e.ReceiptsRoot (hS3 _))]
    rw [runSteps_cons_ok _ _ _ _ (unpackFixed_ok_logsBloom _ _ e.LogsBloom
      (IsHexRendering_SprintfHex_fixed _ (by decide)))]
    rw [runSteps_cons_ok _ _ _ _ (unpackFixed_ok_prevRandao _ _ e.PrevRandao
      (IsHexRendering_SprintfHex_fixed _ (by decide)))]
    rw [runSteps_cons_ok _ _ _ _ (unpackBlockNumber_of_dec _ _ e.BlockNumber hbn rfl)]
    rw [runSteps_cons_ok _ _ _ _ (unpackGasLimit_of_dec _ _ e.GasLimit hgl rfl)]
    rw [runSteps_cons_ok _ _ _ _ (unpackGasUsed_of_dec _ _ e.GasUsed hgu rfl)]
    rw [runSteps_cons_ok _ _ _ _ (unpackTimestamp_of_dec _ _ e.Timestamp hts rfl)]
    rw [runSteps_cons_ok _ _ _ _ (unpackExtraData_of_encoded _ _ e.ExtraData hextra rfl)]
    rw [runSteps_cons_ok _ _ _ _ (unpackBaseFeePerGas_of_dec _ _ bf (hbfr bf hbf1) rfl)]
    rw [runSteps_cons_ok _ _ _ _ (unpackFixed_ok_blockHash _ _ e.BlockHash (hS1 _))]
    rw [runSteps_cons_err _ _ _ _ _ (htx _ _ rfl)]

/-- Witness for C21: the sample payload with the transactions `01 02` and the
empty one is encoded, and its encoding is rejected with
`transaction missing`. -/
theorem executionPayload_empty_transaction_lost_witness :
    ∃ data,
      ({ samplePayload with Transactions := some [[0x01, 0x02], []] } :
        ExecutionPayload Nat).MarshalJSON Stringers.sprintf = .ok data ∧
      data.Transactions = some ["0x0102".toList, []] ∧
      ((ExecutionPayload.zero : ExecutionPayload Nat).unpack data).2
        = some (.new "transaction missing") :=
  have h := (executionPayload_empty_transaction_lost Stringers.sprintf
    (ExecutionPayload.zero : ExecutionPayload Nat)
    { samplePayload with Transactions := some [[0x01, 0x02], []] }
    [[0x01, 0x02], []] rfl (by decide) (by decide) (by decide)).2
  h.elim fun data hd =>
    ⟨data, hd.1, hd.2.1, hd.2.2.2.2 stringers_sprintf_hex
      ⟨by decide, by decide, by decide, by decide,
        fun v h => by cases h; decide, fun v h => by cases h; decide⟩
      (by decide)⟩

theorem decodeCommitments_map (S : Stringers)
    (hS : ∀ b, IsHexRendering (S.kzgCommitment b) b.val)
    (l : List (FixedBytes KzgCommitmentLength)) :
    decodeCommitments (l.map S.kzgCommitment) = (l, none) := by
  induction l with
  | nil => rfl
  | cons c cs ih =>
    obtain ⟨digits, hr, hd⟩ := hS c
    have hlen : c.val.length = KzgCommitmentLength := c.property
    have hc : copyBytes (FixedBytes.zero KzgCommitmentLength) c.val = c := by
      rw [copyBytes_eq _ _ hlen]
    simp only [List.map_cons, decodeCommitments, hr, TrimPrefix_0x, hd, hlen, ne_eq,
      not_true_eq_false, if_false, ih, hc]

/-- C24. Decode undoes encode for the deneb `BeaconBlockBody`: for every body
`b` whose `ETH1Data`, `SyncAggregate` and `ExecutionPayload` are non-nil and
whose lists of proposer slashings, attester slashings, attestations, deposits
and voluntary exits are non-nil, `unpack` applied, on any receiver, to the
record that `MarshalJSON` builds from `b` returns no error and leaves a
receiver equal to `b` field by field, a nil list of commitments being read
back as the empty one and the nested objects being those of `b`.  The
`String()` method of a commitment is any that prints `0x` and the hexadecimal
digits of the bytes. -/
theorem beaconBlockBody_unpack_MarshalJSON (S : Stringers) (hS : S.Hex)
    (b0 b : BeaconBlockBody T) (h1 : b.ETH1Data ≠ none) (h2 : b.ProposerSlashings ≠ none)
    (h3 : b.AttesterSlashings ≠ none) (h4 : b.Attestations ≠ none) (h5 : b.Deposits ≠ none)
    (h6 : b.VoluntaryExits ≠ none) (h7 : b.SyncAggregate ≠ none)
    (h8 : b.ExecutionPayload ≠ none) :
    b0.unpack (b.MarshalJSON S) =
      ({ b with BlobKzgCommitments := some (sliceElems b.BlobKzgCommitments) }, none) := by
  obtain ⟨v1, hv1⟩ := Option.ne_none_iff_exists'.1 h1
  obtain ⟨v2, hv2⟩ := Option.ne_none_iff_exists'.1 h2
  obtain ⟨v3, hv3⟩ := Option.ne_none_iff_exists'.1 h3
  obtain ⟨v4, hv4⟩ := Option.ne_none_iff_exists'.1 h4
  obtain ⟨v5, hv5⟩ := Option.ne_none_iff_exists'.1 h5
  obtain ⟨v6, hv6⟩ := Option.ne_none_iff_exists'.1 h6
  obtain ⟨v7, hv7⟩ := Option.ne_none_iff_exists'.1 h7
  obtain ⟨v8, hv8⟩ := Option.ne_none_iff_exists'.1 h8
  have hrr : ∀ st : BeaconBlockBody T, unpackRANDAOReveal (b.MarshalJSON S) st
      = ({ st with RANDAOReveal := b.RANDAOReveal }, none) := by
    intro st
    have hd := decodeFixed_of_rendering "RANDAO reveal missing" "invalid value for RANDAO reveal"
      "incorrect length for RANDAO reveal" SignatureLength (SprintfHex b.RANDAOReveal.val)
      b.RANDAOReveal.val (IsHexRendering_SprintfHex_fixed _ (by decide)) b.RANDAOReveal.property
    simp only [unpackRANDAOReveal, BeaconBlockBody.MarshalJSON, hd,
      copyBytes_eq _ _ b.RANDAOReveal.property]
  have hg : ∀ st : BeaconBlockBody T, unpackGraffiti (b.MarshalJSON S) st
      = ({ st with Graffiti := b.Graffiti }, none) := by
    intro st
    have hd := decodeFixed_of_rendering "graffiti missing" "invalid value for graffiti"
      "incorrect length for graffiti" GraffitiLength (SprintfHex b.Graffiti.val)
      b.Graffiti.val (IsHexRendering_SprintfHex_fixed _ (by decide)) b.Graffiti.property
    simp only [unpackGraffiti, BeaconBlockBody.MarshalJSON, hd,
      copyBytes_eq _ _ b.Graffiti.property]
  have hc : ∀ st : BeaconBlockBody T, unpackBlobKzgCommitments (b.MarshalJSON S) st
      = ({ st with BlobKzgCommitments := some (sliceElems b.BlobKzgCommitments) }, none) := by
    intro st
    simp only [unpackBlobKzgCommitments, BeaconBlockBody.MarshalJSON,
      decodeCommitments_map S hS.2.2.2]
  have hu : b0.unpack (b.MarshalJSON S) = runSteps (bodyUnpackSteps (b.MarshalJSON S)) b0 := rfl
  rw [hu]
  simp only [bodyUnpackSteps]
  have he1 : ∀ st : BeaconBlockBody T, unpackETH1Data (b.MarshalJSON S) st
      = ({ st with ETH1Data := some v1 }, none) := by
    intro st
    simp only [unpackETH1Data, BeaconBlockBody.MarshalJSON, hv1]
  have hps : ∀ st : BeaconBlockBody T, unpackProposerSlashings (b.MarshalJSON S) st
      = ({ st with ProposerSlashings := some v2 }, none) := by
    intro st
    simp only [unpackProposerSlashings, BeaconBlockBody.MarshalJSON, hv2]
  have has : ∀ st : BeaconBlockBody T, unpackAttesterSlashings (b.MarshalJSON S) st
      = ({ st with AttesterSlashings := some v3 }, none) := by
    intro st
    simp only [unpackAttesterSlashings, BeaconBlockBody.MarshalJSON, hv3]
  have hat : ∀ st : BeaconBlockBody T, unpackAttestations (b.MarshalJSON S) st
      = ({ st with Attestations := some v4 }, none) := by
    intro st
    simp only [unpackAttestations, BeaconBlockBody.MarshalJSON, hv4]
  have hdp : ∀ st : BeaconBlockBody T, unpackDeposits (b.MarshalJSON S) st
      = ({ st with Deposits := some v5 }, none) := by
    intro st
    simp only [unpackDeposits, BeaconBlockBody.MarshalJSON, hv5]
  have hve : ∀ st : BeaconBlockBody T, unpackVoluntaryExits (b.MarshalJSON S) st
      = ({ st with VoluntaryExits := some v6 }, none) := by
    intro st
    simp only [unpackVoluntaryExits, BeaconBlockBody.MarshalJSON, hv6]
  have hsa : ∀ st : BeaconBlockBody T, unpackSyncAggregate (b.MarshalJSON S) st
      = ({ st with SyncAggregate := some v7 }, none) := by
    intro st
    simp only [unpackSyncAggregate, BeaconBlockBody.MarshalJSON, hv7]
  have hep : ∀ st : BeaconBlockBody T, unpackExecutionPayload (b.MarshalJSON S) st
      = ({ st with ExecutionPayload := some v8 }, none) := by
    intro st
    simp only [unpackExecutionPayload, BeaconBlockBody.MarshalJSON, hv8]
  have hbls : ∀ st : BeaconBlockBody T, unpackBLSToExecutionChanges (b.MarshalJSON S) st
      = ({ st with BLSToExecutionChanges := b.BLSToExecutionChanges }, none) := by
    intro st
    simp only [unpackBLSToExecutionChanges, BeaconBlockBody.MarshalJSON]
  rw [runSteps_cons_ok _ _ _ _ (hrr _)]
  rw [runSteps_cons_ok _ _ _ _ (he1 _)]
  rw [runSteps_cons_ok _ _ _ _ (hg _)]
  rw [runSteps_cons_ok _ _ _ _ (hps _)]
  rw [runSteps_cons_ok _ _ _ _ (has _)]
  rw [runSteps_cons_ok _ _ _ _ (hat _)]
  rw [runSteps_cons_ok _ _ _ _ (hdp _)]
  rw [runSteps_cons_ok _ _ _ _ (hve _)]
  rw [runSteps_cons_ok _ _ _ _ (hsa _)]
  rw [runSteps_cons_ok _ _ _ _ (hep _)]
  rw [runSteps_cons_ok _ _ _ _ (hbls _)]
  rw [runSteps_cons_ok _ _ _ _ (hc _)]
  simp only [runSteps, hv1, hv2, hv3, hv4, hv5, hv6, hv7, hv8]

/-- Witness for C24: the sample body, whose lists of BLS changes and of
commitments are nil, is read back into the zero body with an empty list of
commitments and is otherwise unchanged. -/
theorem beaconBlockBody_unpack_MarshalJSON_witness :
    (BeaconBlockBody.zero : BeaconBlockBody sampleTypes).unpack
        (sampleBody.MarshalJSON Stringers.sprintf)
      = ({ sampleBody with BlobKzgCommitments := some [] }, none) :=
  beaconBlockBody_unpack_MarshalJSON Stringers.sprintf stringers_sprintf_hex
    BeaconBlockBody.zero sampleBody (Option.some_ne_none _) (Option.some_ne_none _)
    (Option.some_ne_none _) (Option.some_ne_none _) (Option.some_ne_none _)
    (Option.some_ne_none _) (Option.some_ne_none _) (Option.some_ne_none _)

/-- C28. YAML and JSON decoding of the deneb `ExecutionPayload` apply the same
validation: `UnmarshalJSON` and `UnmarshalYAML` decode the input into a record
of the one type `executionPayloadJSON` and hand it to the same `unpack`, so
for every record, obtained by `json.Unmarshal` from one input and by
`yaml.Unmarshal` from another, both return what `unpack` returns for the
record: the same error or absence of error and the same payload. -/
theorem executionPayload_yaml_json_same_validation {Input : Type}
    (lib : Unmarshalers Input W) (e : ExecutionPayload W) (jsonInput yamlInput : Input)
    (data : executionPayloadJSON W) (hj : lib.json jsonInput = .ok data)
    (hy : lib.yaml yamlInput = .ok data) :
    e.UnmarshalJSON lib jsonInput = e.unpack data ∧
    e.UnmarshalYAML lib yamlInput = e.unpack data ∧
    (e.UnmarshalJSON lib jsonInput).2 = (e.UnmarshalYAML lib yamlInput).2 ∧
    (e.UnmarshalJSON lib jsonInput).1 = (e.UnmarshalYAML lib yamlInput).1 ∧
    ((e.UnmarshalJSON lib jsonInput).2 = none ↔ (e.UnmarshalYAML lib yamlInput).2 = none) := by
  have h1 : e.UnmarshalJSON lib jsonInput = e.unpack data := by
    simp only [ExecutionPayload.UnmarshalJSON, hj]
  have h2 : e.UnmarshalYAML lib yamlInput = e.unpack data := by
    simp only [ExecutionPayload.UnmarshalYAML, hy]
  refine ⟨h1, h2, ?_, ?_, ?_⟩ <;> rw [h1, h2]

set_option maxRecDepth 1000000 in
/-- Witness for C28: the sample record is accepted on both paths, and the
sample record with its gas limit emptied is rejected on both paths with
`gas limit missing`. -/
theorem executionPayload_yaml_json_same_validation_witness :
    ((ExecutionPayload.zero : ExecutionPayload Nat).UnmarshalJSON sampleUnmarshalers
        (some sampleRecord)).2 = none ∧
    ((ExecutionPayload.zero : ExecutionPayload Nat).UnmarshalYAML sampleUnmarshalers
        (some sampleRecord)).2 = none ∧
    ((ExecutionPayload.zero : ExecutionPayload Nat).UnmarshalJSON sampleUnmarshalers
        (some { sampleRecord with GasLimit := [] })).2 = some (.new "gas limit missing") ∧
    ((ExecutionPayload.zero : ExecutionPayload Nat).UnmarshalYAML sampleUnmarshalers
        (some { sampleRecord with GasLimit := [] })).2 = some (.new "gas limit missing") :=
  have h := executionPayload_yaml_json_same_validation sampleUnmarshalers
    (ExecutionPayload.zero : ExecutionPayload Nat) (some sampleRecord) (some sampleRecord)
    sampleRecord rfl rfl
  have g := executionPayload_yaml_json_same_validation sampleUnmarshalers
    (ExecutionPayload.zero : ExecutionPayload Nat) (some { sampleRecord with GasLimit := [] })
    (some { sampleRecord with GasLimit := [] }) { sampleRecord with GasLimit := [] } rfl rfl
  have hok : ((ExecutionPayload.zero : ExecutionPayload Nat).unpack sampleRecord).2 = none := by
    decide
  have hbad : ((ExecutionPayload.zero : ExecutionPayload Nat).unpack
      { sampleRecord with GasLimit := [] }).2 = some (.new "gas limit missing") := by
    decide
  ⟨h.1 ▸ hok, h.2.1 ▸ hok, g.1 ▸ hbad, g.2.1 ▸ hbad⟩

end Deneb

/-! ## Which strings the 256-bit parsers accept -/

theorem allDigits_dropLeadingZeros (t : List Char) :
    allDigits (dropLeadingZeros t) = allDigits t := by
  induction t with
  | nil => rfl
  | cons c cs ih =>
    cases cs with
    | nil => rfl
    | cons d ds =>
      by_cases hc : c = '0'
      · have hd : dropLeadingZeros (c :: d :: ds) = dropLeadingZeros (d :: ds) := by
          simp [dropLeadingZeros, hc]
        rw [hd, ih, hc]
        simp [allDigits]
      · rw [dropLeadingZeros_of_ne c _ hc]

theorem fromDecimal_err_of_not_digits (t : List Char) (h : allDigits t = false) :
    (fromDecimal t).2 ≠ none := by
  unfold fromDecimal
  by_cases h0 : t = []
  · simp [h0]
  · simp [h0, h]

theorem decimalChain_spec (t : List Char) :
    (t ≠ [] ∧ allDigits t = true ∧ decValue t < 2 ^ 256 →
      (if (dropLeadingZeros t).length < twoPow256Sub1.length then
        fromDecimal (dropLeadingZeros t)
      else if (dropLeadingZeros t).length = twoPow256Sub1.length then
        if strGt (dropLeadingZeros t) twoPow256Sub1 then
          (none, some (.uint256Err "hex number > 256 bits"))
        else fromDecimal (dropLeadingZeros t)
      else (none, some (.uint256Err "hex number > 256 bits")))
        = (some (decValue t), none)) ∧
    (¬ (t ≠ [] ∧ allDigits t = true ∧ decValue t < 2 ^ 256) →
      (if (dropLeadingZeros t).length < twoPow256Sub1.length then
        fromDecimal (dropLeadingZeros t)
      else if (dropLeadingZeros t).length = twoPow256Sub1.length then
        if strGt (dropLeadingZeros t) twoPow256Sub1 then
          (none, some (.uint256Err "hex number > 256 bits"))
        else fromDecimal (dropLeadingZeros t)
      else (none, some (.uint256Err "hex number > 256 bits"))).2 ≠ none) := by
  by_cases h0 : t = []
  · subst h0
    constructor
    · intro h
      exact absurd rfl h.1
    · intro _
      decide
  · cases hall : allDigits t with
    | true =>
      rw [← FromDecimal_of_digits_unfold t hall]
      obtain ⟨h1, h2⟩ := FromDecimal_digits t h0 hall
      constructor
      · intro h
        exact h1 h.2.2
      · intro h
        apply h2
        by_contra hlt
        exact h ⟨h0, rfl, by omega⟩
    | false =>
      have hd : allDigits (dropLeadingZeros t) = false := by
        rw [allDigits_dropLeadingZeros, hall]
      have hfd := fromDecimal_err_of_not_digits _ hd
      constructor
      · intro h
        simp at h
      · intro _
        split
        · exact hfd
        · split
          · split
            · simp
            · exact hfd
          · simp

theorem FromDecimal_plus (t : List Char) :
    FromDecimal ('+' :: t) =
      if (dropLeadingZeros t).length < twoPow256Sub1.length then
        fromDecimal (dropLeadingZeros t)
      else if (dropLeadingZeros t).length = twoPow256Sub1.length then
        if strGt (dropLeadingZeros t) twoPow256Sub1 then
          (none, some (.uint256Err "hex number > 256 bits"))
        else fromDecimal (dropLeadingZeros t)
      else (none, some (.uint256Err "hex number > 256 bits")) := rfl

theorem FromDecimal_no_plus (t : List Char) (ht : t.head? ≠ some '+') :
    FromDecimal t =
      if (dropLeadingZeros t).length < twoPow256Sub1.length then
        fromDecimal (dropLeadingZeros t)
      else if (dropLeadingZeros t).length = twoPow256Sub1.length then
        if strGt (dropLeadingZeros t) twoPow256Sub1 then
          (none, some (.uint256Err "hex number > 256 bits"))
        else fromDecimal (dropLeadingZeros t)
      else (none, some (.uint256Err "hex number > 256 bits")) := by
  unfold FromDecimal
  split
  · rename_i rest
    simp at ht
  · rfl

theorem FromDecimal_accept (s t : List Char)
    (h : s = '+' :: t ∨ (s = t ∧ t.head? ≠ some '+')) :
    ((FromDecimal s).2 = none ↔ t ≠ [] ∧ allDigits t = true ∧ decValue t < 2 ^ 256) ∧
    ((FromDecimal s).2 = none → FromDecimal s = (some (decValue t), none)) := by
  have hs : FromDecimal s =
      if (dropLeadingZeros t).length < twoPow256Sub1.length then
        fromDecimal (dropLeadingZeros t)
      else if (dropLeadingZeros t).length = twoPow256Sub1.length then
        if strGt (dropLeadingZeros t) twoPow256Sub1 then
          (none, some (.uint256Err "hex number > 256 bits"))
        else fromDecimal (dropLeadingZeros t)
      else (none, some (.uint256Err "hex number > 256 bits")) := by
    rcases h with h | ⟨h, ht⟩
    · rw [h]
      exact FromDecimal_plus t
    · rw [h]
      exact FromDecimal_no_plus t ht
  obtain ⟨h1, h2⟩ := decimalChain_spec t
  rw [hs]
  have hiff : (if (dropLeadingZeros t).length < twoPow256Sub1.length then
        fromDecimal (dropLeadingZeros t)
      else if (dropLeadingZeros t).length = twoPow256Sub1.length then
        if strGt (dropLeadingZeros t) twoPow256Sub1 then
          (none, some (.uint256Err "hex number > 256 bits"))
        else fromDecimal (dropLeadingZeros t)
      else (none, some (.uint256Err "hex number > 256 bits"))).2 = none ↔
      t ≠ [] ∧ allDigits t = true ∧ decValue t < 2 ^ 256 := by
    constructor
    · intro hok
      by_contra hn
      exact h2 hn hok
    · intro hc
      rw [h1 hc]
  exact ⟨hiff, fun hok => h1 (hiff.1 hok)⟩

theorem hexValue_eq (ds : List Char) (n : Nat) :
    hexValue ds n =
      if allHexDigits ds = true then
        some (ds.foldl (fun n c => n * 16 + ((fromHexChar c).map Fin.val).getD 0) n)
      else none := by
  induction ds generalizing n with
  | nil => rfl
  | cons c cs ih =>
    unfold hexValue
    cases hc : fromHexChar c with
    | none => simp [allHexDigits, hc]
    | some d =>
      simp only [ih]
      have ha : allHexDigits (c :: cs) = allHexDigits cs := by
        simp [allHexDigits, hc]
      rw [ha]
      simp [hc]

theorem checkNumberS_0x (ds : List Char) :
    checkNumberS ('0' :: 'x' :: ds) = none ↔
      ds ≠ [] ∧ (2 ≤ ds.length → ds.head? ≠ some '0') := by
  cases ds with
  | nil => simp [checkNumberS]
  | cons d rest =>
    cases rest with
    | nil => simp [checkNumberS]
    | cons d2 rest2 =>
      by_cases hd : d = '0'
      · simp [checkNumberS, hd]
      · simp [checkNumberS, hd]

theorem FromHex_accept (ds : List Char) :
    ((FromHex ('0' :: 'x' :: ds)).2 = none ↔
      ds ≠ [] ∧ ds.length ≤ 64 ∧ allHexDigits ds = true ∧
        (2 ≤ ds.length → ds.head? ≠ some '0')) ∧
    ((FromHex ('0' :: 'x' :: ds)).2 = none →
      FromHex ('0' :: 'x' :: ds) = (some (hexNumber ds), none) ∧ hexNumber ds < 2 ^ 256) := by
  have hval : ∀ r, FromHex ('0' :: 'x' :: ds) = (r, none) →
      r = some (hexNumber ds) ∧ hexNumber ds < 2 ^ 256 ∧ allHexDigits ds = true := by
    intro r hr
    obtain ⟨v, hv1, hv2, hv3, _⟩ := FromHex_ok ds r hr
    rw [hexValue_eq] at hv2
    by_cases ha : allHexDigits ds = true
    · rw [if_pos ha] at hv2
      have : hexNumber ds = v := by
        simp only [Option.some.injEq] at hv2
        exact hv2
      rw [this]
      exact ⟨hv1, hv3, ha⟩
    · rw [if_neg ha] at hv2
      cases hv2
  have hiff : (FromHex ('0' :: 'x' :: ds)).2 = none ↔
      ds ≠ [] ∧ ds.length ≤ 64 ∧ allHexDigits ds = true ∧
        (2 ≤ ds.length → ds.head? ≠ some '0') := by
    constructor
    · intro hok
      have hr : FromHex ('0' :: 'x' :: ds) = ((FromHex ('0' :: 'x' :: ds)).1, none) :=
        Prod.ext rfl hok
      obtain ⟨_, _, ha⟩ := hval _ hr
      obtain ⟨v, _, _, _, hlen⟩ := FromHex_ok ds _ hr
      have hc : checkNumberS ('0' :: 'x' :: ds) = none := by
        cases hcs : checkNumberS ('0' :: 'x' :: ds) with
        | none => rfl
        | some err =>
          unfold FromHex at hok
          simp [hcs] at hok
      obtain ⟨h1, h2⟩ := (checkNumberS_0x ds).1 hc
      exact ⟨h1, hlen, ha, h2⟩
    · intro ⟨h1, hlen, ha, h2⟩
      have hc := (checkNumberS_0x ds).2 ⟨h1, h2⟩
      have hl : ¬ (ds.length + 1 + 1 > 66) := by omega
      unfold FromHex
      simp only [hc, List.length_cons, if_neg hl, List.drop_succ_cons, List.drop_zero,
        hexValue_eq, ha, if_true]
  refine ⟨hiff, ?_⟩
  intro hok
  obtain ⟨h1, h2, _⟩ := hval _ (Prod.ext rfl hok)
  exact ⟨Prod.ext h1 hok, h2⟩

namespace Deneb

variable {W : Type}

/-! ## The two 256-bit fields -/

theorem unpackBaseFeePerGas_of_result (data : executionPayloadJSON W) (e : ExecutionPayload W)
    (v : Nat) (hne : data.BaseFeePerGas ≠ [])
    (hr : (if HasPrefix data.BaseFeePerGas ['0', 'x'] then FromHex data.BaseFeePerGas
      else FromDecimal data.BaseFeePerGas) = (some v, none)) :
    unpackBaseFeePerGas data e = ({ e with BaseFeePerGas := some v }, none) := by
  unfold unpackBaseFeePerGas
  simp only [hne, if_false, hr]

theorem unpackExcessDataGas_of_result (data : executionPayloadJSON W) (e : ExecutionPayload W)
    (v : Nat) (hne : data.ExcessDataGas ≠ [])
    (hr : FromDecimal data.ExcessDataGas = (some v, none)) :
    unpackExcessDataGas data e = ({ e with ExcessDataGas := some v }, none) := by
  unfold unpackExcessDataGas
  simp only [hne, if_false, hr]

theorem unpackExcessDataGas_err (data : executionPayloadJSON W) (e : ExecutionPayload W)
    (hne : data.ExcessDataGas ≠ []) (hr : (FromDecimal data.ExcessDataGas).2 ≠ none) :
    ∃ err, (FromDecimal data.ExcessDataGas).2 = some err ∧
      (unpackExcessDataGas data e).2
        = some (.wrap err "invalid value for excess data gas") := by
  obtain ⟨err, herr⟩ := Option.ne_none_iff_exists'.1 hr
  refine ⟨err, herr, ?_⟩
  unfold unpackExcessDataGas
  simp only [hne, if_false, herr]

theorem unpackBaseFeePerGas_err (data : executionPayloadJSON W) (e : ExecutionPayload W)
    (hne : data.BaseFeePerGas ≠ [])
    (hr : (if HasPrefix data.BaseFeePerGas ['0', 'x'] then FromHex data.BaseFeePerGas
      else FromDecimal data.BaseFeePerGas).2 ≠ none) :
    ∃ err, (unpackBaseFeePerGas data e).2
      = some (.wrap err "invalid value for base fee per gas") := by
  obtain ⟨err, herr⟩ := Option.ne_none_iff_exists'.1 hr
  refine ⟨err, ?_⟩
  unfold unpackBaseFeePerGas
  simp only [hne, if_false, herr]

theorem HasPrefix_digits (s : List Char) (hall : allDigits s = true) :
    HasPrefix s ['0', 'x'] = false := by
  cases s with
  | nil => rfl
  | cons c cs =>
    cases cs with
    | nil => simp [HasPrefix, List.isPrefixOf]
    | cons d ds =>
      rw [allDigits_cons, allDigits_cons] at hall
      have hd : d ≠ 'x' := by
        intro hd
        rw [hd] at hall
        have : ('x' : Char).toNat = 120 := by decide
        omega
      simp only [HasPrefix, List.isPrefixOf, Bool.and_true, Bool.and_eq_false_imp,
        beq_iff_eq, beq_eq_false_iff_ne, ne_eq]
      intro _ h
      exact hd h.symm

theorem unpackBaseFeePerGas_ok_iff (data : executionPayloadJSON W) (e : ExecutionPayload W) :
    (unpackBaseFeePerGas data e).2 = none ↔
      data.BaseFeePerGas ≠ [] ∧
        (if HasPrefix data.BaseFeePerGas ['0', 'x'] then FromHex data.BaseFeePerGas
          else FromDecimal data.BaseFeePerGas).2 = none := by
  constructor
  · intro h
    obtain ⟨h1, h2, _⟩ := unpackBaseFeePerGas_inv data e h
    exact ⟨h1, h2⟩
  · intro ⟨h1, h2⟩
    unfold unpackBaseFeePerGas
    simp only [h1, if_false, h2]

theorem unpackExcessDataGas_ok_iff (data : executionPayloadJSON W) (e : ExecutionPayload W) :
    (unpackExcessDataGas data e).2 = none ↔
      data.ExcessDataGas ≠ [] ∧ (FromDecimal data.ExcessDataGas).2 = none := by
  constructor
  · intro h
    obtain ⟨h1, h2, _⟩ := unpackExcessDataGas_inv data e h
    exact ⟨h1, h2⟩
  · intro ⟨h1, h2⟩
    unfold unpackExcessDataGas
    simp only [h1, if_false, h2]

/-- C22. `ExecutionPayload.unpack` reads `base_fee_per_gas` as hexadecimal when
it starts with `0x` and as decimal otherwise, and `excess_data_gas` as decimal
only.  For the base fee: `0x10` and `16` both give 16; a value with the `0x`
prefix that is accepted is stored as the number of its hexadecimal digits,
which is below `2^256`, and more than 64 digits are rejected; a string of
decimal digits is accepted, and stored as its number, exactly when that number
is below `2^256`.  For the excess data gas: every string with the `0x` prefix
is rejected under `invalid value for excess data gas` (`0x10` with the syntax
error of `x10`), and a string of decimal digits is accepted, and stored as its
number, exactly when that number is below `2^256`.  When `unpack` succeeds
both fields hold a value below `2^256`.  `MarshalJSON` emits both fields in
decimal, and for every value below `2^256` the emitted string is read back as
that value.  The strings that are accepted are exactly these.  A base fee
`0x` followed by `ds` is accepted exactly when `ds` is one to 64 hexadecimal
digits of either case without a leading zero digit (a single `0` apart), and
it is then stored as the number of those digits.  A base fee without the `0x`
prefix, and every excess data gas, is accepted exactly when, one leading `+`
removed, it is a non-empty string of decimal digits of a number below `2^256`,
and it is then stored as that number.  When `unpack` succeeds the blocks of
both fields have accepted their strings. -/
theorem executionPayload_unpack_uint256_fields (e : ExecutionPayload W)
    (data : executionPayloadJSON W) :
    (data.BaseFeePerGas = ['0', 'x', '1', '0'] →
      unpackBaseFeePerGas data e = ({ e with BaseFeePerGas := some 16 }, none)) ∧
    (data.BaseFeePerGas = ['1', '6'] →
      unpackBaseFeePerGas data e = ({ e with BaseFeePerGas := some 16 }, none)) ∧
    (∀ ds, data.BaseFeePerGas = '0' :: 'x' :: ds →
      ((unpackBaseFeePerGas data e).2 = none →
        ∃ v, (unpackBaseFeePerGas data e).1.BaseFeePerGas = some v ∧
          hexValue ds 0 = some v ∧ v < 2 ^ 256) ∧
      (64 < ds.length → (unpackBaseFeePerGas data e).2 ≠ none ∧ (e.unpack data).2 ≠ none)) ∧
    (data.BaseFeePerGas ≠ [] → allDigits data.BaseFeePerGas = true →
      (decValue data.BaseFeePerGas < 2 ^ 256 →
        unpackBaseFeePerGas data e
          = ({ e with BaseFeePerGas := some (decValue data.BaseFeePerGas) }, none)) ∧
      (2 ^ 256 ≤ decValue data.BaseFeePerGas →
        (unpackBaseFeePerGas data e).2 ≠ none ∧ (e.unpack data).2 ≠ none)) ∧
    (data.ExcessDataGas = ['0', 'x', '1', '0'] →
      (unpackExcessDataGas data e).2
        = some (.wrap (.numSyntax "ParseUint" ['x', '1', '0'])
            "invalid value for excess data gas")) ∧
    (∀ ds, data.ExcessDataGas = '0' :: 'x' :: ds →
      (∃ err, (unpackExcessDataGas data e).2
        = some (.wrap err "invalid value for excess data gas")) ∧
      (e.unpack data).2 ≠ none) ∧
    (data.ExcessDataGas ≠ [] → allDigits data.ExcessDataGas = true →
      (decValue data.ExcessDataGas < 2 ^ 256 →
        unpackExcessDataGas data e
          = ({ e with ExcessDataGas := some (decValue data.ExcessDataGas) }, none)) ∧
      (2 ^ 256 ≤ decValue data.ExcessDataGas →
        (unpackExcessDataGas data e).2 ≠ none ∧ (e.unpack data).2 ≠ none)) ∧
    ((e.unpack data).2 = none →
      ∃ bf eg, (e.unpack data).1.BaseFeePerGas = some bf ∧ bf < 2 ^ 256 ∧
        (e.unpack data).1.ExcessDataGas = some eg ∧ eg < 2 ^ 256) ∧
    (∀ (S : Stringers) (p : ExecutionPayload W) (rec : executionPayloadJSON W) (bf eg : Nat),
      p.MarshalJSON S = .ok rec → p.BaseFeePerGas = some bf → p.ExcessDataGas = some eg →
      rec.BaseFeePerGas = SprintfDec bf ∧ rec.ExcessDataGas = SprintfDec eg ∧
      (bf < 2 ^ 256 →
        unpackBaseFeePerGas rec e = ({ e with BaseFeePerGas := some bf }, none)) ∧
      (eg < 2 ^ 256 →
        unpackExcessDataGas rec e = ({ e with ExcessDataGas := some eg }, none))) ∧
    (∀ ds, data.BaseFeePerGas = '0' :: 'x' :: ds →
      ((unpackBaseFeePerGas data e).2 = none ↔
        ds ≠ [] ∧ ds.length ≤ 64 ∧ allHexDigits ds = true ∧
          (2 ≤ ds.length → ds.head? ≠ some '0')) ∧
      ((unpackBaseFeePerGas data e).2 = none →
        unpackBaseFeePerGas data e
          = ({ e with BaseFeePerGas := some (hexNumber ds) }, none) ∧
        hexNumber ds < 2 ^ 256)) ∧
    (∀ t, (data.BaseFeePerGas = '+' :: t ∨
        (data.BaseFeePerGas = t ∧ t.head? ≠ some '+' ∧ HasPrefix t ['0', 'x'] = false)) →
      ((unpackBaseFeePerGas data e).2 = none ↔
        t ≠ [] ∧ allDigits t = true ∧ decValue t < 2 ^ 256) ∧
      ((unpackBaseFeePerGas data e).2 = none →
        unpackBaseFeePerGas data e
          = ({ e with BaseFeePerGas := some (decValue t) }, none))) ∧
    (∀ t, (data.ExcessDataGas = '+' :: t ∨
        (data.ExcessDataGas = t ∧ t.head? ≠ some '+')) →
      ((unpackExcessDataGas data e).2 = none ↔
        t ≠ [] ∧ allDigits t = true ∧ decValue t < 2 ^ 256) ∧
      ((unpackExcessDataGas data e).2 = none →
        unpackExcessDataGas data e
          = ({ e with ExcessDataGas := some (decValue t) }, none))) ∧
    ((e.unpack data).2 = none →
      (unpackBaseFeePerGas data e).2 = none ∧ (unpackExcessDataGas data e).2 = none) := by
  have hfailBF : (∀ st : ExecutionPayload W, (unpackBaseFeePerGas data st).2 ≠ none) →
      (e.unpack data).2 ≠ none := fun h =>
    (runSteps_fails_at (unpackSteps data) Field.baseFeePerGas.index
      (Field.baseFeePerGas.step data) (field_getElem_unpackSteps data .baseFeePerGas) e).1 h
  have hfailEG : (∀ st : ExecutionPayload W, (unpackExcessDataGas data st).2 ≠ none) →
      (e.unpack data).2 ≠ none := fun h =>
    (runSteps_fails_at (unpackSteps data) Field.excessDataGas.index
      (Field.excessDataGas.step data) (field_getElem_unpackSteps data .excessDataGas) e).1 h
  refine ⟨?_, ?_, ?_, ?_, ?_, ?_, ?_, ?_, ?_, ?_, ?_, ?_, ?_⟩
  · intro h
    apply unpackBaseFeePerGas_of_result data e 16 (by rw [h]; simp)
    rw [h]
    decide
  · intro h
    apply unpackBaseFeePerGas_of_result data e 16 (by rw [h]; simp)
    rw [h]
    decide
  · intro ds h
    have hne : data.BaseFeePerGas ≠ [] := by rw [h]; simp
    have hp : HasPrefix data.BaseFeePerGas ['0', 'x'] = true := by
      rw [h]
      simp [HasPrefix, List.isPrefixOf]
    constructor
    · intro hok
      obtain ⟨_, hr, hst⟩ := unpackBaseFeePerGas_inv data e hok
      rw [hp] at hr hst
      simp only [if_true] at hr hst
      rw [h] at hr hst
      obtain ⟨v, hv1, hv2, hv3, _⟩ := FromHex_ok ds (FromHex ('0' :: 'x' :: ds)).1
        (Prod.ext rfl hr)
      refine ⟨v, ?_, hv2, hv3⟩
      rw [hst]
      exact hv1
    · intro hlong
      have hbad : ∀ st : ExecutionPayload W, (unpackBaseFeePerGas data st).2 ≠ none := by
        intro st
        obtain ⟨err, herr⟩ := unpackBaseFeePerGas_err data st hne (by
          rw [hp, h]
          simp only [if_true]
          exact FromHex_too_long ds hlong)
        rw [herr]
        simp
      exact ⟨hbad e, hfailBF hbad⟩
  · intro hne hall
    have hp := HasPrefix_digits _ hall
    obtain ⟨h1, h2⟩ := FromDecimal_digits _ hne hall
    constructor
    · intro hlt
      apply unpackBaseFeePerGas_of_result data e _ hne
      rw [hp]
      simp only [Bool.false_eq_true, if_false]
      exact h1 hlt
    · intro hge
      have hbad : ∀ st : ExecutionPayload W, (unpackBaseFeePerGas data st).2 ≠ none := by
        intro st
        obtain ⟨err, herr⟩ := unpackBaseFeePerGas_err data st hne (by
          rw [hp]
          simp only [Bool.false_eq_true, if_false]
          exact h2 hge)
        rw [herr]
        simp
      exact ⟨hbad e, hfailBF hbad⟩
  · intro h
    have hfd : FromDecimal ['0', 'x', '1', '0']
        = (none, some (.numSyntax "ParseUint" ['x', '1', '0'])) := by decide
    simp [unpackExcessDataGas, h, hfd]
  · intro ds h
    have hne : data.ExcessDataGas ≠ [] := by rw [h]; simp
    have hr : (FromDecimal data.ExcessDataGas).2 ≠ none := by
      rw [h]
      exact FromDecimal_0x ds
    constructor
    · obtain ⟨err, _, herr⟩ := unpackExcessDataGas_err data e hne hr
      exact ⟨err, herr⟩
    · apply hfailEG
      intro st
      obtain ⟨err, _, herr⟩ := unpackExcessDataGas_err data st hne hr
      rw [herr]
      simp
  · intro hne hall
    obtain ⟨h1, h2⟩ := FromDecimal_digits _ hne hall
    constructor
    · intro hlt
      exact unpackExcessDataGas_of_result data e _ hne (h1 hlt)
    · intro hge
      have hbad : ∀ st : ExecutionPayload W, (unpackExcessDataGas data st).2 ≠ none := by
        intro st
        obtain ⟨err, _, herr⟩ := unpackExcessDataGas_err data st hne (h2 hge)
        rw [herr]
        simp
      exact ⟨hbad e, hfailEG hbad⟩
  · intro hok
    obtain ⟨ph, fr, sr, rr, lb, pr, bh, ed, txs, l, ws, _, _, _, _, _, _, _, _, _, _, _,
      h12, _, _, _, h16, hres⟩ := unpack_success e data hok
    rw [hres]
    have hbf : ∃ v, (if HasPrefix data.BaseFeePerGas ['0', 'x'] then FromHex data.BaseFeePerGas
        else FromDecimal data.BaseFeePerGas).1 = some v ∧ v < 2 ^ 256 := by
      by_cases hp : HasPrefix data.BaseFeePerGas ['0', 'x'] = true
      · have h12' := h12.2
        rw [if_pos hp] at h12' ⊢
        have hds : ∃ ds, data.BaseFeePerGas = '0' :: 'x' :: ds := by
          cases hb : data.BaseFeePerGas with
          | nil => rw [hb] at hp; simp [HasPrefix, List.isPrefixOf] at hp
          | cons c cs =>
            cases cs with
            | nil => rw [hb] at hp; simp [HasPrefix, List.isPrefixOf] at hp
            | cons d ds =>
              rw [hb] at hp
              simp [HasPrefix, List.isPrefixOf] at hp
              exact ⟨ds, by rw [hp.1, hp.2]⟩
        obtain ⟨ds, hds⟩ := hds
        rw [hds] at h12' ⊢
        obtain ⟨v, hv1, _, hv3, _⟩ := FromHex_ok ds (FromHex ('0' :: 'x' :: ds)).1
          (Prod.ext rfl h12')
        exact ⟨v, hv1, hv3⟩
      · have h12' := h12.2
        rw [if_neg hp] at h12' ⊢
        exact FromDecimal_ok_lt data.BaseFeePerGas _ (Prod.ext rfl h12')
    obtain ⟨bf, hbf1, hbf2⟩ := hbf
    obtain ⟨eg, heg1, heg2⟩ := FromDecimal_ok_lt data.ExcessDataGas _ (Prod.ext rfl h16.2)
    exact ⟨bf, eg, hbf1, hbf2, heg1, heg2⟩
  · intro S p rec bf eg hm hbf heg
    simp only [ExecutionPayload.MarshalJSON, hbf, heg, Except.ok.injEq] at hm
    have hr1 : rec.BaseFeePerGas = SprintfDec bf := by rw [← hm]
    have hr2 : rec.ExcessDataGas = SprintfDec eg := by rw [← hm]
    exact ⟨hr1, hr2, fun h => unpackBaseFeePerGas_of_dec rec e bf h hr1,
      fun h => unpackExcessDataGas_of_dec rec e eg h hr2⟩
  · intro ds h
    have hne : data.BaseFeePerGas ≠ [] := by rw [h]; simp
    have hp : HasPrefix data.BaseFeePerGas ['0', 'x'] = true := by
      rw [h]
      simp [HasPrefix, List.isPrefixOf]
    have hparse : (if HasPrefix data.BaseFeePerGas ['0', 'x'] then FromHex data.BaseFeePerGas
        else FromDecimal data.BaseFeePerGas) = FromHex ('0' :: 'x' :: ds) := by
      rw [hp, h]
      rfl
    obtain ⟨hiff, hval⟩ := FromHex_accept ds
    have hblock : (unpackBaseFeePerGas data e).2 = none ↔
        (FromHex ('0' :: 'x' :: ds)).2 = none := by
      rw [unpackBaseFeePerGas_ok_iff, hparse]
      exact ⟨fun hh => hh.2, fun hh => ⟨hne, hh⟩⟩
    refine ⟨hblock.trans hiff, ?_⟩
    intro hok
    obtain ⟨hv1, hv2⟩ := hval (hblock.1 hok)
    exact ⟨unpackBaseFeePerGas_of_result data e _ hne (by rw [hparse, hv1]), hv2⟩
  · intro t h
    have hp : HasPrefix data.BaseFeePerGas ['0', 'x'] = false := by
      rcases h with h | ⟨h, _, hp⟩
      · rw [h]
        rfl
      · rw [h]
        exact hp
    have hparse : (if HasPrefix data.BaseFeePerGas ['0', 'x'] then FromHex data.BaseFeePerGas
        else FromDecimal data.BaseFeePerGas) = FromDecimal data.BaseFeePerGas := by
      rw [hp]
      rfl
    have h2 : data.BaseFeePerGas = '+' :: t ∨ (data.BaseFeePerGas = t ∧ t.head? ≠ some '+') := by
      rcases h with h | ⟨h, ht, _⟩
      · exact Or.inl h
      · exact Or.inr ⟨h, ht⟩
    obtain ⟨hiff, hval⟩ := FromDecimal_accept data.BaseFeePerGas t h2
    have hne : t ≠ [] → data.BaseFeePerGas ≠ [] := by
      intro ht
      rcases h2 with h | ⟨h, _⟩
      · rw [h]; simp
      · rw [h]; exact ht
    have hblock : (unpackBaseFeePerGas data e).2 = none ↔
        t ≠ [] ∧ allDigits t = true ∧ decValue t < 2 ^ 256 := by
      rw [unpackBaseFeePerGas_ok_iff, hparse]
      exact ⟨fun hh => hiff.1 hh.2, fun hh => ⟨hne hh.1, hiff.2 hh⟩⟩
    refine ⟨hblock, ?_⟩
    intro hok
    have hc := hblock.1 hok
    exact unpackBaseFeePerGas_of_result data e _ (hne hc.1) (by rw [hparse, hval (hiff.2 hc)])
  · intro t h
    obtain ⟨hiff, hval⟩ := FromDecimal_accept data.ExcessDataGas t h
    have hne : t ≠ [] → data.ExcessDataGas ≠ [] := by
      intro ht
      rcases h with h | ⟨h, _⟩
      · rw [h]; simp
      · rw [h]; exact ht
    have hblock : (unpackExcessDataGas data e).2 = none ↔
        t ≠ [] ∧ allDigits t = true ∧ decValue t < 2 ^ 256 := by
      rw [unpackExcessDataGas_ok_iff]
      exact ⟨fun hh => hiff.1 hh.2, fun hh => ⟨hne hh.1, hiff.2 hh⟩⟩
    refine ⟨hblock, ?_⟩
    intro hok
    have hc := hblock.1 hok
    exact unpackExcessDataGas_of_result data e _ (hne hc.1) (hval (hiff.2 hc))
  · intro hok
    obtain ⟨ph, fr, sr, rr, lb, pr, bh, ed, txs, l, ws, _, _, _, _, _, _, _, _, _, _, _,
      h12, _, _, _, h16, _⟩ := unpack_success e data hok
    exact ⟨(unpackBaseFeePerGas_ok_iff data e).2 h12, (unpackExcessDataGas_ok_iff data e).2 h16⟩

set_option maxRecDepth 1000000 in
/-- Witness for C22: in the sample record, whose base fee is `0x10` and whose
excess data gas is `17`, both are read (16 and 17); with the excess data gas
`0x10` the record is rejected; the base fee `0xff` is read as 255, the base
fee `+16` as 16, and the base fee `0x0f`, with its leading zero digit, is
rejected. -/
theorem executionPayload_unpack_uint256_fields_witness :
    unpackBaseFeePerGas sampleRecord (ExecutionPayload.zero : ExecutionPayload Nat)
      = ({ (ExecutionPayload.zero : ExecutionPayload Nat) with BaseFeePerGas := some 16 },
          none) ∧
    unpackExcessDataGas sampleRecord (ExecutionPayload.zero : ExecutionPayload Nat)
      = ({ (ExecutionPayload.zero : ExecutionPayload Nat) with ExcessDataGas := some 17 },
          none) ∧
    ((ExecutionPayload.zero : ExecutionPayload Nat).unpack
      { sampleRecord with ExcessDataGas := ['0', 'x', '1', '0'] }).2 ≠ none ∧
    unpackBaseFeePerGas { sampleRecord with BaseFeePerGas := ['0', 'x', 'f', 'f'] }
        (ExecutionPayload.zero : ExecutionPayload Nat)
      = ({ (ExecutionPayload.zero : ExecutionPayload Nat) with BaseFeePerGas := some 255 },
          none) ∧
    unpackBaseFeePerGas { sampleRecord with BaseFeePerGas := ['+', '1', '6'] }
        (ExecutionPayload.zero : ExecutionPayload Nat)
      = ({ (ExecutionPayload.zero : ExecutionPayload Nat) with BaseFeePerGas := some 16 },
          none) ∧
    (unpackBaseFeePerGas { sampleRecord with BaseFeePerGas := ['0', 'x', '0', 'f'] }
        (ExecutionPayload.zero : ExecutionPayload Nat)).2 ≠ none :=
  have hff := (executionPayload_unpack_uint256_fields
    (ExecutionPayload.zero : ExecutionPayload Nat)
    { sampleRecord with BaseFeePerGas := ['0', 'x', 'f', 'f'] }).2.2.2.2.2.2.2.2.2.1
    ['f', 'f'] rfl
  have hplus := (executionPayload_unpack_uint256_fields
    (ExecutionPayload.zero : ExecutionPayload Nat)
    { sampleRecord with BaseFeePerGas := ['+', '1', '6'] }).2.2.2.2.2.2.2.2.2.2.1
    ['1', '6'] (Or.inl rfl)
  have h0f := (executionPayload_unpack_uint256_fields
    (ExecutionPayload.zero : ExecutionPayload Nat)
    { sampleRecord with BaseFeePerGas := ['0', 'x', '0', 'f'] }).2.2.2.2.2.2.2.2.2.1
    ['0', 'f'] rfl
  ⟨(executionPayload_unpack_uint256_fields (ExecutionPayload.zero : ExecutionPayload Nat)
      sampleRecord).1 rfl,
   ((executionPayload_unpack_uint256_fields (ExecutionPayload.zero : ExecutionPayload Nat)
      sampleRecord).2.2.2.2.2.2.1 (by decide) (by decide)).1 (by decide),
   ((executionPayload_unpack_uint256_fields (ExecutionPayload.zero : ExecutionPayload Nat)
      { sampleRecord with ExcessDataGas := ['0', 'x', '1', '0'] }).2.2.2.2.2.1
      ['1', '0'] rfl).2,
   (hff.2 (hff.1.2 ⟨by decide, by decide, by decide, by decide⟩)).1,
   hplus.2 (hplus.1.2 ⟨by decide, by decide, by decide⟩),
   fun hok => absurd ((h0f.1.1 hok).2.2.2 (by decide)) (by decide)⟩

end Deneb

namespace Deneb

variable {W : Type}

/-! ## The order of the field blocks and what an error leaves behind -/

theorem runSteps_append_fail {σ : Type} (a b : List (Step σ)) (f : Step σ) (st : σ)
    (ha : (runSteps a st).2 = none) (hf : (f (runSteps a st).1).2 ≠ none) :
    runSteps (a ++ f :: b) st = f (runSteps a st).1 := by
  induction a generalizing st with
  | nil =>
    simp only [runSteps, List.nil_append] at hf ⊢
    rcases hfs : f st with ⟨st1, _ | err⟩
    · rw [hfs] at hf
      exact absurd rfl hf
    · rfl
  | cons g gs ih =>
    obtain ⟨hg, heq⟩ := runSteps_cons_inv g gs st ha
    rw [heq] at ha hf
    rw [heq, List.cons_append]
    have hcons : runSteps (g :: (gs ++ f :: b)) st = runSteps (gs ++ f :: b) (g st).1 := by
      apply runSteps_cons_ok
      exact Prod.ext rfl hg
    rw [hcons]
    exact ih (g st).1 ha hf

theorem runSteps_first_failure {σ : Type} (steps : List (Step σ)) (st : σ)
    (h : (runSteps steps st).2 ≠ none) :
    ∃ (i : Nat) (hi : i < steps.length), (runSteps (steps.take i) st).2 = none ∧
      ((steps.get ⟨i, hi⟩) (runSteps (steps.take i) st).1).2 ≠ none := by
  induction steps generalizing st with
  | nil => exact absurd rfl h
  | cons g gs ih =>
    rcases hg : g st with ⟨st1, _ | err⟩
    · rw [runSteps_cons_ok g gs st st1 hg] at h
      obtain ⟨i, hi, h1, h2⟩ := ih st1 h
      refine ⟨i + 1, by simp only [List.length_cons]; omega, ?_, ?_⟩
      · rw [List.take_succ_cons, runSteps_cons_ok g _ st st1 hg]
        exact h1
      · rw [List.take_succ_cons, runSteps_cons_ok g _ st st1 hg]
        exact h2
    · refine ⟨0, by simp, rfl, ?_⟩
      simp only [List.take_zero, runSteps, List.get_eq_getElem, List.getElem_cons_zero, hg]
      simp

theorem field_same_refl (g : Field) (a : ExecutionPayload W) : g.same a a := by
  cases g <;> rfl

theorem field_same_trans (g : Field) (a b c : ExecutionPayload W) (h1 : g.same a b)
    (h2 : g.same b c) : g.same a c := by
  cases g <;> exact Eq.trans h1 h2

theorem field_decoded_congr (data : executionPayloadJSON W) (g : Field)
    (a b : ExecutionPayload W) (hs : g.same a b) (hd : g.decoded data b) :
    g.decoded data a := by
  cases g <;> simp only [Field.same] at hs <;> simp only [Field.decoded] at hd ⊢ <;>
    rw [hs] <;> exact hd

theorem field_step_frame (data : executionPayloadJSON W) (f g : Field) (h : f ≠ g)
    (e : ExecutionPayload W) : g.same (f.step data e).1 e := by
  cases f <;> cases g <;> first
    | exact absurd rfl h
    | (simp only [Field.same, Field.step, unpackParentHash, unpackFeeRecipient,
        unpackStateRoot, unpackReceiptsRoot, unpackLogsBloom, unpackPrevRandao,
        unpackBlockNumber, unpackGasLimit, unpackGasUsed, unpackTimestamp, unpackExtraData,
        unpackBaseFeePerGas, unpackBlockHash, unpackTransactions, unpackWithdrawals,
        unpackExcessDataGas]
       repeat' split
       all_goals rfl)

theorem field_step_decoded (data : executionPayloadJSON W) (f : Field)
    (e : ExecutionPayload W) (h : (f.step data e).2 = none) :
    f.decoded data (f.step data e).1 := by
  cases f
  · obtain ⟨b, hb, _, hd, heq⟩ := unpackParentHash_inv data e h
    simp only [Field.step, Field.decoded]
    rw [heq]
    exact hd
  · obtain ⟨b, hb, _, hd, heq⟩ := unpackFeeRecipient_inv data e h
    simp only [Field.step, Field.decoded]
    rw [heq]
    exact hd
  · obtain ⟨b, hb, _, hd, heq⟩ := unpackStateRoot_inv data e h
    simp only [Field.step, Field.decoded]
    rw [heq]
    exact hd
  · obtain ⟨b, hb, _, hd, heq⟩ := unpackReceiptsRoot_inv data e h
    simp only [Field.step, Field.decoded]
    rw [heq]
    exact hd
  · obtain ⟨b, hb, _, hd, heq⟩ := unpackLogsBloom_inv data e h
    simp only [Field.step, Field.decoded]
    rw [heq]
    exact hd
  · obtain ⟨b, hb, _, hd, heq⟩ := unpackPrevRandao_inv data e h
    simp only [Field.step, Field.decoded]
    rw [heq]
    exact hd
  · obtain ⟨_, hp, heq⟩ := unpackBlockNumber_inv data e h
    simp only [Field.step, Field.decoded]
    rw [heq]
    exact Prod.ext rfl hp
  · obtain ⟨_, hp, heq⟩ := unpackGasLimit_inv data e h
    simp only [Field.step, Field.decoded]
    rw [heq]
    exact Prod.ext rfl hp
  · obtain ⟨_, hp, heq⟩ := unpackGasUsed_inv data e h
    simp only [Field.step, Field.decoded]
    rw [heq]
    exact Prod.ext rfl hp
  · obtain ⟨_, hp, heq⟩ := unpackTimestamp_inv data e h
    simp only [Field.step, Field.decoded]
    rw [heq]
    exact Prod.ext rfl hp
  · obtain ⟨b, _, _, heq, hcase⟩ := unpackExtraData_inv data e h
    simp only [Field.step, Field.decoded]
    rw [heq]
    exact ⟨b, rfl, hcase⟩
  · obtain ⟨_, hp, heq⟩ := unpackBaseFeePerGas_inv data e h
    simp only [Field.step, Field.decoded]
    rw [heq]
    exact Prod.ext rfl hp
  · obtain ⟨b, hb, _, hd, heq⟩ := unpackBlockHash_inv data e h
    simp only [Field.step, Field.decoded]
    rw [heq]
    exact hd
  · obtain ⟨txs, l, h1, h2, heq⟩ := unpackTransactions_inv data e h
    simp only [Field.step, Field.decoded]
    rw [heq]
    exact ⟨txs, l, h1, h2, rfl⟩
  · obtain ⟨ws, h1, heq⟩ := unpackWithdrawals_inv data e h
    simp only [Field.step, Field.decoded]
    rw [heq, h1]
    exact ⟨Option.some_ne_none _, rfl⟩
  · obtain ⟨_, hp, heq⟩ := unpackExcessDataGas_inv data e h
    simp only [Field.step, Field.decoded]
    rw [heq]
    exact Prod.ext rfl hp

theorem runFields_frame (data : executionPayloadJSON W) (l : List Field) (g : Field)
    (hg : g ∉ l) (e : ExecutionPayload W) :
    g.same (runSteps (l.map (Field.step data)) e).1 e := by
  induction l generalizing e with
  | nil => exact field_same_refl g e
  | cons f fs ih =>
    have hne : f ≠ g := by
      intro h
      apply hg
      rw [h]
      exact List.mem_cons_self _ _
    have hfs : g ∉ fs := fun h => hg (List.mem_cons_of_mem _ h)
    have hframe := field_step_frame data f g hne e
    rcases hstep : f.step data e with ⟨st1, _ | err⟩
    · rw [hstep] at hframe
      rw [List.map_cons, runSteps_cons_ok _ _ e st1 hstep]
      exact field_same_trans g _ _ _ (ih hfs st1) hframe
    · rw [hstep] at hframe
      simp only [List.map_cons, runSteps, hstep]
      exact hframe

theorem runFields_decoded (data : executionPayloadJSON W) (l : List Field) (hnd : l.Nodup)
    (e : ExecutionPayload W) (hok : (runSteps (l.map (Field.step data)) e).2 = none)
    (j : Field) (hj : j ∈ l) :
    j.decoded data (runSteps (l.map (Field.step data)) e).1 := by
  induction l generalizing e with
  | nil => simp at hj
  | cons f fs ih =>
    rw [List.nodup_cons] at hnd
    rw [List.map_cons] at hok ⊢
    obtain ⟨hf, heq⟩ := runSteps_cons_inv _ _ e hok
    rw [heq] at hok ⊢
    rcases List.mem_cons.1 hj with h1 | h1
    · subst h1
      exact field_decoded_congr data j _ _ (runFields_frame data fs j hnd.1 _)
        (field_step_decoded data j e hf)
    · exact ih hnd.2 _ hok h1

theorem field_all_split (k : Field) :
    Field.all = Field.all.take k.index ++ k :: Field.all.drop (k.index + 1) := by
  cases k <;> rfl

theorem field_mem_take (j k : Field) (h : j.index < k.index) : j ∈ Field.all.take k.index := by
  cases k <;> cases j <;> revert h <;> decide

theorem field_mem_drop (j k : Field) (h : k.index < j.index) :
    j ∈ Field.all.drop (k.index + 1) := by
  cases k <;> cases j <;> revert h <;> decide

theorem field_all_nodup : Field.all.Nodup := by decide

theorem field_blocksBefore_eq (data : executionPayloadJSON W) (k : Field) :
    k.blocksBefore data = (Field.all.take k.index).map (Field.step data) := by
  simp only [Field.blocksBefore, unpackSteps, List.map_take]

theorem field_of_index (i : Nat) (hi : i < Field.all.length) :
    (Field.all.get ⟨i, hi⟩).index = i := by
  have h16 : i < 16 := hi
  interval_cases i <;> rfl

/-- C23. `ExecutionPayload.unpack` handles the fields in one fixed order and
stops at the first failing field.  When the blocks of the fields before `k`
raise no error and the block of `k` raises one, `unpack` returns what the
block of `k` returns, an error; every field after `k` in the order holds in
the receiver the value it held before the call, and every field before `k`
holds the value decoded from the record.  A failing `unpack` always has such a
first failing field.  So the update is not atomic: for the sample record with
an empty `fee_recipient`, read into the zero payload, `unpack` fails with
`fee recipient missing` and leaves a receiver that differs from the zero
payload (its parent hash is the decoded one). -/
theorem executionPayload_unpack_not_atomic (e : ExecutionPayload W)
    (data : executionPayloadJSON W) :
    (∀ k : Field, (runSteps (k.blocksBefore data) e).2 = none →
      (k.step data (runSteps (k.blocksBefore data) e).1).2 ≠ none →
      e.unpack data = k.step data (runSteps (k.blocksBefore data) e).1 ∧
      (e.unpack data).2 ≠ none ∧
      (∀ j : Field, k.index < j.index → j.same (e.unpack data).1 e) ∧
      (∀ j : Field, j.index < k.index → j.decoded data (e.unpack data).1)) ∧
    ((e.unpack data).2 ≠ none →
      ∃ k : Field, (runSteps (k.blocksBefore data) e).2 = none ∧
        (k.step data (runSteps (k.blocksBefore data) e).1).2 ≠ none) ∧
    (((ExecutionPayload.zero : ExecutionPayload Nat).unpack
        { sampleRecord with FeeRecipient := [] }).2 = some (.new "fee recipient missing") ∧
      ((ExecutionPayload.zero : ExecutionPayload Nat).unpack
        { sampleRecord with FeeRecipient := [] }).1
        ≠ (ExecutionPayload.zero : ExecutionPayload Nat)) := by
  refine ⟨?_, ?_, ?_, ?_⟩
  · intro k hbefore hfail
    rw [field_blocksBefore_eq] at hbefore hfail
    have hsplit := field_all_split k
    have hnd : (Field.all.take k.index ++ k :: Field.all.drop (k.index + 1)).Nodup := by
      rw [← hsplit]
      exact field_all_nodup
    have hu : e.unpack data
        = k.step data (runSteps ((Field.all.take k.index).map (Field.step data)) e).1 := by
      have h0 : e.unpack data = runSteps (Field.all.map (Field.step data)) e := rfl
      rw [h0]
      conv_lhs => rw [hsplit]
      rw [List.map_append, List.map_cons]
      exact runSteps_append_fail _ _ _ e hbefore hfail
    rw [field_blocksBefore_eq]
    refine ⟨hu, ?_, ?_, ?_⟩
    · rw [hu]
      exact hfail
    · intro j hj
      have hjk : k ≠ j := by
        intro h
        rw [h] at hj
        exact Nat.lt_irrefl _ hj
      have hjpre : j ∉ Field.all.take k.index := by
        intro hmem
        have := (List.nodup_append.1 hnd).2.2
        exact this hmem (List.mem_cons_of_mem _ (field_mem_drop j k hj))
      rw [hu]
      exact field_same_trans j _ _ _ (field_step_frame data k j hjk _)
        (runFields_frame data _ j hjpre e)
    · intro j hj
      have hjk : k ≠ j := by
        intro h
        rw [h] at hj
        exact Nat.lt_irrefl _ hj
      rw [hu]
      exact field_decoded_congr data j _ _ (field_step_frame data k j hjk _)
        (runFields_decoded data _ (List.nodup_append.1 hnd).1 e hbefore j
          (field_mem_take j k hj))
  · intro hfail
    have h0 : e.unpack data = runSteps (unpackSteps data) e := rfl
    rw [h0] at hfail
    obtain ⟨i, hi, h1, h2⟩ := runSteps_first_failure _ e hfail
    have hlen : i < Field.all.length := by
      simpa only [unpackSteps, List.length_map] using hi
    have hidx := field_of_index i hlen
    refine ⟨Field.all.get ⟨i, hlen⟩, ?_, ?_⟩
    · simp only [Field.blocksBefore, hidx]
      exact h1
    · simp only [Field.blocksBefore, hidx]
      have hget : (unpackSteps data).get ⟨i, hi⟩
          = (Field.all.get ⟨i, hlen⟩).step data := by
        simp only [unpackSteps, List.get_eq_getElem, List.getElem_map]
      rw [← hget]
      exact h2
  · decide
  · intro h
    exact absurd (congrArg (fun p => p.ParentHash.val.head?) h) (by decide)

/-- Witness for C23: the sample record with an empty `fee_recipient`, read
into the zero payload, fails at the fee recipient; the receiver then holds the
decoded parent hash, and its block number, a later field, is still zero. -/
theorem executionPayload_unpack_not_atomic_witness :
    ((ExecutionPayload.zero : ExecutionPayload Nat).unpack
      { sampleRecord with FeeRecipient := [] }).2 ≠ none ∧
    Field.blockNumber.same
      ((ExecutionPayload.zero : ExecutionPayload Nat).unpack
        { sampleRecord with FeeRecipient := [] }).1
      (ExecutionPayload.zero : ExecutionPayload Nat) ∧
    Field.parentHash.decoded { sampleRecord with FeeRecipient := [] }
      ((ExecutionPayload.zero : ExecutionPayload Nat).unpack
        { sampleRecord with FeeRecipient := [] }).1 :=
  have h := (executionPayload_unpack_not_atomic (ExecutionPayload.zero : ExecutionPayload Nat)
    { sampleRecord with FeeRecipient := [] }).1 .feeRecipient (by decide) (by decide)
  ⟨h.2.1, h.2.2.1 .blockNumber (by decide), h.2.2.2 .parentHash (by decide)⟩

end Deneb

section AssertionTheorems

open Multi

/-- C25. The unchecked type assertions in the multi wrappers cannot fail under
the dispatch invariant.  Let `doCall` hand the closure only to clients of a set
`handed`, panic only when the closure panics on such a client, and return
either a nil result or a result that the closure returned for such a client.
Then for each of the three wrappers, provided every client handed over
implements the provider interface of the operation: the closure's assertion of
the client to that interface succeeds on every client handed over and the
wrapper returns without a panic, so its final assertion of the result to its
typed value succeeds as well.  And a typed nil that the provider returns with
no error comes out of the closure as a non-nil interface holding that nil,
which the wrapper returns as a nil value with no error. -/
theorem multi_wrappers_assertions_safe {Ctx Duty Contribution : Type}
    (doCall : DoCall Ctx Duty Contribution) (ctx : Ctx)
    (handed : Client Ctx Duty Contribution → Prop)
    (hpanic : ∀ call p, doCall ctx call none = .error p →
      ∃ client, handed client ∧ call ctx client = .error p)
    (hvalue : ∀ call res err, doCall ctx call none = .ok (res, err) →
      res = none ∨ ∃ client err1, handed client ∧ call ctx client = .ok (res, err1)) :
    (∀ epoch validatorIndices,
      ((∀ client, handed client → client.proposerDutiesProvider ≠ none) →
        (∀ client, handed client →
          ∃ r, proposerDutiesCall epoch validatorIndices ctx client = .ok r) ∧
        (∃ r, ProposerDuties doCall ctx epoch validatorIndices = .ok r)) ∧
      (∀ client provider, client.proposerDutiesProvider = some provider →
        provider ctx epoch validatorIndices = (none, none) →
        proposerDutiesCall epoch validatorIndices ctx client
          = .ok (some (.proposerDuties none), none) ∧
        (doCall ctx (proposerDutiesCall epoch validatorIndices) none
            = proposerDutiesCall epoch validatorIndices ctx client →
          ProposerDuties doCall ctx epoch validatorIndices = .ok (none, none)))) ∧
    (∀ stateID validatorIndices,
      ((∀ client, handed client → client.validatorBalancesProvider ≠ none) →
        (∀ client, handed client →
          ∃ r, validatorBalancesCall stateID validatorIndices ctx client = .ok r) ∧
        (∃ r, ValidatorBalances doCall ctx stateID validatorIndices = .ok r)) ∧
      (∀ client provider, client.validatorBalancesProvider = some provider →
        provider ctx stateID validatorIndices = (none, none) →
        validatorBalancesCall stateID validatorIndices ctx client
          = .ok (some (.validatorBalances none), none) ∧
        (doCall ctx (validatorBalancesCall stateID validatorIndices) none
            = validatorBalancesCall stateID validatorIndices ctx client →
          ValidatorBalances doCall ctx stateID validatorIndices = .ok (none, none)))) ∧
    (∀ slot subcommitteeIndex beaconBlockRoot,
      ((∀ client, handed client → client.syncCommitteeContributionProvider ≠ none) →
        (∀ client, handed client →
          ∃ r, syncCommitteeContributionCall slot subcommitteeIndex beaconBlockRoot ctx client
            = .ok r) ∧
        (∃ r, SyncCommitteeContribution doCall ctx slot subcommitteeIndex beaconBlockRoot
          = .ok r)) ∧
      (∀ client provider, client.syncCommitteeContributionProvider = some provider →
        provider ctx slot subcommitteeIndex beaconBlockRoot = (none, none) →
        syncCommitteeContributionCall slot subcommitteeIndex beaconBlockRoot ctx client
          = .ok (some (.syncCommitteeContribution none), none) ∧
        (doCall ctx (syncCommitteeContributionCall slot subcommitteeIndex beaconBlockRoot)
            none
            = syncCommitteeContributionCall slot subcommitteeIndex beaconBlockRoot ctx client →
          SyncCommitteeContribution doCall ctx slot subcommitteeIndex beaconBlockRoot
            = .ok (none, none)))) := by
  refine ⟨?_, ?_, ?_⟩
  · intro epoch validatorIndices
    constructor
    · intro himpl
      have hclosure : ∀ client, handed client →
          (∃ err, proposerDutiesCall epoch validatorIndices ctx client
            = .ok (none, some err)) ∨
          (∃ block, proposerDutiesCall epoch validatorIndices ctx client
            = .ok (some (.proposerDuties block), none)) := by
        intro client hc
        obtain ⟨provider, hp⟩ := Option.ne_none_iff_exists'.1 (himpl client hc)
        rcases hr : provider ctx epoch validatorIndices with ⟨block, _ | err⟩
        · exact Or.inr ⟨block, by simp only [proposerDutiesCall, hp, hr]⟩
        · exact Or.inl ⟨err, by simp only [proposerDutiesCall, hp, hr]⟩
      constructor
      · intro client hc
        rcases hclosure client hc with ⟨err, h⟩ | ⟨block, h⟩
        · exact ⟨_, h⟩
        · exact ⟨_, h⟩
      · cases hd : doCall ctx (proposerDutiesCall epoch validatorIndices) none with
        | error p =>
          obtain ⟨client, hc, hcp⟩ := hpanic _ p hd
          rcases hclosure client hc with ⟨err, h⟩ | ⟨block, h⟩ <;>
            · rw [h] at hcp
              cases hcp
        | ok r =>
          obtain ⟨res, err⟩ := r
          cases err with
          | some err => exact ⟨_, by simp only [ProposerDuties, hd]; rfl⟩
          | none =>
            cases res with
            | none => exact ⟨_, by simp only [ProposerDuties, hd]; rfl⟩
            | some d =>
              rcases hvalue _ _ _ hd with h0 | ⟨client, err1, hc, hcv⟩
              · cases h0
              · rcases hclosure client hc with ⟨err, h⟩ | ⟨block, h⟩
                · rw [h] at hcv
                  cases hcv
                · rw [h] at hcv
                  cases hcv
                  exact ⟨_, by simp only [ProposerDuties, hd]; rfl⟩
    · intro client provider hp hr
      have hc : proposerDutiesCall epoch validatorIndices ctx client
          = .ok (some (.proposerDuties none), none) := by
        simp only [proposerDutiesCall, hp, hr]
      refine ⟨hc, ?_⟩
      intro hd
      rw [hc] at hd
      simp only [ProposerDuties, hd]
  · intro stateID validatorIndices
    constructor
    · intro himpl
      have hclosure : ∀ client, handed client →
          (∃ err, validatorBalancesCall stateID validatorIndices ctx client
            = .ok (none, some err)) ∨
          (∃ block, validatorBalancesCall stateID validatorIndices ctx client
            = .ok (some (.validatorBalances block), none)) := by
        intro client hc
        obtain ⟨provider, hp⟩ := Option.ne_none_iff_exists'.1 (himpl client hc)
        rcases hr : provider ctx stateID validatorIndices with ⟨block, _ | err⟩
        · exact Or.inr ⟨block, by simp only [validatorBalancesCall, hp, hr]⟩
        · exact Or.inl ⟨err, by simp only [validatorBalancesCall, hp, hr]⟩
      constructor
      · intro client hc
        rcases hclosure client hc with ⟨err, h⟩ | ⟨block, h⟩
        · exact ⟨_, h⟩
        · exact ⟨_, h⟩
      · cases hd : doCall ctx (validatorBalancesCall stateID validatorIndices) none with
        | error p =>
          obtain ⟨client, hc, hcp⟩ := hpanic _ p hd
          rcases hclosure client hc with ⟨err, h⟩ | ⟨block, h⟩ <;>
            · rw [h] at hcp
              cases hcp
        | ok r =>
          obtain ⟨res, err⟩ := r
          cases err with
          | some err => exact ⟨_, by simp only [ValidatorBalances, hd]; rfl⟩
          | none =>
            cases res with
            | none => exact ⟨_, by simp only [ValidatorBalances, hd]; rfl⟩
            | some d =>
              rcases hvalue _ _ _ hd with h0 | ⟨client, err1, hc, hcv⟩
              · cases h0
              · rcases hclosure client hc with ⟨err, h⟩ | ⟨block, h⟩
                · rw [h] at hcv
                  cases hcv
                · rw [h] at hcv
                  cases hcv
                  exact ⟨_, by simp only [ValidatorBalances, hd]; rfl⟩
    · intro client provider hp hr
      have hc : validatorBalancesCall stateID validatorIndices ctx client
          = .ok (some (.validatorBalances none), none) := by
        simp only [validatorBalancesCall, hp, hr]
      refine ⟨hc, ?_⟩
      intro hd
      rw [hc] at hd
      simp only [ValidatorBalances, hd]
  · intro slot subcommitteeIndex beaconBlockRoot
    constructor
    · intro himpl
      have hclosure : ∀ client, handed client →
          (∃ err, syncCommitteeContributionCall slot subcommitteeIndex beaconBlockRoot ctx
            client = .ok (none, some err)) ∨
          (∃ block, syncCommitteeContributionCall slot subcommitteeIndex beaconBlockRoot ctx
            client = .ok (some (.syncCommitteeContribution block), none)) := by
        intro client hc
        obtain ⟨provider, hp⟩ := Option.ne_none_iff_exists'.1 (himpl client hc)
        rcases hr : provider ctx slot subcommitteeIndex beaconBlockRoot with ⟨block, _ | err⟩
        · exact Or.inr ⟨block, by simp only [syncCommitteeContributionCall, hp, hr]⟩
        · exact Or.inl ⟨err, by simp only [syncCommitteeContributionCall, hp, hr]⟩
      constructor
      · intro client hc
        rcases hclosure client hc with ⟨err, h⟩ | ⟨block, h⟩
        · exact ⟨_, h⟩
        · exact ⟨_, h⟩
      · cases hd : doCall ctx
            (syncCommitteeContributionCall slot subcommitteeIndex beaconBlockRoot) none with
        | error p =>
          obtain ⟨client, hc, hcp⟩ := hpanic _ p hd
          rcases hclosure client hc with ⟨err, h⟩ | ⟨block, h⟩ <;>
            · rw [h] at hcp
              cases hcp
        | ok r =>
          obtain ⟨res, err⟩ := r
          cases err with
          | some err => exact ⟨_, by simp only [SyncCommitteeContribution, hd]; rfl⟩
          | none =>
            cases res with
            | none => exact ⟨_, by simp only [SyncCommitteeContribution, hd]; rfl⟩
            | some d =>
              rcases hvalue _ _ _ hd with h0 | ⟨client, err1, hc, hcv⟩
              · cases h0
              · rcases hclosure client hc with ⟨err, h⟩ | ⟨block, h⟩
                · rw [h] at hcv
                  cases hcv
                · rw [h] at hcv
                  cases hcv
                  exact ⟨_, by simp only [SyncCommitteeContribution, hd]; rfl⟩
    · intro client provider hp hr
      have hc : syncCommitteeContributionCall slot subcommitteeIndex beaconBlockRoot ctx client
          = .ok (some (.syncCommitteeContribution none), none) := by
        simp only [syncCommitteeContributionCall, hp, hr]
      refine ⟨hc, ?_⟩
      intro hd
      rw [hc] at hd
      simp only [SyncCommitteeContribution, hd]

/-- Witness for C25: with the dispatcher that runs the closure on the one
client whose providers all return a typed nil, the three wrappers return a nil
value and a nil error. -/
theorem multi_wrappers_assertions_safe_witness :
    ProposerDuties (singleClientDoCall typedNilClient) () 5 none = .ok (none, none) ∧
    ValidatorBalances (singleClientDoCall typedNilClient) () "head".toList none
      = .ok (none, none) ∧
    SyncCommitteeContribution (singleClientDoCall typedNilClient) () 5 0 []
      = .ok (none, none) :=
  have h := multi_wrappers_assertions_safe (singleClientDoCall typedNilClient) ()
    (fun client => client = typedNilClient)
    (fun _ _ hd => ⟨typedNilClient, rfl, hd⟩)
    (fun _ _ err hd => Or.inr ⟨typedNilClient, err, rfl, hd⟩)
  ⟨((h.1 5 none).2 typedNilClient _ rfl rfl).2 rfl,
   ((h.2.1 "head".toList none).2 typedNilClient _ rfl rfl).2 rfl,
   ((h.2.2 5 0 []).2 typedNilClient _ rfl rfl).2 rfl⟩

end AssertionTheorems

namespace Http

variable {Ctx Body A : Type}

/-- C26. `BeaconStateRoot` rejects an empty state ID before contacting the
node: for the empty state ID it returns a nil root with the error
`no state ID specified` and issues no request, whatever the node is; for every
non-empty state ID it issues exactly one request, a GET to
`/eth/v1/beacon/states/<stateID>/root`, and its outcome depends on the node
only through the answer to that GET.  With the state of the world passed
through the calls of `get`, for every node and every state: the empty state
ID leaves the state as it was, and a non-empty state ID leaves the state that
one `get` of that endpoint, made from the initial state, leaves, and returns
what the answer to that `get` decides (its error wrapped as
`failed to request state root`, a nil root and a nil error for no body).  For
the node that records the requests it receives, the record grows by exactly
the one GET, and the results and the record are those of `BeaconStateRoot`. -/
theorem http_state_root_empty_state_id (s : Service Ctx Body) (json : JSONLib Body A)
    (ctx : Ctx) :
    (BeaconStateRoot s json ctx []).result
      = .ok (none, some (.new "no state ID specified")) ∧
    (BeaconStateRoot s json ctx []).requests = [] ∧
    (∀ s2 : Service Ctx Body, BeaconStateRoot s2 json ctx [] = BeaconStateRoot s json ctx []) ∧
    (∀ stateID, stateID ≠ [] →
      (BeaconStateRoot s json ctx stateID).requests
        = [⟨"GET", "/eth/v1/beacon/states/".toList ++ stateID ++ "/root".toList⟩] ∧
      (∀ s2 : Service Ctx Body,
        s2.get ctx ("/eth/v1/beacon/states/".toList ++ stateID ++ "/root".toList)
          = s.get ctx ("/eth/v1/beacon/states/".toList ++ stateID ++ "/root".toList) →
        BeaconStateRoot s2 json ctx stateID = BeaconStateRoot s json ctx stateID)) ∧
    (∀ (σ : Type) (t : StatefulService Ctx Body σ) (w : σ),
      BeaconStateRootIn t json ctx [] w
        = (.ok (none, some (.new "no state ID specified")), w)) ∧
    (∀ (σ : Type) (t : StatefulService Ctx Body σ) (w : σ) (stateID : List Char),
      stateID ≠ [] →
      (BeaconStateRootIn t json ctx stateID w).2
        = (t.get ctx ("/eth/v1/beacon/states/".toList ++ stateID ++ "/root".toList) w).2 ∧
      (∀ body err,
        (t.get ctx ("/eth/v1/beacon/states/".toList ++ stateID ++ "/root".toList) w).1
          = (body, some err) →
        (BeaconStateRootIn t json ctx stateID w).1
          = .ok (none, some (.wrap err "failed to request state root"))) ∧
      ((t.get ctx ("/eth/v1/beacon/states/".toList ++ stateID ++ "/root".toList) w).1
          = (none, none) →
        (BeaconStateRootIn t json ctx stateID w).1 = .ok (none, none))) ∧
    (∀ (stateID : List Char) (log : List Request), stateID ≠ [] →
      (BeaconStateRootIn (recording s) json ctx stateID log).2
        = log ++ [⟨"GET", "/eth/v1/beacon/states/".toList ++ stateID ++ "/root".toList⟩]) ∧
    (∀ stateID : List Char,
      BeaconStateRootIn (recording s) json ctx stateID []
        = ((BeaconStateRoot s json ctx stateID).result,
           (BeaconStateRoot s json ctx stateID).requests)) := by
  have hstate : ∀ (σ : Type) (t : StatefulService Ctx Body σ) (w : σ) (stateID : List Char),
      stateID ≠ [] →
      (BeaconStateRootIn t json ctx stateID w).2
        = (t.get ctx ("/eth/v1/beacon/states/".toList ++ stateID ++ "/root".toList) w).2 := by
    intro σ t w stateID hne
    simp only [BeaconStateRootIn, hne, if_false, stateRootEndpoint]
    repeat' split
    all_goals simp_all
  refine ⟨rfl, rfl, fun _ => rfl, ?_, fun _ _ _ => rfl, ?_, ?_, ?_⟩
  · intro stateID hne
    constructor
    · simp only [BeaconStateRoot, hne, if_false, stateRootEndpoint]
      repeat' split
      all_goals rfl
    · intro s2 h2
      simp only [BeaconStateRoot, hne, if_false, stateRootEndpoint, h2]
  · intro σ t w stateID hne
    refine ⟨hstate σ t w stateID hne, ?_, ?_⟩
    · intro body err hget
      rcases hg : t.get ctx ("/eth/v1/beacon/states/".toList ++ stateID ++ "/root".toList) w
        with ⟨r, w1⟩
      rw [hg] at hget
      simp only at hget
      subst hget
      simp only [BeaconStateRootIn, hne, if_false, stateRootEndpoint, hg]
    · intro hget
      rcases hg : t.get ctx ("/eth/v1/beacon/states/".toList ++ stateID ++ "/root".toList) w
        with ⟨r, w1⟩
      rw [hg] at hget
      simp only at hget
      subst hget
      simp only [BeaconStateRootIn, hne, if_false, stateRootEndpoint, hg]
  · intro stateID log hne
    rw [hstate _ (recording s) log stateID hne]
    rfl
  · intro stateID
    by_cases hne : stateID = []
    · subst hne
      rfl
    · have hrec : (recording s).get ctx (stateRootEndpoint stateID) []
          = (s.get ctx (stateRootEndpoint stateID),
              [⟨"GET", stateRootEndpoint stateID⟩]) := rfl
      simp only [BeaconStateRootIn, BeaconStateRoot, hne, if_false, hrec]
      rcases hg : s.get ctx (stateRootEndpoint stateID) with ⟨_ | body, _ | err⟩
      · rfl
      · rfl
      · simp only []
        rcases hd : json.decodeStateRoot body with err | j
        · rfl
        · simp only []
          rcases hj : j.Data with _ | d
          · rfl
          · simp only []
            rcases hx : DecodeString (TrimPrefix d.Root ['0', 'x']) with err | bytes
            · rfl
            · rfl
      · rfl

/-- Witness for C26: against the node that answers every request, the empty
state ID is rejected without a request and the state ID `head` costs one GET
to `/eth/v1/beacon/states/head/root`, which the recording node adds to the
two requests it had received before. -/
theorem http_state_root_empty_state_id_witness :
    (BeaconStateRoot (answeringService shortRootBody) sampleJSON () []).result
      = .ok (none, some (.new "no state ID specified")) ∧
    (BeaconStateRoot (answeringService shortRootBody) sampleJSON () []).requests = [] ∧
    (BeaconStateRoot (answeringService shortRootBody) sampleJSON () "head".toList).requests
      = [⟨"GET", "/eth/v1/beacon/states/head/root".toList⟩] ∧
    (BeaconStateRootIn (recording (answeringService shortRootBody)) sampleJSON () []
        [⟨"GET", "/a".toList⟩, ⟨"POST", "/b".toList⟩]).2
      = [⟨"GET", "/a".toList⟩, ⟨"POST", "/b".toList⟩] ∧
    (BeaconStateRootIn (recording (answeringService shortRootBody)) sampleJSON ()
        "head".toList [⟨"GET", "/a".toList⟩, ⟨"POST", "/b".toList⟩]).2
      = [⟨"GET", "/a".toList⟩, ⟨"POST", "/b".toList⟩,
         ⟨"GET", "/eth/v1/beacon/states/head/root".toList⟩] :=
  have h := http_state_root_empty_state_id (answeringService shortRootBody) sampleJSON ()
  ⟨h.1, h.2.1, (h.2.2.2.1 "head".toList (by decide)).1,
    congrArg Prod.snd (h.2.2.2.2.1 _ (recording (answeringService shortRootBody))
      [⟨"GET", "/a".toList⟩, ⟨"POST", "/b".toList⟩]),
    h.2.2.2.2.2.2.1 "head".toList [⟨"GET", "/a".toList⟩, ⟨"POST", "/b".toList⟩] (by decide)⟩

/-- C27. `BeaconBlockRoot` checks the response in a fixed order.  With a
response body at hand: a body that the JSON decoder rejects gives the
decoder's error wrapped as `failed to parse beacon block root`; a decoded body
without a data object gives `no data returned`; an empty root string gives
`no root returned`; a non-empty root that is not valid hex after removal of an
optional `0x` prefix gives the decoding error wrapped as
`invalid root returned`; otherwise a non-nil root made of the decoded bytes is
returned with a nil error.  Every error comes with a nil root, and a non-nil
root is returned only when all four checks pass. -/
theorem http_block_root_check_order (s : Service Ctx Body) (json : JSONLib Body A)
    (ctx : Ctx) (blockID : List Char) :
    (∀ body, s.get ctx (blockRootEndpoint blockID) = (some body, none) →
      (∀ err, json.decodeBlockRoot body = .error err →
        (BeaconBlockRoot s json ctx blockID).result
          = .ok (none, some (.wrap err "failed to parse beacon block root"))) ∧
      (∀ j, json.decodeBlockRoot body = .ok j → j.Data = none →
        (BeaconBlockRoot s json ctx blockID).result
          = .ok (none, some (.new "no data returned"))) ∧
      (∀ j data, json.decodeBlockRoot body = .ok j → j.Data = some data → data.Root = [] →
        (BeaconBlockRoot s json ctx blockID).result
          = .ok (none, some (.new "no root returned"))) ∧
      (∀ j data err, json.decodeBlockRoot body = .ok j → j.Data = some data →
        data.Root ≠ [] → DecodeString (TrimPrefix data.Root ['0', 'x']) = .error err →
        (BeaconBlockRoot s json ctx blockID).result
          = .ok (none, some (.wrap err "invalid root returned"))) ∧
      (∀ j data bytes, json.decodeBlockRoot body = .ok j → j.Data = some data →
        data.Root ≠ [] → DecodeString (TrimPrefix data.Root ['0', 'x']) = .ok bytes →
        (BeaconBlockRoot s json ctx blockID).result
          = .ok (some (copyBytes (FixedBytes.zero 32) bytes), none))) ∧
    (∀ root err, (BeaconBlockRoot s json ctx blockID).result = .ok (root, some err) →
      root = none) ∧
    (∀ root, (BeaconBlockRoot s json ctx blockID).result = .ok (some root, none) →
      ∃ body j data bytes, s.get ctx (blockRootEndpoint blockID) = (some body, none) ∧
        json.decodeBlockRoot body = .ok j ∧ j.Data = some data ∧ data.Root ≠ [] ∧
        DecodeString (TrimPrefix data.Root ['0', 'x']) = .ok bytes ∧
        root = copyBytes (FixedBytes.zero 32) bytes) := by
  refine ⟨?_, ?_, ?_⟩
  · intro body hget
    refine ⟨?_, ?_, ?_, ?_, ?_⟩
    · intro err hd
      simp only [BeaconBlockRoot, hget, hd]
    · intro j hd hdata
      simp only [BeaconBlockRoot, hget, hd, hdata]
    · intro j data hd hdata hroot
      simp only [BeaconBlockRoot, hget, hd, hdata, hroot, if_true]
    · intro j data err hd hdata hroot hhex
      simp only [BeaconBlockRoot, hget, hd, hdata, hroot, if_false, hhex]
    · intro j data bytes hd hdata hroot hhex
      simp only [BeaconBlockRoot, hget, hd, hdata, hroot, if_false, hhex]
  · intro root err h
    simp only [BeaconBlockRoot] at h
    split at h
    · simp only [Except.ok.injEq, Prod.mk.injEq] at h
      exact h.1.symm
    · simp at h
    · split at h
      · simp only [Except.ok.injEq, Prod.mk.injEq] at h
        exact h.1.symm
      · split at h
        · simp only [Except.ok.injEq, Prod.mk.injEq] at h
          exact h.1.symm
        · split at h
          · simp only [Except.ok.injEq, Prod.mk.injEq] at h
            exact h.1.symm
          · split at h
            · simp only [Except.ok.injEq, Prod.mk.injEq] at h
              exact h.1.symm
            · simp at h
  · intro root h
    simp only [BeaconBlockRoot] at h
    split at h
    · simp at h
    · simp at h
    · rename_i body hget
      split at h
      · simp at h
      · rename_i j hd
        split at h
        · simp at h
        · rename_i data hdata
          split at h
          · simp at h
          · rename_i hroot
            split at h
            · simp at h
            · rename_i bytes hhex
              simp only [Except.ok.injEq, Prod.mk.injEq, Option.some.injEq, and_true] at h
              exact ⟨body, j, data, bytes, hget, hd, hdata, hroot, hhex, h.symm⟩

/-- Witness for C27: a body without data, a body with an empty root and a body
whose root is `0xzz` are rejected with `no data returned`, `no root returned`
and `invalid root returned`, each with a nil root. -/
theorem http_block_root_check_order_witness :
    (BeaconBlockRoot (answeringService noDataBody) sampleJSON () "head".toList).result
      = .ok (none, some (.new "no data returned")) ∧
    (BeaconBlockRoot (answeringService (⟨some ⟨[]⟩⟩, ⟨none⟩)) sampleJSON ()
        "head".toList).result
      = .ok (none, some (.new "no root returned")) ∧
    (BeaconBlockRoot (answeringService (⟨some ⟨"0xzz".toList⟩⟩, ⟨none⟩)) sampleJSON ()
        "head".toList).result
      = .ok (none, some (.wrap (.hexInvalidByte 'z') "invalid root returned")) :=
  ⟨((http_block_root_check_order (answeringService noDataBody) sampleJSON ()
      "head".toList).1 noDataBody rfl).2.1 _ rfl rfl,
   ((http_block_root_check_order (answeringService (⟨some ⟨[]⟩⟩, ⟨none⟩)) sampleJSON ()
      "head".toList).1 _ rfl).2.2.1 _ _ rfl rfl rfl,
   ((http_block_root_check_order (answeringService (⟨some ⟨"0xzz".toList⟩⟩, ⟨none⟩))
      sampleJSON () "head".toList).1 _ rfl).2.2.2.1 _ _ _ rfl rfl (by decide) (by decide)⟩

end Http

end Eth2Client
